import Mathlib

/-!
# NetCatServer: a shallow embedding of the connection and process-lifecycle engine

The definitions below render the C++ sources (`main.cpp`, `cmdparser.cpp`,
`sd-daemon.cpp`) as pure Lean functions.  C strings and `std::string` values are
lists of characters, file descriptors and process ids are integers, and every
piece of process state a function touches (the static buffer of `peername`, the
descriptor table, the environment, `pid_map`, the text written to `cerr`) is
passed in and returned explicitly.  Answers of the operating system (the result
of `accept`, `fork`, `execvp`, `getsockname`) are arguments of the functions
that consume them.
-/

set_option autoImplicit false

namespace NetCatServer

/-! ## Text utilities -/

/-- Decimal text of an integer, as produced by `std::ostream << int`. -/
def decimal (n : Int) : List Char :=
  if n < 0 then Char.ofNat 0x2D :: Nat.toDigits 10 n.natAbs else Nat.toDigits 10 n.toNat

/-! ## cmdparser.cpp: splitArgs -/

/-- The local variables of `splitArgs`: the result list `argv`, the token being
built `current`, the flag `escape`, and `inquotes` (the open quote character,
`0` when no quote is open). -/
structure SplitState where
  argv : List (List Char)
  current : List Char
  escape : Bool
  inquotes : Char
deriving DecidableEq, Repr

/-- The values of the locals of `splitArgs` before the loop. -/
def SplitState.init : SplitState :=
  { argv := [], current := [], escape := false, inquotes := Char.ofNat 0 }

/-- One iteration of the `for` loop of `splitArgs` on the character `cchar`. -/
def splitArgs_step (st : SplitState) (cchar : Char) : SplitState :=
  if st.escape then
    { st with current := st.current ++ [cchar], escape := false }
  else if st.inquotes ≠ Char.ofNat 0 then
    if cchar = Char.ofNat 0x5C then { st with escape := true }
    else if cchar = st.inquotes then { st with inquotes := Char.ofNat 0 }
    else { st with current := st.current ++ [cchar] }
  else
    if cchar = Char.ofNat 0x20 then
      if st.current ≠ [] then { st with argv := st.argv ++ [st.current], current := [] }
      else st
    else if cchar = Char.ofNat 0x22 ∨ cchar = Char.ofNat 0x27 then { st with inquotes := cchar }
    else { st with current := st.current ++ [cchar] }

/-- The function `CmdParser::splitArgs`: run the loop over all characters, then
push the last token when it is not empty. -/
def splitArgs (args : List Char) : List (List Char) :=
  let st := args.foldl splitArgs_step SplitState.init
  if st.current ≠ [] then st.argv ++ [st.current] else st.argv

/-! ## main.cpp: socket addresses and peername -/

/-- Address family constant `AF_INET`. -/
def AF_INET : Int := 2

/-- Address family constant `AF_INET6` (its Linux value). -/
def AF_INET6 : Int := 10

/-- The union `sockaddr_inet` of `short family`, `sockaddr_in in` and
`sockaddr_in6 in6`, by byte offset: the family at offset 0 (`family`,
`in.sin_family`, `in6.sin6_family`), the port at offset 2, four bytes at offset 4
(`in.sin_addr`, which is also `in6.sin6_flowinfo`), and sixteen bytes at offset 8
(`in6.sin6_addr`; `in.sin_zero` lies over its first eight bytes). -/
structure sockaddr_inet where
  family : Int
  port : Nat
  bytes4 : List Nat
  bytes8 : List Nat
deriving DecidableEq, Repr

/-- A `sockaddr_in` holding the IPv4 address `a.b.c.d`. -/
def sockaddr_inet.ipv4 (a b c d : Nat) (port : Nat) : sockaddr_inet :=
  { family := AF_INET, port := port, bytes4 := [a, b, c, d], bytes8 := List.replicate 16 0 }

/-- A `sockaddr_in6` holding the sixteen address bytes `addr` and the given flow
information bytes. -/
def sockaddr_inet.ipv6 (addr : List Nat) (port : Nat) (flowinfo : List Nat) : sockaddr_inet :=
  { family := AF_INET6, port := port, bytes4 := flowinfo, bytes8 := addr }

/-- The memory that the pointer `&peer.in.sin_addr` points to: the bytes of the
union from offset 4 on. -/
def sockaddr_inet.from_sin_addr (peer : sockaddr_inet) : List Nat :=
  peer.bytes4 ++ peer.bytes8

/-- Dotted-decimal text of the first four bytes of `src` (the text `inet_ntop`
produces for `AF_INET`). -/
def dotted4 (src : List Nat) : List Char :=
  decimal (src.getD 0 0) ++ [Char.ofNat 0x2E] ++ decimal (src.getD 1 0) ++ [Char.ofNat 0x2E]
    ++ decimal (src.getD 2 0) ++ [Char.ofNat 0x2E] ++ decimal (src.getD 3 0)

/-- The eight 16-bit words of the first sixteen bytes of `src`, big endian. -/
def words6 (src : List Nat) : List Nat :=
  (List.range 8).map fun i => src.getD (2 * i) 0 * 256 + src.getD (2 * i + 1) 0

/-- Scan of `inet_ntop` for the longest run of zero words: `cur` and `best` are
`(base, len)` pairs and `i` is the index of the head of the list. -/
def zero_run_scan : List Nat → Nat → Option (Nat × Nat) → Option (Nat × Nat) → Option (Nat × Nat)
  | [], _, cur, best =>
    match cur, best with
    | some c, some b => if c.2 > b.2 then some c else some b
    | some c, none => some c
    | none, b => b
  | w :: ws, i, cur, best =>
    if w = 0 then
      match cur with
      | none => zero_run_scan ws (i + 1) (some (i, 1)) best
      | some c => zero_run_scan ws (i + 1) (some (c.1, c.2 + 1)) best
    else
      match cur, best with
      | some c, some b => zero_run_scan ws (i + 1) none (if c.2 > b.2 then some c else some b)
      | some c, none => zero_run_scan ws (i + 1) none (some c)
      | none, b => zero_run_scan ws (i + 1) none b

/-- The run of zero words that `inet_ntop` abbreviates to `::`: the first longest
run, when it has at least two words. -/
def best_zero_run (words : List Nat) : Option (Nat × Nat) :=
  match zero_run_scan words 0 none none with
  | some b => if b.2 < 2 then none else some b
  | none => none

/-- The formatting loop of `inet_ntop` for `AF_INET6`, over word index `i`, with
`fuel` words left. -/
def format6_loop (src words : List Nat) (best : Option (Nat × Nat)) : Nat → Nat → List Char
  | 0, _ => []
  | fuel + 1, i =>
    match best with
    | some b =>
      if b.1 ≤ i ∧ i < b.1 + b.2 then
        (if i = b.1 then [Char.ofNat 0x3A] else []) ++ format6_loop src words best fuel (i + 1)
      else
        (if i ≠ 0 then [Char.ofNat 0x3A] else []) ++
          (if i = 6 ∧ b.1 = 0 ∧ (b.2 = 6 ∨ (b.2 = 5 ∧ words.getD 5 0 = 0xffff)) then
            dotted4 (src.drop 12)
          else Nat.toDigits 16 (words.getD i 0) ++ format6_loop src words best fuel (i + 1))
    | none =>
      (if i ≠ 0 then [Char.ofNat 0x3A] else []) ++
        Nat.toDigits 16 (words.getD i 0) ++ format6_loop src words best fuel (i + 1)

/-- Display text of the sixteen bytes at `src` as an IPv6 address (the text
`inet_ntop` produces for `AF_INET6`). -/
def text6 (src : List Nat) : List Char :=
  let words := words6 src
  let best := best_zero_run words
  format6_loop src words best 8 0 ++
    (match best with
     | some b => if b.1 + b.2 = 8 then [Char.ofNat 0x3A] else []
     | none => [])

/-- The library call `inet_ntop(af, src, dst, size)`: the text written to `dst`
on success, `none` when the call fails (the text and its terminating zero do not
fit in `size` bytes, or the family is neither `AF_INET` nor `AF_INET6`).  A
failing call leaves `dst` as it was, as in the GNU C library. -/
def inet_ntop (af : Int) (src : List Nat) (size : Nat) : Option (List Char) :=
  if af = AF_INET then
    if (dotted4 src).length + 1 ≤ size then some (dotted4 src) else none
  else if af = AF_INET6 then
    if (text6 src).length + 1 ≤ size then some (text6 src) else none
  else none

/-- The function `peername` of main.cpp.  Its `static char straddr[INET6_ADDRSTRLEN+3]`
starts with the character `[`, which is never overwritten; `buf` is the C string
held at `straddr+1` before the call.  The size passed to `inet_ntop` is
`sizeof(straddr-1)`, the size of a `char *`, given here as `ptr_size`.  The result
is the string held at `straddr+1` after the call, paired with the returned C
string.  (The bound of the array is not tracked.) -/
def peername (ptr_size : Nat) (buf : List Char) (peer : sockaddr_inet) :
    List Char × List Char :=
  let buf1 :=
    match inet_ntop peer.family peer.from_sin_addr ptr_size with
    | some text => text
    | none => buf
  if peer.family = AF_INET6 then
    let buf2 := buf1 ++ [Char.ofNat 0x5D]
    (buf2, Char.ofNat 0x5B :: buf2)
  else
    (buf1, buf1)

/-- The initial content of `straddr+1`: the empty string. -/
def straddr_init : List Char := []

/-- Bit `PASS_IN` of the pass mask. -/
def PASS_IN : Nat := 1

/-- Bit `PASS_OUT` of the pass mask. -/
def PASS_OUT : Nat := 2

/-- Bit `PASS_ERR` of the pass mask. -/
def PASS_ERR : Nat := 4

/-- The data members of `struct Client` that are set by its constructor. -/
structure Client where
  fd : Int
  peer : sockaddr_inet
  pass : Nat
  exec_argv : List (List Char)
deriving DecidableEq, Repr

/-- What a member function of `Client` reads from its process besides the
`Client` itself: the size of a pointer and the value of `getpid()`. -/
structure ProcInfo where
  ptr_size : Nat
  pid : Int
deriving DecidableEq, Repr

/-- The matches that `std::sregex_iterator` finds in `str` for the expression
`Client::re`, written `\%([^\%])`: a percent sign followed by one character
other than a percent sign.  The matches do not overlap and are found from left
to right.  Each match is given as the text between the end of the match before
it (or the start of `str`) and its own start, and its captured character; the
second component is the text after the last match (all of `str` when there is
no match). -/
def sregex_matches : List Char → List (List Char × Char) × List Char
  | [] => ([], [])
  | [c] => ([], [c])
  | c :: d :: rest =>
    if c = Char.ofNat 0x25 ∧ d ≠ Char.ofNat 0x25 then
      (([], d) :: (sregex_matches rest).1, (sregex_matches rest).2)
    else
      match (sregex_matches (d :: rest)).1 with
      | [] => ([], c :: (sregex_matches (d :: rest)).2)
      | (p, x) :: ms => ((c :: p, x) :: ms, (sregex_matches (d :: rest)).2)

/-- The function `Client::ref_var` on a match whose captured character is `x`;
`buf` is the static buffer of `peername`, returned with the text. -/
def Client.ref_var (c : Client) (info : ProcInfo) (buf : List Char) (x : Char) :
    List Char × List Char :=
  if x = Char.ofNat 0x61 then
    ((peername info.ptr_size buf c.peer).1, (peername info.ptr_size buf c.peer).2)
  else if x = Char.ofNat 0x70 then
    (buf, decimal info.pid)
  else
    (buf, [Char.ofNat 0x25, x])

/-- The `for` loop of `Client::regex_replace_var` over the matches: `res`
receives the text before each match and the value of `ref_var` for it. -/
def Client.replace_loop (c : Client) (info : ProcInfo) :
    List (List Char × Char) → List Char → List Char → List Char × List Char
  | [], buf, res => (buf, res)
  | (p, x) :: ms, buf, res =>
    Client.replace_loop c info ms (c.ref_var info buf x).1 (res ++ p ++ (c.ref_var info buf x).2)

/-- The function `Client::regex_replace_var`: the string itself when the
expression has no match, otherwise the result of the loop followed by the text
after the last match.  The first component is the buffer of `peername`. -/
def Client.regex_replace_var (c : Client) (info : ProcInfo) (buf : List Char) (str : List Char) :
    List Char × List Char :=
  match (sregex_matches str).1 with
  | [] => (buf, str)
  | m :: ms =>
    ((c.replace_loop info (m :: ms) buf []).1,
      (c.replace_loop info (m :: ms) buf []).2 ++ (sregex_matches str).2)

/-- The `std::transform` of `Client::prepare_argv` over `exec_argv`. -/
def Client.transform_argv (c : Client) (info : ProcInfo) :
    List (List Char) → List Char → List Char × List (List Char)
  | [], buf => (buf, [])
  | s :: ss, buf =>
    ((Client.transform_argv c info ss (c.regex_replace_var info buf s).1).1,
      (c.regex_replace_var info buf s).2 ::
        (Client.transform_argv c info ss (c.regex_replace_var info buf s).1).2)

/-- The function `Client::prepare_argv`: the member `argv` after the call, where
`none` is the closing `NULL`, paired with the buffer of `peername`. -/
def Client.prepare_argv (c : Client) (info : ProcInfo) (buf : List Char) :
    List Char × List (Option (List Char)) :=
  ((c.transform_argv info c.exec_argv buf).1,
    (c.transform_argv info c.exec_argv buf).2.map some ++ [none])

/-! ## Descriptor tables -/

/-- An open descriptor: the open file it refers to and its close-on-exec flag. -/
structure FdEntry where
  file : Nat
  cloexec : Bool
deriving DecidableEq, Repr

/-- The descriptor table of a process: `none` for a descriptor that is not open. -/
abbrev FdTable := Int → Option FdEntry

/-- The table `t` with descriptor `fd` set to `e`. -/
def FdTable.set (t : FdTable) (fd : Int) (e : Option FdEntry) : FdTable :=
  fun k => if k = fd then e else t k

/-- The system call `dup2(oldfd, newfd)` (its return value is never used by the
program) in a process whose limit on descriptor numbers (`RLIMIT_NOFILE`) is
`nofile`.  The call fails, and nothing changes, when `oldfd` is not open or when
`newfd` is negative or not below `nofile`; nothing changes either when `oldfd`
equals `newfd`; otherwise `newfd` refers to the file of `oldfd`, with the
close-on-exec flag clear. -/
def dup2 (nofile : Int) (t : FdTable) (oldfd newfd : Int) : FdTable :=
  match t oldfd with
  | none => t
  | some e =>
    if newfd < 0 ∨ nofile ≤ newfd then t
    else if oldfd = newfd then t
    else t.set newfd (some { file := e.file, cloexec := false })

/-- The system call `fcntl(fd, F_SETFD, FD_CLOEXEC)`: the return value (`-1` when
`fd` is not open, else `0`) and the table after the call. -/
def fcntl_setfd_cloexec (t : FdTable) (fd : Int) : Int × FdTable :=
  match t fd with
  | none => (-1, t)
  | some e => (0, t.set fd (some { file := e.file, cloexec := true }))

/-- The system call `close(fd)` on the table. -/
def close (t : FdTable) (fd : Int) : FdTable :=
  t.set fd none

/-- The descriptor table of a process after a successful `execvp`: descriptors
marked close-on-exec are closed. -/
def exec_close (t : FdTable) : FdTable :=
  fun k => match t k with
    | none => none
    | some e => if e.cloexec then none else some e

/-! ## Text written to cerr -/

/-- The messages the program writes to `cerr`, by content. -/
inductive LogEvent where
  | calling (pid : Int) (argv : List (Option (List Char)))
  | perror (op : String)
  | connected (peer : List Char)
  | connected_pid (pid : Int)
  | connection_lost (peer : List Char) (pid : Int)
  | unknown_connection_lost (pid : Int)
  | getting_socket
  | too_many_fds
  | no_fds
  | bound_to (addr : List Char) (port : Nat)
  | opening_socket
  | caught_sigint
deriving DecidableEq, Repr

/-! ## main.cpp: Client::run and Client::start -/

/-- The statements `dup2(2, 200); fcntl(200, F_SETFD, FD_CLOEXEC);` of `Client::run`. -/
def save_stderr (nofile : Int) (t : FdTable) : FdTable :=
  (fcntl_setfd_cloexec (dup2 nofile t 2 200) 200).2

/-- The three conditional `dup2` calls of `Client::run`. -/
def Client.pass_fds (c : Client) (nofile : Int) (t : FdTable) : FdTable :=
  let t0 := if c.pass &&& PASS_IN ≠ 0 then dup2 nofile t c.fd 0 else t
  let t1 := if c.pass &&& PASS_OUT ≠ 0 then dup2 nofile t0 c.fd 1 else t0
  if c.pass &&& PASS_ERR ≠ 0 then dup2 nofile t1 c.fd 2 else t1

/-- How a child process that entered `Client::run` ends: its image is replaced
(with the argument vector and the descriptor table the new image starts with),
or it calls `exit`.  Each message comes with the open file that descriptor 2
referred to when it was written. -/
inductive ChildOutcome where
  | image_replaced (argv : List (Option (List Char))) (fds : FdTable)
      (cerr : List (Option Nat × LogEvent))
  | exited (status : Int) (fds : FdTable) (cerr : List (Option Nat × LogEvent))

/-- The open file that descriptor 2 refers to. -/
def stderr_file (t : FdTable) : Option Nat :=
  (t 2).map fun e => e.file

/-- The function `Client::run`, which does not return.  `buf` and `fds` are the
buffer of `peername` and the descriptor table of the calling process, `nofile` is
its limit on descriptor numbers, and `exec_ok` tells whether
`execvp(argv[0], argv.data())` succeeds. -/
def Client.run (c : Client) (info : ProcInfo) (buf : List Char) (fds : FdTable)
    (nofile : Int) (exec_ok : Bool) : ChildOutcome :=
  let argv := (c.prepare_argv info buf).2
  let cerr1 := [(stderr_file fds, LogEvent.calling info.pid argv)]
  let fds1 := save_stderr nofile fds
  let fds2 := c.pass_fds nofile fds1
  if exec_ok then
    ChildOutcome.image_replaced argv (exec_close fds2) cerr1
  else
    let fds3 := dup2 nofile fds2 200 2
    ChildOutcome.exited 1 fds3 (cerr1 ++ [(stderr_file fds3, LogEvent.perror "exec")])

/-- How a call of `Client::start` ends in the process that made it: it returns the
value of `fork()`, or the process is the child and ends inside `run`. -/
inductive StartOutcome where
  | returned (pid : Int)
  | child (o : ChildOutcome)

/-- The function `Client::start`.  `fork_result` is the value `fork()` returns in
this process and `getpid` the value of `getpid()` after it.  The `exit(0)` after
`run()` is never reached. -/
def Client.start (c : Client) (ptr_size : Nat) (buf : List Char) (fds : FdTable)
    (nofile : Int) (fork_result : Int) (getpid : Int) (exec_ok : Bool) : StartOutcome :=
  if fork_result ≠ 0 then StartOutcome.returned fork_result
  else
    StartOutcome.child (c.run { ptr_size := ptr_size, pid := getpid } buf fds nofile exec_ok)

/-! ## main.cpp: the globals, the child-exit handler and the accept loop -/

/-- The global `std::unordered_map<int, std::unique_ptr<Client>> pid_map`, as a
list of entries with distinct keys. -/
abbrev PidMap := List (Int × Client)

/-- The member `find` of `pid_map`: the client stored under `pid`. -/
def PidMap.find (m : PidMap) (pid : Int) : Option Client :=
  match m with
  | [] => none
  | (k, v) :: rest => if k = pid then some v else PidMap.find rest pid

/-- The member `erase` of `pid_map` for the entry with key `pid`. -/
def PidMap.erase (m : PidMap) (pid : Int) : PidMap :=
  m.filter fun e => e.1 ≠ pid

/-- The member `emplace` of `pid_map`: nothing is inserted when the key is
already present. -/
def PidMap.emplace (m : PidMap) (pid : Int) (c : Client) : PidMap :=
  match m.find pid with
  | some _ => m
  | none => m ++ [(pid, c)]

/-- The state of the server process that the handler and the loop work on:
`pid_map`, the static buffer of `peername`, the descriptor table, and the text
written to `cerr` so far. -/
structure Server where
  pid_map : PidMap
  straddr : List Char
  fds : FdTable
  cerr : List LogEvent

/-- The function `sigchld_handler`, called with `si->si_pid = si_pid`. -/
def sigchld_handler (ptr_size : Nat) (s : Server) (si_pid : Int) : Server :=
  match s.pid_map.find si_pid with
  | none => { s with cerr := s.cerr ++ [LogEvent.unknown_connection_lost si_pid] }
  | some c =>
    { s with
      pid_map := s.pid_map.erase si_pid
      straddr := (peername ptr_size s.straddr c.peer).1
      cerr := s.cerr ++ [LogEvent.connection_lost (peername ptr_size s.straddr c.peer).2 si_pid] }

/-- The value of `errno` for an interrupted system call. -/
def EINTR : Int := 4

/-- The answer of the system call `::accept`: the returned descriptor (negative
on failure), the value of `errno` after a failure, the peer address stored in
`sa`, and the open file of the new connection. -/
structure AcceptResult where
  sock : Int
  errno : Int
  sa : sockaddr_inet
  file : Nat
deriving DecidableEq, Repr

/-- The function `Client::accept`, given the answer of `::accept`: `none` is the
null pointer. -/
def Client.accept (pass : Nat) (exec_argv : List (List Char)) (r : AcceptResult) :
    Option Client :=
  if r.sock < 0 then none
  else some { fd := r.sock, peer := r.sa, pass := pass, exec_argv := exec_argv }

/-- The answers of the operating system during one iteration of the accept loop:
the answer of `::accept`, the value `fork()` returns in this process, the value
of `getpid()` after the fork, whether `execvp` succeeds, and the limit on
descriptor numbers (`RLIMIT_NOFILE`) in force. -/
structure IterOS where
  acc : AcceptResult
  fork_result : Int
  getpid : Int
  exec_ok : Bool
  nofile : Int
deriving DecidableEq, Repr

/-- Where one iteration of the accept loop stands after `client->start()`: the
iteration was cut short by `continue` (`next`), `start` returned `pid` in the
server (`started`), or this process is the child and ended in `run` (`in_child`). -/
inductive LoopStage where
  | next (s : Server)
  | started (s : Server) (pid : Int) (client : Client)
  | in_child (o : ChildOutcome)

/-- The body of the accept loop from `Client::accept` up to and including the
output of the pid returned by `client->start()`. -/
def loop_body_start (ptr_size : Nat) (pass : Nat) (exec_argv : List (List Char))
    (s : Server) (os : IterOS) : LoopStage :=
  match Client.accept pass exec_argv os.acc with
  | none =>
    if os.acc.errno = EINTR then LoopStage.next s
    else LoopStage.next { s with cerr := s.cerr ++ [LogEvent.perror "accept"] }
  | some client =>
    let fds1 := s.fds.set os.acc.sock (some { file := os.acc.file, cloexec := false })
    let pn := peername ptr_size s.straddr client.peer
    match client.start ptr_size pn.1 fds1 os.nofile os.fork_result os.getpid os.exec_ok with
    | StartOutcome.returned pid =>
      LoopStage.started
        { s with
          fds := fds1
          straddr := pn.1
          cerr := s.cerr ++ [LogEvent.connected pn.2, LogEvent.connected_pid pid] }
        pid client
    | StartOutcome.child o => LoopStage.in_child o

/-- The end of the body of the accept loop: `close(client->fd)` and
`pid_map.emplace(pid, std::move(client))`. -/
def loop_body_finish (s : Server) (pid : Int) (client : Client) : Server :=
  { s with fds := close s.fds client.fd, pid_map := s.pid_map.emplace pid client }

/-- How the server process stands after some iterations of the accept loop: still
in the loop with state `s`, or it is a child that ended in `run`. -/
inductive LoopResult where
  | looping (s : Server)
  | child_ended (o : ChildOutcome)

/-- One full iteration of the accept loop, with no signal delivered during it. -/
def loop_body (ptr_size : Nat) (pass : Nat) (exec_argv : List (List Char))
    (s : Server) (os : IterOS) : LoopResult :=
  match loop_body_start ptr_size pass exec_argv s os with
  | LoopStage.next s1 => LoopResult.looping s1
  | LoopStage.started s1 pid client => LoopResult.looping (loop_body_finish s1 pid client)
  | LoopStage.in_child o => LoopResult.child_ended o

/-- The loop `while (true)` of `main` run on a list of answers of the operating
system, one per iteration. -/
def accept_loop (ptr_size : Nat) (pass : Nat) (exec_argv : List (List Char)) :
    Server → List IterOS → LoopResult
  | s, [] => LoopResult.looping s
  | s, os :: rest =>
    match loop_body ptr_size pass exec_argv s os with
    | LoopResult.looping s1 => accept_loop ptr_size pass exec_argv s1 rest
    | LoopResult.child_ended o => LoopResult.child_ended o

/-! ## The accept loop interleaved with child-exit notifications -/

/-- The server together with the point its accept loop has reached and a record
of what happened: `pending` holds the pid and client between the return of
`client->start()` and the end of the iteration, `launched` lists the pids for
which `fork` created a child, `handled` the pids whose child-exit notification
has been handled. -/
structure Sys where
  server : Server
  pending : Option (Int × Client)
  launched : List Int
  handled : List Int

/-- The steps of the server: the first part of an iteration of the accept loop
(up to the return of `start`), the rest of that iteration, and the delivery of a
child-exit notification. -/
inductive Event where
  | iter_start (os : IterOS)
  | iter_finish
  | sigchld (si_pid : Int)
deriving DecidableEq, Repr

/-- One step of the server process; `none` when the step cannot happen in the
state (an iteration starts only when none is open, `fork` gives the server a
non-zero value, a notification arrives only for a launched child that has not
been notified yet). -/
def Sys.step (ptr_size : Nat) (pass : Nat) (exec_argv : List (List Char)) (y : Sys) :
    Event → Option Sys
  | Event.iter_start os =>
    match y.pending with
    | some _ => none
    | none =>
      match loop_body_start ptr_size pass exec_argv y.server os with
      | LoopStage.next s1 => some { y with server := s1 }
      | LoopStage.started s1 pid client =>
        some { y with
          server := s1
          pending := some (pid, client)
          launched := if 0 < pid then pid :: y.launched else y.launched }
      | LoopStage.in_child _ => none
  | Event.iter_finish =>
    match y.pending with
    | none => none
    | some (pid, client) =>
      some { y with server := loop_body_finish y.server pid client, pending := none }
  | Event.sigchld si_pid =>
    if si_pid ∈ y.launched ∧ si_pid ∉ y.handled then
      some { y with
        server := sigchld_handler ptr_size y.server si_pid
        handled := si_pid :: y.handled }
    else none

/-- A sequence of steps from a state. -/
def Sys.steps (ptr_size : Nat) (pass : Nat) (exec_argv : List (List Char)) :
    Sys → List Event → Option Sys
  | y, [] => some y
  | y, e :: es =>
    match y.step ptr_size pass exec_argv e with
    | none => none
    | some y1 => Sys.steps ptr_size pass exec_argv y1 es

/-- The server when it enters the accept loop with an empty `pid_map`. -/
def Sys.init (straddr : List Char) (fds : FdTable) (cerr : List LogEvent) : Sys :=
  { server := { pid_map := [], straddr := straddr, fds := fds, cerr := cerr }
    pending := none, launched := [], handled := [] }

/-- The registry invariant: `pid` is a key of `pid_map` exactly when it has been
launched and its child-exit notification has not been handled. -/
def Sys.registry_ok (y : Sys) (pid : Int) : Prop :=
  (y.server.pid_map.find pid).isSome ↔ (pid ∈ y.launched ∧ pid ∉ y.handled)

instance (y : Sys) (pid : Int) : Decidable (y.registry_ok pid) :=
  inferInstanceAs
    (Decidable ((y.server.pid_map.find pid).isSome ↔ (pid ∈ y.launched ∧ pid ∉ y.handled)))

/-! ## sd-daemon.cpp -/

/-- The process environment: names with their values. -/
abbrev Env := List (String × List Char)

/-- The library call `getenv`. -/
def getenv (env : Env) (name : String) : Option (List Char) :=
  match env with
  | [] => none
  | (k, v) :: rest => if k = name then some v else getenv rest name

/-- The library call `unsetenv`. -/
def unsetenv (env : Env) (name : String) : Env :=
  env.filter fun e => e.1 ≠ name

/-- The characters that stream extraction skips as white space. -/
def isspace (c : Char) : Bool :=
  c = Char.ofNat 0x20 ∨ (0x09 ≤ c.toNat ∧ c.toNat ≤ 0x0D)

/-- Value of a list of decimal digits, most significant first, after `acc`. -/
def digits_value (acc : Nat) : List Char → Nat
  | [] => acc
  | d :: ds => digits_value (acc * 10 + (d.toNat - 0x30)) ds

/-- The largest value of type `int`. -/
def INT_MAX : Int := 2147483647

/-- The smallest value of type `int`. -/
def INT_MIN : Int := -2147483648

/-- The function `s2int`: `std::istringstream is(s); is >> i; return i;`.  White
space is skipped; when the text ends there nothing is stored and the result is
the value `uninit` that the uninitialised local `i` happens to hold.  Otherwise
an optional sign and a run of decimal digits are read: no digit stores `0`, and a
value outside the range of `int` stores the nearest bound. -/
def s2int (uninit : Int) (s : List Char) : Int :=
  match s.dropWhile isspace with
  | [] => uninit
  | c :: rest =>
    let neg := decide (c = Char.ofNat 0x2D)
    let body := if c = Char.ofNat 0x2D ∨ c = Char.ofNat 0x2B then rest else c :: rest
    let ds := body.takeWhile Char.isDigit
    if ds = [] then 0
    else
      let v : Int := if neg then -(digits_value 0 ds : Int) else (digits_value 0 ds : Int)
      if v < INT_MIN then INT_MIN else if INT_MAX < v then INT_MAX else v

/-- Conversion of an integer to the 32-bit type `int`. -/
def to_int (x : Int) : Int :=
  (x + 2147483648) % 4294967296 - 2147483648

/-- Conversion of an integer to the 32-bit type `unsigned`. -/
def to_unsigned (x : Int) : Int :=
  x % 4294967296

/-- The first descriptor passed by the service manager, `SD_LISTEN_FDS_START`. -/
def SD_LISTEN_FDS_START : Int := 3

/-- The `for` loop of `sd_listen_fds` with `count` descriptors left, starting at
`fd`: the last return value of `fcntl` when a call failed (else `none`), and the
descriptor table. -/
def cloexec_loop : Nat → Int → FdTable → Option Int × FdTable
  | 0, _, t => (none, t)
  | count + 1, fd, t =>
    if (fcntl_setfd_cloexec t fd).1 < 0 then (some (fcntl_setfd_cloexec t fd).1, t)
    else cloexec_loop count (fd + 1) (fcntl_setfd_cloexec t fd).2

/-- The result of `sd_listen_fds`: the returned value, the environment and the
descriptor table after the call. -/
structure SdResult where
  ret : Int
  environ : Env
  fds : FdTable

/-- The function `sd_listen_fds`; `pid` is the value of `getpid()`. -/
def sd_listen_fds (uninit : Int) (unset_environment : Int) (pid : Int) (env : Env)
    (fds : FdTable) : SdResult :=
  let body : Int × FdTable :=
    match getenv env "LISTEN_PID" with
    | none => (0, fds)
    | some e =>
      if pid ≠ s2int uninit e then (0, fds)
      else
        match getenv env "LISTEN_FDS" with
        | none => (0, fds)
        | some e2 =>
          let n := to_unsigned (s2int uninit e2)
          let bound := to_int (SD_LISTEN_FDS_START + to_int n)
          match cloexec_loop (bound - SD_LISTEN_FDS_START).toNat SD_LISTEN_FDS_START fds with
          | (some r, t) => (r, t)
          | (none, t) => (to_int n, t)
  { ret := body.1
    environ :=
      if unset_environment ≠ 0 then unsetenv (unsetenv env "LISTEN_PID") "LISTEN_FDS" else env
    fds := body.2 }

/-! ## main.cpp: obtaining the socket from the service manager -/

/-- What `main` holds when it reaches the signal set-up: the descriptor `fd`, the
environment, the descriptor table, the buffer of `peername`, and the text
written to `cerr`. -/
structure Provisioned where
  fd : Int
  environ : Env
  fds : FdTable
  straddr : List Char
  cerr : List LogEvent

/-- How the socket part of `main` ends: with a call of `exit`, or with a
descriptor to accept on. -/
inductive Startup where
  | exited (status : Int) (cerr : List LogEvent)
  | ready (p : Provisioned)

/-- The branch `if (args["systemd"].toBool())` of `main`; `sockname` is the
address that `getsockname` stores in `sa`. -/
def main_systemd (uninit : Int) (ptr_size : Nat) (pid : Int) (env : Env) (fds : FdTable)
    (straddr : List Char) (sockname : sockaddr_inet) : Startup :=
  let r := sd_listen_fds uninit 1 pid env fds
  if r.ret > 1 then
    Startup.exited 1 [LogEvent.getting_socket, LogEvent.too_many_fds]
  else if r.ret < 1 then
    Startup.exited 1 [LogEvent.getting_socket, LogEvent.no_fds]
  else
    let fd := SD_LISTEN_FDS_START + 0
    let pn := peername ptr_size straddr sockname
    Startup.ready
      { fd := fd, environ := r.environ, fds := r.fds, straddr := pn.1
        cerr := [LogEvent.getting_socket, LogEvent.bound_to pn.2 sockname.port] }

/-! ## main.cpp: opening the listening socket -/

/-- The test and the assignments of `main` on the bind literal: the condition
`!addrs.compare(0, 1, "[") && !addrs.compare(addrs.size()-1, 1, "]")` (the second
comparison is evaluated only when the first holds, so `addrs` is not empty
there), and in its branch `args["ipv6"] = true; addrs = addrs.substr(1,
addrs.size()-2)`.  The result is `addrs` and the value of `args["ipv6"]`
afterwards. -/
def bind_select (addrs : List Char) (ipv6 : Bool) : List Char × Bool :=
  if addrs.take 1 = [Char.ofNat 0x5B]
      ∧ (addrs.drop (addrs.length - 1)).take 1 = [Char.ofNat 0x5D] then
    ((addrs.drop 1).take (addrs.length - 2), true)
  else
    (addrs, ipv6)

/-- The local `sockaddr_inet addr` of `main` when `socket` is called.  `addr0`
holds the indeterminate bytes of the uninitialised local, `inet_pton af text` is
the answer of the library call `inet_pton` (the address bytes, or `none` when the
text is not an address of the family and the destination is left as it was), and
the port is the value of `htons((unsigned) port)`. -/
def bind_addr (inet_pton : Int → List Char → Option (List Nat)) (addr0 : sockaddr_inet)
    (addrs : List Char) (ipv6 : Bool) (port : Int) : sockaddr_inet :=
  if ipv6 then
    { family := AF_INET6
      port := (port % 65536).toNat
      bytes4 := addr0.bytes4
      bytes8 :=
        if addrs ≠ [] then
          match inet_pton AF_INET6 addrs with
          | some a => a
          | none => List.replicate 16 0
        else List.replicate 16 0 }
  else
    { family := AF_INET
      port := (port % 65536).toNat
      bytes4 :=
        if addrs ≠ [] then
          match inet_pton AF_INET addrs with
          | some a => a
          | none => [0, 0, 0, 0]
        else [0, 0, 0, 0]
      bytes8 := addr0.bytes8 }

/-- The system calls that the listening-socket part of `main` makes, in order. -/
inductive OsCall where
  | socket (family : Int)
  | fcntl_setfd_cloexec (fd : Int)
  | bind (fd : Int) (addr : sockaddr_inet)
  | listen (fd : Int) (backlog : Int)
deriving DecidableEq, Repr

/-- The answers of the operating system to the listening-socket part of `main`:
the bytes found in the uninitialised `addr`, the value returned by `socket` with
the open file behind it, and the values returned by `bind` and `listen`. -/
structure BindOS where
  addr0 : sockaddr_inet
  socket_ret : Int
  socket_file : Nat
  bind_ret : Int
  listen_ret : Int
deriving DecidableEq, Repr

/-- The end of the listening-socket part of `main` together with the system calls
it made. -/
structure BindRun where
  outcome : Startup
  calls : List OsCall

/-- The `else` branch of `main` that opens the listening socket.  `bind`, `ipv6`
and `port` are `args["bind"].toString()`, `args["ipv6"].toBool()` and
`args["port"].toNumber()`. -/
def main_bind (inet_pton : Int → List Char → Option (List Nat)) (ptr_size : Nat)
    (bind : List Char) (ipv6 : Bool) (port : Int) (env : Env) (fds : FdTable)
    (straddr : List Char) (os : BindOS) : BindRun :=
  let sel := bind_select bind ipv6
  let addr := bind_addr inet_pton os.addr0 sel.1 sel.2 port
  let fd := os.socket_ret
  let fds1 := if 0 ≤ fd then fds.set fd (some { file := os.socket_file, cloexec := false }) else fds
  let fds2 := (fcntl_setfd_cloexec fds1 fd).2
  let calls1 := [OsCall.socket addr.family, OsCall.fcntl_setfd_cloexec fd]
  if fd < 0 then
    { outcome := Startup.exited 1 [LogEvent.opening_socket, LogEvent.perror "socket"]
      calls := calls1 }
  else if os.bind_ret = -1 then
    { outcome := Startup.exited 1 [LogEvent.opening_socket, LogEvent.perror "bind"]
      calls := calls1 ++ [OsCall.bind fd addr] }
  else if os.listen_ret = -1 then
    { outcome := Startup.exited 1 [LogEvent.opening_socket, LogEvent.perror "listen"]
      calls := calls1 ++ [OsCall.bind fd addr, OsCall.listen fd 5] }
  else
    { outcome :=
        Startup.ready
          { fd := fd, environ := env, fds := fds2
            straddr := (peername ptr_size straddr addr).1
            cerr := [LogEvent.opening_socket,
              LogEvent.bound_to (peername ptr_size straddr addr).2 addr.port] }
      calls := calls1 ++ [OsCall.bind fd addr, OsCall.listen fd 5] }

/-! ## main.cpp: the interrupt handler -/

/-- The `if (sock_fd >= 0)` statement of `sigint_handler`: the value of `sock_fd`
and the descriptor table afterwards, and the descriptors it called `close` on. -/
def sigint_close (sock_fd : Int) (fds : FdTable) : Int × FdTable × List Int :=
  if sock_fd ≥ 0 then (-1, close fds sock_fd, [sock_fd]) else (sock_fd, fds, [])

/-- The state in which `sigint_handler` ends the process: the exit status, the
global `sock_fd`, the descriptor table, the descriptors closed by the handler and
the text written to `cerr`. -/
structure SigintExit where
  status : Int
  sock_fd : Int
  fds : FdTable
  closed : List Int
  cerr : List LogEvent

/-- The function `sigint_handler`. -/
def sigint_handler (sock_fd : Int) (fds : FdTable) (cerr : List LogEvent) : SigintExit :=
  { status := 2
    sock_fd := (sigint_close sock_fd fds).1
    fds := (sigint_close sock_fd fds).2.1
    closed := (sigint_close sock_fd fds).2.2
    cerr := cerr ++ [LogEvent.caught_sigint] }

/-! ## cmdparser.cpp: Variant -/

/-- The class `Variant`: its `type` tag with the value it holds. -/
inductive Variant where
  | void_t
  | required_t
  | boolean_t (boolean_u : Bool)
  | number_t (number_u : Int)
  | string_t (string_u : List Char)
deriving DecidableEq, Repr

/-- The member `Variant::isRequired`. -/
def Variant.isRequired : Variant → Bool
  | Variant.required_t => true
  | _ => false

/-- The member `Variant::toBool`.  (For the type `required_t` the source reaches
the end of the function without a `return`; the model gives `false` there.) -/
def Variant.toBool : Variant → Bool
  | Variant.boolean_t b => b
  | Variant.string_t str => str.isEmpty
  | Variant.number_t n => decide (n ≠ 0)
  | Variant.void_t => false
  | Variant.required_t => false

/-- The member `Variant::toString`.  (For the type `required_t` the source reaches
the end of the function without a `return`; the model gives the empty string
there.) -/
def Variant.toString : Variant → List Char
  | Variant.string_t str => str
  | Variant.boolean_t b => if b then "true".toList else "false".toList
  | Variant.number_t n => decimal n
  | Variant.void_t => []
  | Variant.required_t => []

/-- The member `find` of an `std::unordered_map`, kept as a list of entries. -/
def assoc_find {κ ν : Type} [DecidableEq κ] : List (κ × ν) → κ → Option ν
  | [], _ => none
  | (k, v) :: rest, key => if k = key then some v else assoc_find rest key

/-- The member `insert` of an `std::unordered_map`: an entry whose key is already
present is not inserted. -/
def assoc_insert {κ ν : Type} [DecidableEq κ] (m : List (κ × ν)) (key : κ) (v : ν) :
    List (κ × ν) :=
  match assoc_find m key with
  | some _ => m
  | none => m ++ [(key, v)]

/-- The type `ArgumentMap`. -/
abbrev ArgumentMap := List (List Char × Variant)

/-- The value of `args[name]` for an `ArgumentMap`: a key that is absent gives a
default-constructed `Variant`. -/
def ArgumentMap.index (args : ArgumentMap) (name : List Char) : Variant :=
  match assoc_find args name with
  | some v => v
  | none => Variant.void_t

/-! ## cmdparser.cpp: ParserPrivate and Parser -/

/-- The enumeration `FlagStyle`. -/
inductive FlagStyle where
  | GNU
  | Unix
  | Windows
deriving DecidableEq, Repr

/-- The enumeration `ArgumentStyle`. -/
inductive ArgumentStyle where
  | Space
  | Equals
  | SpaceAndEquals
deriving DecidableEq, Repr

/-- The enumeration `DefinitionType`. -/
inductive DefinitionType where
  | None
  | Switch
  | Option
  | Positional
deriving DecidableEq, Repr

/-- The structure `ParameterDefinition`. -/
structure ParameterDefinition where
  type : DefinitionType
  name : List Char
  aliases : List (List Char)
  flags : List Char
  meta : List Char
  desc : List Char
  terminal : Bool
  defaultValue : Variant
deriving DecidableEq, Repr

/-- The data members of `ParserPrivate`.  The parameter definitions live in
`m_definitions`; a pointer to one of them is its index in that list. -/
structure ParserPrivate where
  m_flagStyle : FlagStyle
  m_argStyle : ArgumentStyle
  m_definitions : List ParameterDefinition
  m_nameLookup : List (List Char × Nat)
  m_positionals : List Nat
  m_options : List Nat
  m_longLookup : List (List Char × Nat)
  m_flagLookup : List (Char × Nat)
deriving DecidableEq, Repr

/-- The constructor `Parser::Parser` with its default arguments `FlagStyle::Default`
(`GNU`) and `ArgumentStyle::Default` (`SpaceAndEquals`). -/
def Parser.new : ParserPrivate :=
  { m_flagStyle := FlagStyle.GNU, m_argStyle := ArgumentStyle.SpaceAndEquals
    m_definitions := [], m_nameLookup := [], m_positionals := [], m_options := []
    m_longLookup := [], m_flagLookup := [] }

/-- The list `l` with `f` applied to its element of index `i`. -/
def modify_at {α : Type} (f : α → α) : List α → Nat → List α
  | [], _ => []
  | a :: l, 0 => f a :: l
  | a :: l, i + 1 => a :: modify_at f l i

/-- The function `ParserPrivate::addDefinition`; `none` stands for the exception
`"Parameter name in use."`. -/
def ParserPrivate.addDefinition (d : ParserPrivate) (type : DefinitionType) (name : List Char)
    (defaultValue : Variant) : Option ParserPrivate :=
  match assoc_find d.m_longLookup name with
  | some _ => none
  | none =>
    let param : ParameterDefinition :=
      { type := type, name := name, aliases := [], flags := []
        meta := if type = DefinitionType.Positional then name
                else "<".toList ++ name ++ ">".toList
        desc := [], terminal := false, defaultValue := defaultValue }
    let idx := d.m_definitions.length
    let d1 : ParserPrivate :=
      { d with
        m_definitions := d.m_definitions ++ [param]
        m_nameLookup := assoc_insert d.m_nameLookup name idx }
    if type = DefinitionType.Positional then
      some { d1 with m_positionals := d1.m_positionals ++ [idx] }
    else if type = DefinitionType.Switch ∨ type = DefinitionType.Option then
      some { d1 with
        m_options := d1.m_options ++ [idx]
        m_longLookup := assoc_insert d1.m_longLookup name idx }
    else some d1

/-- The function `ParserPrivate::lookup`; `none` stands for the exception
`"Parameter name not in use."`. -/
def ParserPrivate.lookup (d : ParserPrivate) (name : List Char) : Option Nat :=
  assoc_find d.m_nameLookup name

/-- The function `ParserPrivate::getPrefix`: the values stored in `opt` and `flag`. -/
def ParserPrivate.getPrefix (d : ParserPrivate) : List Char × List Char :=
  if d.m_flagStyle = FlagStyle.Windows then ("/".toList, "/".toList)
  else if d.m_flagStyle = FlagStyle.Unix then ("-".toList, "-".toList)
  else ("--".toList, "-".toList)

/-- The function `Parser::newSwitch`. -/
def Parser.newSwitch (d : ParserPrivate) (name : List Char) (direction : Bool) :
    Option ParserPrivate :=
  d.addDefinition DefinitionType.Switch name (Variant.boolean_t direction)

/-- The function `Parser::newOption`. -/
def Parser.newOption (d : ParserPrivate) (name : List Char) (defaultValue : Variant) :
    Option ParserPrivate :=
  d.addDefinition DefinitionType.Option name defaultValue

/-- The function `Parser::newArgument`. -/
def Parser.newArgument (d : ParserPrivate) (name : List Char) (defaultValue : Variant) :
    Option ParserPrivate :=
  d.addDefinition DefinitionType.Positional name defaultValue

/-- The function `Parser::addDocumentation`. -/
def Parser.addDocumentation (d : ParserPrivate) (name doc metavar : List Char) :
    Option ParserPrivate :=
  match d.lookup name with
  | none => none
  | some idx =>
    some { d with
      m_definitions := modify_at
        (fun param => { param with desc := doc
                                   meta := if metavar ≠ [] then metavar else param.meta })
        d.m_definitions idx }

/-- The function `Parser::addFlag`; `none` stands for one of its exceptions. -/
def Parser.addFlag (d : ParserPrivate) (name : List Char) (flag : Char) : Option ParserPrivate :=
  match assoc_find d.m_flagLookup flag with
  | some _ => none
  | none =>
    match d.lookup name with
    | none => none
    | some idx =>
      some { d with
        m_definitions := modify_at (fun param => { param with flags := param.flags ++ [flag] })
          d.m_definitions idx
        m_flagLookup := assoc_insert d.m_flagLookup flag idx }

/-- The function `Parser::setTerminal`. -/
def Parser.setTerminal (d : ParserPrivate) (name : List Char) : Option ParserPrivate :=
  match d.lookup name with
  | none => none
  | some idx =>
    some { d with
      m_definitions := modify_at (fun param => { param with terminal := true })
        d.m_definitions idx }

/-- The result of a function that can throw a `ParsingError`: the text of the
error, or the value returned. -/
inductive Parsed (α : Type) where
  | ParsingError (what : List Char)
  | ok (a : α)
deriving DecidableEq, Repr

/-- The locals of `ParserPrivate::parse` that change in its loop: `map`, the queue
`expecting`, the definitions from the iterator `positional` to the end of
`m_positionals`, and `terminated`. -/
structure ParseState where
  map : ArgumentMap
  expecting : List (List Char)
  positional : List Nat
  terminated : Bool
deriving DecidableEq, Repr

/-- The parameter that a pointer stored in one of the lookup tables refers to. -/
def ParserPrivate.deref (d : ParserPrivate) (idx : Option Nat) : Option ParameterDefinition :=
  match idx with
  | none => none
  | some i => d.m_definitions[i]?

/-- The text cut at its first `=`, as done for `name` and `flags` in
`ParserPrivate::parse` when the argument style allows `=`: the part before it
and the part after it (`equals`, empty when there is no `=` or the style does not
allow it). -/
def ParserPrivate.split_equals (d : ParserPrivate) (text : List Char) : List Char × List Char :=
  if (d.m_argStyle = ArgumentStyle.Equals ∨ d.m_argStyle = ArgumentStyle.SpaceAndEquals)
      ∧ Char.ofNat 0x3D ∈ text then
    (text.takeWhile fun ch => ch ≠ Char.ofNat 0x3D,
      (text.dropWhile fun ch => ch ≠ Char.ofNat 0x3D).drop 1)
  else (text, [])

/-- The statements of `ParserPrivate::parse` for a parameter found by its long
name or by a flag, from the test for a repeated option to the end of the
`if`/`else` on the parameter type.  `shown` is the option text for the error
`reqires an argument`, `last` tells whether a value given with `=` may be taken
(always for a long name, for a flag only when it is the last one), and `flag` is
the text of the flag (with its prefix) and of the whole group for the errors of
the flag branch. -/
def ParserPrivate.apply_param (d : ParserPrivate) (param : ParameterDefinition)
    (equals : List Char) (last : Bool) (needs : List Char) (notlast : List Char)
    (st : ParseState) : Parsed ParseState :=
  match assoc_find st.map param.name with
  | some _ =>
    Parsed.ParsingError ("Option ".toList ++ d.getPrefix.1 ++ param.name
      ++ " was given multiple times".toList)
  | none =>
    if param.type = DefinitionType.Switch then
      Parsed.ok { st with
        map := assoc_insert st.map param.name (Variant.boolean_t (!param.defaultValue.toBool)) }
    else if d.m_argStyle = ArgumentStyle.Space then
      Parsed.ok { st with expecting := st.expecting ++ [param.name] }
    else if equals ≠ [] then
      if last then
        Parsed.ok { st with map := assoc_insert st.map param.name (Variant.string_t equals) }
      else Parsed.ParsingError notlast
    else if d.m_argStyle = ArgumentStyle.SpaceAndEquals then
      Parsed.ok { st with expecting := st.expecting ++ [param.name] }
    else Parsed.ParsingError needs

/-- The `for` loop over the characters of `flags` in `ParserPrivate::parse`, from
index `i` on, `rest` being the characters not yet read.  A terminal parameter sets
`terminated` and leaves this loop. -/
def ParserPrivate.parse_flags (d : ParserPrivate) (flags equals : List Char) :
    List Char → Nat → ParseState → Parsed ParseState
  | [], _, st => Parsed.ok st
  | flag :: rest, i, st =>
    match d.deref (assoc_find d.m_flagLookup flag) with
    | none => Parsed.ParsingError ("Unknown flag ".toList ++ d.getPrefix.2 ++ [flag])
    | some param =>
      match d.apply_param param equals (decide (i = flags.length - 1))
          ("Option ".toList ++ d.getPrefix.1 ++ param.name
            ++ " reqires an argument. (flag ".toList ++ d.getPrefix.2 ++ [flag] ++ ")".toList)
          ("Flag ".toList ++ d.getPrefix.2 ++ [flag] ++ " of Argument-requiring Option ".toList
            ++ param.name ++ " not last flag in ".toList ++ d.getPrefix.2 ++ flags)
          st with
      | Parsed.ParsingError what => Parsed.ParsingError what
      | Parsed.ok st1 =>
        if param.terminal then Parsed.ok { st1 with terminated := true }
        else ParserPrivate.parse_flags d flags equals rest (i + 1) st1

/-- The part of the body of the `while` loop of `ParserPrivate::parse` that follows
the option branch: the flag branch and the positional branch. -/
def ParserPrivate.parse_flag_or_positional (d : ParserPrivate) (arg : List Char)
    (st : ParseState) : Parsed ParseState :=
  if arg.take d.getPrefix.2.length = d.getPrefix.2 then
    d.parse_flags (d.split_equals (arg.drop d.getPrefix.2.length)).1
      (d.split_equals (arg.drop d.getPrefix.2.length)).2
      (d.split_equals (arg.drop d.getPrefix.2.length)).1 0 st
  else
    match st.positional with
    | [] =>
      Parsed.ParsingError ("Too many positional arguments: '".toList ++ arg ++ "'".toList)
    | idx :: more =>
      match d.m_definitions[idx]? with
      | none => Parsed.ok st
      | some param =>
        Parsed.ok { st with map := assoc_insert st.map param.name (Variant.string_t arg)
                            positional := more }

/-- One pass through the body of the `while` loop of `ParserPrivate::parse` for
the argument `arg`.  The second component of the result tells whether the loop
was left by `break`. -/
def ParserPrivate.parse_arg (d : ParserPrivate) (arg : List Char) (st : ParseState) :
    Parsed (ParseState × Bool) :=
  match st.expecting with
  | name :: waiting =>
    match assoc_find st.map name with
    | some _ =>
      Parsed.ParsingError ("Option ".toList ++ d.getPrefix.1 ++ name
        ++ " was given multiple times".toList)
    | none =>
      Parsed.ok ({ st with map := assoc_insert st.map name (Variant.string_t arg)
                           expecting := waiting }, false)
  | [] =>
    if arg.take d.getPrefix.1.length = d.getPrefix.1 then
      match d.deref (assoc_find d.m_longLookup
          (d.split_equals (arg.drop d.getPrefix.1.length)).1) with
      | some param =>
        match d.apply_param param (d.split_equals (arg.drop d.getPrefix.1.length)).2 true
            ("Option ".toList ++ d.getPrefix.1
              ++ (d.split_equals (arg.drop d.getPrefix.1.length)).1
              ++ " reqires an argument.".toList)
            [] st with
        | Parsed.ParsingError what => Parsed.ParsingError what
        | Parsed.ok st1 =>
          if param.terminal then Parsed.ok ({ st1 with terminated := true }, true)
          else Parsed.ok (st1, false)
      | none =>
        if d.getPrefix.1 ≠ d.getPrefix.2 then
          Parsed.ParsingError ("Unknown Option ".toList ++ d.getPrefix.1
            ++ (d.split_equals (arg.drop d.getPrefix.1.length)).1)
        else
          match d.parse_flag_or_positional arg st with
          | Parsed.ParsingError what => Parsed.ParsingError what
          | Parsed.ok st1 => Parsed.ok (st1, false)
    else
      match d.parse_flag_or_positional arg st with
      | Parsed.ParsingError what => Parsed.ParsingError what
      | Parsed.ok st1 => Parsed.ok (st1, false)

/-- The `while` loop of `ParserPrivate::parse` over the arguments that follow the
program name. -/
def ParserPrivate.parse_loop (d : ParserPrivate) : List (List Char) → ParseState →
    Parsed ParseState
  | [], st => Parsed.ok st
  | arg :: rest, st =>
    match d.parse_arg arg st with
    | Parsed.ParsingError what => Parsed.ParsingError what
    | Parsed.ok (st1, true) => Parsed.ok st1
    | Parsed.ok (st1, false) => ParserPrivate.parse_loop d rest st1

/-- The function `str_join` with a list of strings. -/
def str_join (elements : List (List Char)) (separator : List Char) : List Char :=
  match elements with
  | [] => []
  | e :: rest => rest.foldl (fun acc x => acc ++ separator ++ x) e

/-- The loop `fill out gaps` of `ParserPrivate::parse` over `m_definitions`. -/
def fill_gaps (terminated : Bool) : List ParameterDefinition → ArgumentMap → Parsed ArgumentMap
  | [], map => Parsed.ok map
  | param :: rest, map =>
    match assoc_find map param.name with
    | some _ => fill_gaps terminated rest map
    | none =>
      if param.defaultValue.isRequired ∧ ¬ terminated then
        Parsed.ParsingError ("Missing mandatory argument '".toList ++ param.name ++ "'".toList)
      else fill_gaps terminated rest (assoc_insert map param.name param.defaultValue)

/-- The values of the locals of `ParserPrivate::parse` before its loop. -/
def ParserPrivate.parse_init (d : ParserPrivate) : ParseState :=
  { map := [], expecting := [], positional := d.m_positionals, terminated := false }

/-- The function `ParserPrivate::parse` on an `argv` that holds at least the
program name: the loop over the arguments after it, the test for options still
waiting for their value, and the filling of the gaps. -/
def ParserPrivate.parse (d : ParserPrivate) (argv : List (List Char)) : Parsed ArgumentMap :=
  match d.parse_loop argv.tail d.parse_init with
  | Parsed.ParsingError what => Parsed.ParsingError what
  | Parsed.ok st =>
    if st.expecting ≠ [] ∧ ¬ st.terminated then
      Parsed.ParsingError ("Was still expecting arguments for ".toList
        ++ str_join st.expecting ", ".toList)
    else fill_gaps st.terminated d.m_definitions st.map

/-! ## main.cpp: parse_argv -/

/-- The calls by which `parse_argv` defines the parameters of the program, in the
order of the source; each takes the parser built so far. -/
def parse_argv_steps : List (ParserPrivate → Option ParserPrivate) :=
  [ fun d => Parser.newSwitch d "help".toList false,
    fun d => Parser.addFlag d "help".toList (Char.ofNat 0x68),
    fun d => Parser.addDocumentation d "help".toList "Show this help and exit".toList [],
    fun d => Parser.setTerminal d "help".toList,
    fun d => Parser.newSwitch d "systemd".toList false,
    fun d => Parser.addDocumentation d "systemd".toList "Use systemd socket activation".toList [],
    fun d => Parser.newOption d "port".toList (Variant.number_t 7994),
    fun d => Parser.addFlag d "port".toList (Char.ofNat 0x70),
    fun d => Parser.addDocumentation d "port".toList "The port to listen on".toList [],
    fun d => Parser.newOption d "bind".toList Variant.void_t,
    fun d => Parser.addFlag d "bind".toList (Char.ofNat 0x62),
    fun d => Parser.addDocumentation d "bind".toList "Bind to address".toList "<addr>".toList,
    fun d => Parser.newSwitch d "ipv6".toList false,
    fun d => Parser.addFlag d "ipv6".toList (Char.ofNat 0x36),
    fun d => Parser.addDocumentation d "ipv6".toList "Use IPv6".toList [],
    fun d => Parser.newSwitch d "stdin".toList false,
    fun d => Parser.addFlag d "stdin".toList (Char.ofNat 0x69),
    fun d => Parser.addDocumentation d "stdin".toList "Pass the standard input stream".toList [],
    fun d => Parser.newSwitch d "stdout".toList false,
    fun d => Parser.addFlag d "stdout".toList (Char.ofNat 0x6F),
    fun d => Parser.addDocumentation d "stdout".toList "Pass the standard output stream".toList [],
    fun d => Parser.newSwitch d "stderr".toList false,
    fun d => Parser.addFlag d "stderr".toList (Char.ofNat 0x65),
    fun d => Parser.addDocumentation d "stderr".toList "Pass the standard error stream".toList [],
    fun d => Parser.newArgument d "exec".toList Variant.required_t,
    fun d => Parser.addDocumentation d "exec".toList "The program command line".toList [] ]

/-- The parser that `parse_argv` sets up before it calls `parse`; `none` would
stand for an exception thrown while the parameters are defined. -/
def parse_argv_definitions : Option ParserPrivate :=
  parse_argv_steps.foldl (fun d step => d.bind step) (some Parser.new)

/-- How `parse_argv` ends: with `exit(status)`, after printing either the text of
a `ParsingError` and the usage (`error` holds that text) or the help (`error` is
`none`); or by returning the argument map. -/
inductive ParseArgv where
  | exited (status : Int) (error : Option (List Char))
  | returned (args : ArgumentMap)
deriving DecidableEq, Repr

/-- The function `parse_argv` for a parser `d`: the `try` block around `parse` and
the test of `args["help"]`. -/
def parse_argv_with (d : ParserPrivate) (argv : List (List Char)) : ParseArgv :=
  match d.parse argv with
  | Parsed.ParsingError what => ParseArgv.exited 1 (some what)
  | Parsed.ok args =>
    if (args.index "help".toList).toBool then ParseArgv.exited 0 none
    else ParseArgv.returned args

/-- The function `parse_argv` of main.cpp; `none` would stand for an exception
thrown while the parameters are defined. -/
def parse_argv (argv : List (List Char)) : Option ParseArgv :=
  match parse_argv_definitions with
  | none => none
  | some d => some (parse_argv_with d argv)

/-- The state in which the `while` loop of `ParserPrivate::parse` ends when `parse`
is called by `parse_argv`: a `ParsingError` thrown inside the loop, or the values
of the locals `map`, `expecting`, `positional` and `terminated` after it. -/
def parse_argv_loop (argv : List (List Char)) : Option (Parsed ParseState) :=
  parse_argv_definitions.map fun d => d.parse_loop argv.tail d.parse_init

/-- The vector `exec_argv` that `main` computes from the arguments:
`CmdParser::splitArgs(args["exec"].toString())`. -/
def main_exec_argv (args : ArgumentMap) : List (List Char) :=
  splitArgs (args.index "exec".toList).toString

/-- The value `pass` that `main` computes from the arguments. -/
def main_pass (args : ArgumentMap) : Nat :=
  (if (args.index "stdin".toList).toBool then PASS_IN else 0)
    ||| (if (args.index "stdout".toList).toBool then PASS_OUT else 0)
    ||| (if (args.index "stderr".toList).toBool then PASS_ERR else 0)

/-! ## main.cpp: terminated children of the server -/

/-- The value of `SA_NOCLDSTOP` on Linux. -/
def SA_NOCLDSTOP : Nat := 1

/-- The value of `SA_NOCLDWAIT` on Linux: with this flag set for `SIGCHLD`, a child
that terminates is not kept until its parent waits for it. -/
def SA_NOCLDWAIT : Nat := 2

/-- The value of `SA_SIGINFO` on Linux. -/
def SA_SIGINFO : Nat := 4

/-- The value `main` stores in `sa.sa_flags` before `sigaction(SIGCHLD, &sa, 0)`:
`SA_NOCLDSTOP | SA_SIGINFO`. -/
def main_sigchld_flags : Nat := SA_NOCLDSTOP ||| SA_SIGINFO

/-- The system calls of a process as far as its terminated children are concerned:
a `write` on a descriptor, and `waitpid(pid, ...)`, which collects the exit status
of the child `pid`. -/
inductive ProcCall where
  | write (fd : Int)
  | waitpid (pid : Int)
deriving DecidableEq, Repr

/-- The effect of a system call on the set of children that have terminated and
whose exit status has not been collected. -/
def ProcCall.collect : ProcCall → List Int → List Int
  | ProcCall.write _, unreaped => unreaped
  | ProcCall.waitpid pid, unreaped => unreaped.filter fun k => k ≠ pid

/-- The child `pid` terminates: it joins the set of children whose exit status has
not been collected, unless `SA_NOCLDWAIT` is among the flags set for `SIGCHLD`. -/
def child_terminates (sa_flags : Nat) (unreaped : List Int) (pid : Int) : List Int :=
  if sa_flags &&& SA_NOCLDWAIT ≠ 0 then unreaped else pid :: unreaped

/-- The system calls that `sigchld_handler` makes: in either branch the one line
written to `cerr`. -/
def sigchld_handler_calls (s : Server) (si_pid : Int) : List ProcCall :=
  match s.pid_map.find si_pid with
  | none => [ProcCall.write 2]
  | some _ => [ProcCall.write 2]

/-- The termination of the child `si_pid` followed by the run of `sigchld_handler`
for it: the server afterwards, and the set of children whose exit status has not
been collected. -/
def child_exit_notification (ptr_size : Nat) (s : Server) (unreaped : List Int)
    (si_pid : Int) : Server × List Int :=
  (sigchld_handler ptr_size s si_pid,
    (sigchld_handler_calls s si_pid).foldl (fun acc call => call.collect acc)
      (child_terminates main_sigchld_flags unreaped si_pid))

/-! ## Theorems -/

/-- When no percent sign of `tok` is followed by a character, the expression
`Client::re` has no match in `tok`. -/
theorem sregex_matches_eq_nil :
    ∀ tok : List Char,
      (∀ i : Nat, tok[i]? = some (Char.ofNat 0x25) → tok[i + 1]? = none) →
      sregex_matches tok = ([], tok)
  | [], _ => rfl
  | [_], _ => rfl
  | c :: d :: rest, h => by
    have hc : c ≠ Char.ofNat 0x25 := by
      intro hc
      have h0 := h 0 (by simp [hc])
      simp at h0
    have ih := sregex_matches_eq_nil (d :: rest) (fun i hi => by
      have h1 := h (i + 1) (by simpa using hi)
      simpa using h1)
    simp [sregex_matches, hc, ih]

/-- A call of `dup2` leaves every descriptor other than its target as it was. -/
theorem dup2_other (nofile : Int) (t : FdTable) (oldfd newfd k : Int) (h : k ≠ newfd) :
    dup2 nofile t oldfd newfd k = t k := by
  unfold dup2
  cases t oldfd with
  | none => rfl
  | some e =>
    by_cases hl : newfd < 0 ∨ nofile ≤ newfd
    · simp only [if_pos hl]
    · by_cases he : oldfd = newfd
      · simp only [if_neg hl, if_pos he]
      · simp [hl, he, FdTable.set, h]

/-- The descriptor-table entries that `Client::pass_fds` does not target keep
their value. -/
theorem pass_fds_other (c : Client) (nofile : Int) (t : FdTable) (k : Int)
    (h0 : k ≠ 0) (h1 : k ≠ 1) (h2 : k ≠ 2) : c.pass_fds nofile t k = t k := by
  unfold Client.pass_fds
  split <;> split <;> split <;> first | rfl | simp [dup2_other, h0, h1, h2]

/-- The value of `peername` for a peer whose family is not `AF_INET6` when
`inet_ntop` fails: the buffer is left as it was and its content is returned. -/
theorem peername_of_failure (ptr_size : Nat) (buf : List Char) (peer : sockaddr_inet)
    (hf : peer.family ≠ AF_INET6)
    (h : inet_ntop peer.family peer.from_sin_addr ptr_size = none) :
    peername ptr_size buf peer = (buf, buf) := by
  unfold peername
  rw [h, if_neg hf]

/-- The value of `peername` for a peer of family `AF_INET6` when `inet_ntop`
stores `text`. -/
theorem peername_inet6 (ptr_size : Nat) (buf text : List Char) (peer : sockaddr_inet)
    (hf : peer.family = AF_INET6)
    (h : inet_ntop peer.family peer.from_sin_addr ptr_size = some text) :
    peername ptr_size buf peer
      = (text ++ [Char.ofNat 0x5D], Char.ofNat 0x5B :: (text ++ [Char.ofNat 0x5D])) := by
  unfold peername
  rw [h, if_pos hf]

/-- The value of `peername` for a peer whose family is not `AF_INET6` when
`inet_ntop` stores `text`: the text, without brackets. -/
theorem peername_of_success (ptr_size : Nat) (buf text : List Char) (peer : sockaddr_inet)
    (hf : peer.family ≠ AF_INET6)
    (h : inet_ntop peer.family peer.from_sin_addr ptr_size = some text) :
    peername ptr_size buf peer = (text, text) := by
  unfold peername
  rw [h, if_neg hf]

/-- With a size of at most eight bytes `inet_ntop` cannot store the text of
203.0.113.5, so `peername` returns the previous content of its buffer. -/
theorem peername_203_stale (ptr_size port : Nat) (buf : List Char) (h : ptr_size ≤ 8) :
    peername ptr_size buf (sockaddr_inet.ipv4 203 0 113 5 port) = (buf, buf) := by
  have hlen : (dotted4 ([203, 0, 113, 5] ++ List.replicate 16 0)).length = 11 := by decide
  have hfam : AF_INET ≠ AF_INET6 := by decide
  have hno : inet_ntop AF_INET ([203, 0, 113, 5] ++ List.replicate 16 0) ptr_size = none := by
    unfold inet_ntop
    rw [if_pos rfl, hlen, if_neg (by omega)]
  exact peername_of_failure ptr_size buf _ hfam hno

/-- The template `/bin/echo hello %a %p` rendered for a client whose `peername`
yields the buffer content itself. -/
theorem prepare_argv_echo (c : Client) (info : ProcInfo) (buf : List Char)
    (hargv : c.exec_argv = splitArgs "/bin/echo hello %a %p".toList)
    (hpeer : peername info.ptr_size buf c.peer = (buf, buf)) :
    (c.prepare_argv info buf).2
      = [some "/bin/echo".toList, some "hello".toList, some buf, some (decimal info.pid),
          none] := by
  have hs : splitArgs "/bin/echo hello %a %p".toList
      = ["/bin/echo".toList, "hello".toList, [Char.ofNat 0x25, Char.ofNat 0x61],
          [Char.ofNat 0x25, Char.ofNat 0x70]] := by decide
  have m1 : sregex_matches "/bin/echo".toList = ([], "/bin/echo".toList) := by decide
  have m2 : sregex_matches "hello".toList = ([], "hello".toList) := by decide
  have m3 : sregex_matches [Char.ofNat 0x25, Char.ofNat 0x61] = ([([], Char.ofNat 0x61)], []) := by
    decide
  have m4 : sregex_matches [Char.ofNat 0x25, Char.ofNat 0x70] = ([([], Char.ofNat 0x70)], []) := by
    decide
  have hpa : Char.ofNat 0x70 ≠ Char.ofNat 0x61 := by decide
  have r1 : c.regex_replace_var info buf "/bin/echo".toList = (buf, "/bin/echo".toList) := by
    unfold Client.regex_replace_var
    rw [m1]
  have r2 : c.regex_replace_var info buf "hello".toList = (buf, "hello".toList) := by
    unfold Client.regex_replace_var
    rw [m2]
  have r3 : c.regex_replace_var info buf [Char.ofNat 0x25, Char.ofNat 0x61] = (buf, buf) := by
    unfold Client.regex_replace_var
    rw [m3]
    simp [Client.replace_loop, Client.ref_var, hpeer]
  have r4 : c.regex_replace_var info buf [Char.ofNat 0x25, Char.ofNat 0x70]
      = (buf, decimal info.pid) := by
    unfold Client.regex_replace_var
    rw [m4]
    simp [Client.replace_loop, Client.ref_var, hpa]
  unfold Client.prepare_argv
  rw [hargv, hs]
  simp only [Client.transform_argv, r1, r2, r3, r4]
  rfl

/-- C1 (evaluation at the failing input).  With 8-byte and with 4-byte pointers,
the template `/bin/echo hello %a %p` rendered for the IPv4 peer 203.0.113.5 and
pid 4321 has as third argument the text that was in the static buffer of
`peername` before the call, whatever it is, and not the text of the peer address:
`inet_ntop` is given the size of a pointer and cannot store the eleven
characters.  From the initial buffer the third argument is the empty string. -/
theorem prepare_argv_echo_stale_address (fd : Int) (port pass : Nat) (buf : List Char) :
    (Client.prepare_argv
        { fd := fd, peer := sockaddr_inet.ipv4 203 0 113 5 port, pass := pass
          exec_argv := splitArgs "/bin/echo hello %a %p".toList }
        { ptr_size := 8, pid := 4321 } buf).2
      = [some "/bin/echo".toList, some "hello".toList, some buf, some "4321".toList, none]
    ∧ (Client.prepare_argv
        { fd := fd, peer := sockaddr_inet.ipv4 203 0 113 5 port, pass := pass
          exec_argv := splitArgs "/bin/echo hello %a %p".toList }
        { ptr_size := 4, pid := 4321 } buf).2
      = [some "/bin/echo".toList, some "hello".toList, some buf, some "4321".toList, none]
    ∧ (Client.prepare_argv
        { fd := fd, peer := sockaddr_inet.ipv4 203 0 113 5 port, pass := pass
          exec_argv := splitArgs "/bin/echo hello %a %p".toList }
        { ptr_size := 8, pid := 4321 } straddr_init).2
      ≠ [some "/bin/echo".toList, some "hello".toList, some "203.0.113.5".toList,
          some "4321".toList, none] := by
  have hd : decimal 4321 = "4321".toList := by decide
  refine ⟨?_, ?_, ?_⟩
  · rw [prepare_argv_echo _ _ buf rfl (peername_203_stale 8 port buf (by decide)), hd]
  · rw [prepare_argv_echo _ _ buf rfl (peername_203_stale 4 port buf (by decide)), hd]
  · rw [prepare_argv_echo _ _ straddr_init rfl
      (peername_203_stale 8 port straddr_init (by decide)), hd]
    decide

/-- C2 (evaluation at the failing inputs).  With 8-byte pointers, `peername` for
the IPv4 peer 203.0.113.5 returns the previous content of its static buffer and
leaves the buffer as it was; for the IPv6 peer ::1 (flow information zero) it
returns `[::]`, because the sixteen bytes it formats start at `in.sin_addr`, four
bytes before `in6.sin6_addr`.  An IPv4 address whose text has at most seven
characters, such as 1.2.3.4, is returned as its dotted-decimal text. -/
theorem peername_examples_wrong (port : Nat) (buf : List Char) :
    peername 8 buf (sockaddr_inet.ipv4 203 0 113 5 port) = (buf, buf)
    ∧ (peername 8 straddr_init (sockaddr_inet.ipv4 203 0 113 5 port)).2 ≠ "203.0.113.5".toList
    ∧ (peername 8 buf
        (sockaddr_inet.ipv6 [0, 0, 0, 0, 0, 0, 0, 0, 0, 0, 0, 0, 0, 0, 0, 1] port [0, 0, 0, 0])).2
      = "[::]".toList
    ∧ (peername 8 buf (sockaddr_inet.ipv4 1 2 3 4 port)).2 = "1.2.3.4".toList := by
  have h4 : inet_ntop AF_INET ([1, 2, 3, 4] ++ List.replicate 16 0) 8
      = some "1.2.3.4".toList := by decide
  refine ⟨peername_203_stale 8 port buf (by decide), ?_, ?_,
    by rw [peername_of_success 8 buf "1.2.3.4".toList _
      (show AF_INET ≠ AF_INET6 by decide) h4]⟩
  · rw [peername_203_stale 8 port straddr_init (by decide)]
    decide
  · have h6 : inet_ntop AF_INET6
        ([0, 0, 0, 0] ++ [0, 0, 0, 0, 0, 0, 0, 0, 0, 0, 0, 0, 0, 0, 0, 1]) 8
        = some "::".toList := by decide
    rw [peername_inet6 8 buf "::".toList _ rfl h6]
    decide

/-- C3 (evaluation at the failing trace).  A connection is accepted and `fork`
returns pid 100 to the server; the child exits at once and its notification is
handled before the iteration reaches `pid_map.emplace`; then the iteration
finishes.  In the state reached, 100 is a key of `pid_map` although its
child-exit notification has been handled, so the registry invariant fails. -/
theorem registry_entry_after_notification :
    ∃ y : Sys,
      Sys.steps 8 7 [] (Sys.init straddr_init (fun _ => none) [])
        [Event.iter_start
            { acc := { sock := 4, errno := 0, sa := sockaddr_inet.ipv4 1 2 3 4 5000, file := 9 }
              fork_result := 100, getpid := 1, exec_ok := true, nofile := 1024 },
          Event.sigchld 100,
          Event.iter_finish] = some y
      ∧ (y.server.pid_map.find 100).isSome = true
      ∧ 100 ∈ y.launched
      ∧ 100 ∈ y.handled
      ∧ ¬ y.registry_ok 100 :=
  ⟨_, rfl, by decide, by decide, by decide, fun h => (h.1 (by decide)).2 (by decide)⟩

/-- C4 (evaluation at the failing input).  When `accept` succeeds and `fork`
fails (it returns `-1` in the server), the iteration of the accept loop stores the
client in `pid_map` under the key `-1`: a `pid_map` that was empty has one entry
afterwards. -/
theorem failed_fork_is_registered (ptr_size pass : Nat) (exec_argv : List (List Char))
    (straddr : List Char) (fds : FdTable) (cerr : List LogEvent) (sa : sockaddr_inet)
    (file : Nat) (getpid : Int) (exec_ok : Bool) (nofile : Int) :
    ∃ s1 : Server,
      loop_body ptr_size pass exec_argv
        { pid_map := [], straddr := straddr, fds := fds, cerr := cerr }
        { acc := { sock := 4, errno := 0, sa := sa, file := file }
          fork_result := -1, getpid := getpid, exec_ok := exec_ok, nofile := nofile }
        = LoopResult.looping s1
      ∧ s1.pid_map = [(-1, { fd := 4, peer := sa, pass := pass, exec_argv := exec_argv })]
      ∧ s1.pid_map ≠ [] :=
  ⟨_, rfl, rfl, by simp [loop_body_finish, PidMap.emplace, PidMap.find]⟩

/-- An iteration of the accept loop in which `accept` fails keeps the server in
the loop: nothing changes when `errno` is `EINTR`, and otherwise only the report
of `perror("accept")` is added to the text written. -/
theorem loop_body_accept_failed (ptr_size pass : Nat) (exec_argv : List (List Char))
    (s : Server) (os : IterOS) (h : os.acc.sock < 0) :
    loop_body ptr_size pass exec_argv s os
      = LoopResult.looping
          (if os.acc.errno = EINTR then s
           else { s with cerr := s.cerr ++ [LogEvent.perror "accept"] }) := by
  unfold loop_body loop_body_start Client.accept
  rw [if_pos h]
  by_cases he : os.acc.errno = EINTR
  · simp [he]
  · simp [he]

/-- C6.  For every sequence of answers in which each `accept` fails, the accept
loop is still running afterwards, `pid_map`, the descriptor table and the buffer
of `peername` are unchanged, and the text written has grown by exactly one report
of `accept` for every failure whose `errno` is not `EINTR` (none for `EINTR`). -/
theorem accept_failures_keep_looping (ptr_size pass : Nat) (exec_argv : List (List Char))
    (s : Server) (answers : List IterOS) (h : ∀ os ∈ answers, os.acc.sock < 0) :
    ∃ s1 : Server,
      accept_loop ptr_size pass exec_argv s answers = LoopResult.looping s1
      ∧ s1.pid_map = s.pid_map
      ∧ s1.fds = s.fds
      ∧ s1.straddr = s.straddr
      ∧ s1.cerr = s.cerr ++
          (answers.filter fun os => os.acc.errno ≠ EINTR).map fun _ => LogEvent.perror "accept" := by
  induction answers generalizing s with
  | nil => exact ⟨s, rfl, rfl, rfl, rfl, by simp⟩
  | cons os rest ih =>
    have hos : os.acc.sock < 0 := h os (List.mem_cons_self _ _)
    have hrest : ∀ o ∈ rest, o.acc.sock < 0 := fun o ho => h o (List.mem_cons_of_mem _ ho)
    unfold accept_loop
    rw [loop_body_accept_failed ptr_size pass exec_argv s os hos]
    by_cases he : os.acc.errno = EINTR
    · obtain ⟨s1, h1, h2, h3, h4, h5⟩ := ih s hrest
      refine ⟨s1, ?_, h2, h3, h4, ?_⟩
      · simp [he, h1]
      · simp [he, h5]
    · obtain ⟨s1, h1, h2, h3, h4, h5⟩ :=
        ih { s with cerr := s.cerr ++ [LogEvent.perror "accept"] } hrest
      refine ⟨s1, ?_, h2, h3, h4, ?_⟩
      · simp [he, h1]
      · simp [he, h5]

/-- Instance of C6: an interrupted `accept` followed by one that fails with
another error leaves an empty `pid_map` empty and reports `accept` once. -/
theorem accept_failures_keep_looping_witness :
    ∃ s1 : Server,
      accept_loop 8 7 [] { pid_map := [], straddr := [], fds := fun _ => none, cerr := [] }
        [{ acc := { sock := -1, errno := 4, sa := sockaddr_inet.ipv4 0 0 0 0 0, file := 0 }
           fork_result := 0, getpid := 0, exec_ok := false, nofile := 1024 },
         { acc := { sock := -1, errno := 103, sa := sockaddr_inet.ipv4 0 0 0 0 0, file := 0 }
           fork_result := 0, getpid := 0, exec_ok := false, nofile := 1024 }] = LoopResult.looping s1
      ∧ s1.pid_map = []
      ∧ s1.cerr = [LogEvent.perror "accept"] := by
  obtain ⟨s1, h1, h2, _, _, h5⟩ :=
    accept_failures_keep_looping 8 7 []
      { pid_map := [], straddr := [], fds := fun _ => none, cerr := [] }
      [{ acc := { sock := -1, errno := 4, sa := sockaddr_inet.ipv4 0 0 0 0 0, file := 0 }
         fork_result := 0, getpid := 0, exec_ok := false, nofile := 1024 },
       { acc := { sock := -1, errno := 103, sa := sockaddr_inet.ipv4 0 0 0 0 0, file := 0 }
         fork_result := 0, getpid := 0, exec_ok := false, nofile := 1024 }]
      (by decide)
  exact ⟨s1, h1, h2, by rw [h5]; decide⟩

/-- Looking up a key in `pid_map` after `erase` of `pid`: nothing under `pid`, and
every other key as before. -/
theorem PidMap.find_erase (m : PidMap) (pid q : Int) :
    (PidMap.erase m pid).find q = if q = pid then none else m.find q := by
  induction m with
  | nil => simp [PidMap.erase, PidMap.find]
  | cons e rest ih =>
    obtain ⟨k, v⟩ := e
    have ih2 : PidMap.find (List.filter (fun e => decide (e.1 ≠ pid)) rest) q
        = if q = pid then none else PidMap.find rest q := ih
    show PidMap.find (List.filter (fun e => decide (e.1 ≠ pid)) ((k, v) :: rest)) q = _
    rw [List.filter_cons]
    by_cases hk : k = pid
    · have hd : decide ((k, v).1 ≠ pid) = false := by simp [hk]
      rw [hd, if_neg (by simp), ih2]
      by_cases hq : q = pid
      · simp [hq]
      · have hkq : ¬ k = q := fun h => hq (h ▸ hk)
        simp [hq, PidMap.find, hkq]
    · have hd : decide ((k, v).1 ≠ pid) = true := by simp [hk]
      rw [hd, if_pos rfl]
      by_cases hq : q = pid
      · have hkq : ¬ k = q := fun h => hk (h.trans hq)
        simp only [PidMap.find, if_neg hkq, ih2]
      · simp only [PidMap.find, ih2, if_neg hq]

/-- Looking up a key that `emplace` has just added to a map without it. -/
theorem PidMap.find_emplace_new (m : PidMap) (pid : Int) (c : Client)
    (h : m.find pid = none) : (m.emplace pid c).find pid = some c := by
  unfold PidMap.emplace
  rw [h]
  induction m with
  | nil => simp [PidMap.find]
  | cons e rest ih =>
    obtain ⟨k, v⟩ := e
    by_cases hk : k = pid
    · simp [PidMap.find, hk] at h
    · simp only [PidMap.find, if_neg hk] at h
      simp only [List.cons_append, PidMap.find, if_neg hk]
      exact ih h

/-- The effect of `sigchld_handler`.  For every server state and every exited pid
`p`: when `p` is not a key
of `pid_map`, the handler adds the unknown-connection warning carrying `p` and
leaves `pid_map` unchanged; when `p` is a key with client `c`, the handler leaves
no entry under `p`, leaves the entry of every other key unchanged (the new map
is the old one without the entries of key `p`), and adds the disconnect message
carrying `p` and the value of `peername` for the peer address stored in `c`; and
when `client` has been registered under `p` by the end of a loop iteration, that
address is the peer address of `client`.  The descriptor table is untouched by
the handler. -/
theorem sigchld_handler_effect (ptr_size : Nat) (s : Server) (p : Int) :
    (s.pid_map.find p = none →
      (sigchld_handler ptr_size s p).pid_map = s.pid_map
      ∧ (sigchld_handler ptr_size s p).cerr
          = s.cerr ++ [LogEvent.unknown_connection_lost p])
    ∧ (∀ c : Client, s.pid_map.find p = some c →
      (sigchld_handler ptr_size s p).pid_map.find p = none
      ∧ (∀ q : Int, q ≠ p → (sigchld_handler ptr_size s p).pid_map.find q = s.pid_map.find q)
      ∧ (sigchld_handler ptr_size s p).pid_map = s.pid_map.filter (fun e => e.1 ≠ p)
      ∧ (sigchld_handler ptr_size s p).cerr
          = s.cerr ++ [LogEvent.connection_lost (peername ptr_size s.straddr c.peer).2 p])
    ∧ (∀ client : Client, s.pid_map.find p = none →
      (sigchld_handler ptr_size (loop_body_finish s p client) p).cerr
          = s.cerr ++ [LogEvent.connection_lost (peername ptr_size s.straddr client.peer).2 p])
    ∧ (sigchld_handler ptr_size s p).fds = s.fds := by
  refine ⟨?_, ?_, ?_, ?_⟩
  · intro h
    simp [sigchld_handler, h]
  · intro c h
    have hm : (sigchld_handler ptr_size s p).pid_map = s.pid_map.erase p := by
      simp [sigchld_handler, h]
    refine ⟨?_, ?_, ?_, ?_⟩
    · rw [hm, PidMap.find_erase]
      simp
    · intro q hq
      rw [hm, PidMap.find_erase]
      simp [hq]
    · rw [hm]
      rfl
    · simp [sigchld_handler, h]
  · intro client h
    have hf : PidMap.find (s.pid_map.emplace p client) p = some client :=
      PidMap.find_emplace_new s.pid_map p client h
    simp [sigchld_handler, hf, loop_body_finish]
  · unfold sigchld_handler
    cases s.pid_map.find p <;> rfl

/-- Instance of `sigchld_handler_effect`: with the registry holding pids 100 and
101, the notification
for the unknown pid 7 changes nothing in the registry, and the notification for
100 removes that entry only and reports the address text 1.2.3.4 with pid 100. -/
theorem sigchld_handler_effect_witness :
    ((sigchld_handler 8
        { pid_map := [(100, { fd := 4, peer := sockaddr_inet.ipv4 1 2 3 4 5000, pass := 7
                              exec_argv := [] }),
                      (101, { fd := 4, peer := sockaddr_inet.ipv4 1 2 3 5 5001, pass := 7
                              exec_argv := [] })]
          straddr := [], fds := fun _ => none, cerr := [] } 7).pid_map
      = [(100, { fd := 4, peer := sockaddr_inet.ipv4 1 2 3 4 5000, pass := 7, exec_argv := [] }),
         (101, { fd := 4, peer := sockaddr_inet.ipv4 1 2 3 5 5001, pass := 7, exec_argv := [] })])
    ∧ ((sigchld_handler 8
        { pid_map := [(100, { fd := 4, peer := sockaddr_inet.ipv4 1 2 3 4 5000, pass := 7
                              exec_argv := [] }),
                      (101, { fd := 4, peer := sockaddr_inet.ipv4 1 2 3 5 5001, pass := 7
                              exec_argv := [] })]
          straddr := [], fds := fun _ => none, cerr := [] } 100).cerr
      = [LogEvent.connection_lost "1.2.3.4".toList 100]) := by
  refine ⟨((sigchld_handler_effect 8 _ 7).1 (by decide)).1, ?_⟩
  rw [((sigchld_handler_effect 8 _ 100).2.1
    { fd := 4, peer := sockaddr_inet.ipv4 1 2 3 4 5000, pass := 7, exec_argv := [] }
    (by decide)).2.2.2]
  decide

/-- C7 (evaluation at the failing input).  The buffer of `peername` holds
`0.0.0.0` from the message about the bound address.  A client with the peer
address 10.0.0.7 is accepted and registered under the pid 100; the text of that
address does not fit in the size that `peername` passes to `inet_ntop`.  The
handler for 100 removes the entry, and the line it writes carries the text
`0.0.0.0` left in the buffer and the pid 100, not the text `10.0.0.7` of the
address recorded for 100. -/
theorem sigchld_handler_logs_stale_address :
    peername 8 straddr_init (sockaddr_inet.ipv4 0 0 0 0 7994)
        = ("0.0.0.0".toList, "0.0.0.0".toList)
    ∧ dotted4 (sockaddr_inet.ipv4 10 0 0 7 5000).from_sin_addr = "10.0.0.7".toList
    ∧ ∃ s1 : Server,
        loop_body 8 7 ["/bin/cat".toList]
            { pid_map := [], straddr := "0.0.0.0".toList, fds := fun _ => none, cerr := [] }
            { acc := { sock := 4, errno := 0, sa := sockaddr_inet.ipv4 10 0 0 7 5000,
                       file := 9 },
              fork_result := 100, getpid := 50, exec_ok := true, nofile := 1024 }
          = LoopResult.looping s1
        ∧ s1.pid_map
          = [(100, { fd := 4, peer := sockaddr_inet.ipv4 10 0 0 7 5000, pass := 7,
                     exec_argv := ["/bin/cat".toList] })]
        ∧ (sigchld_handler 8 s1 100).pid_map = []
        ∧ (sigchld_handler 8 s1 100).cerr.getLast?
          = some (LogEvent.connection_lost "0.0.0.0".toList 100)
        ∧ (sigchld_handler 8 s1 100).cerr.getLast?
          ≠ some (LogEvent.connection_lost "10.0.0.7".toList 100) :=
  ⟨by decide, by decide, _, rfl, by decide, by decide, by decide, by decide⟩

/-- The value of `sd_listen_fds` when `LISTEN_PID` names the calling process and
`LISTEN_FDS` reads as 1: it returns 1 with descriptor 3 marked close-on-exec when
descriptor 3 is open, and `-1` with the table unchanged when it is not. -/
theorem sd_listen_fds_one (uninit unset_environment pid : Int) (env : Env) (fds : FdTable)
    (e1 e2 : List Char)
    (h1 : getenv env "LISTEN_PID" = some e1) (hpid : s2int uninit e1 = pid)
    (h2 : getenv env "LISTEN_FDS" = some e2) (hn : s2int uninit e2 = 1) :
    ((sd_listen_fds uninit unset_environment pid env fds).ret,
      (sd_listen_fds uninit unset_environment pid env fds).fds)
      = match fds 3 with
        | some entry => (1, fds.set 3 (some { file := entry.file, cloexec := true }))
        | none => (-1, fds) := by
  have hcount : (to_int (SD_LISTEN_FDS_START + to_int (to_unsigned 1))
      - SD_LISTEN_FDS_START).toNat = 1 := by decide
  have hret : to_int (to_unsigned 1) = 1 := by decide
  unfold sd_listen_fds
  simp only [h1, h2, hpid, hn, hcount, hret, ne_eq, not_true_eq_false, if_false]
  cases h3 : fds 3 with
  | none => simp [cloexec_loop, fcntl_setfd_cloexec, SD_LISTEN_FDS_START, h3]
  | some entry => simp [cloexec_loop, fcntl_setfd_cloexec, SD_LISTEN_FDS_START, h3]

/-- C5 (the claim as stated fails).  `LISTEN_PID` is the pid of the process,
`LISTEN_FDS` is 1, and descriptor 3 is not open: `fcntl` fails, `sd_listen_fds`
returns `-1`, and `main` exits with status 1 instead of accepting on 3. -/
theorem main_systemd_closed_descriptor_exits :
    getenv [("LISTEN_PID", "100".toList), ("LISTEN_FDS", "1".toList)] "LISTEN_PID"
      = some "100".toList
    ∧ s2int 0 "100".toList = 100
    ∧ getenv [("LISTEN_PID", "100".toList), ("LISTEN_FDS", "1".toList)] "LISTEN_FDS"
      = some "1".toList
    ∧ s2int 0 "1".toList = 1
    ∧ main_systemd 0 8 100 [("LISTEN_PID", "100".toList), ("LISTEN_FDS", "1".toList)]
        (fun k => if 0 ≤ k ∧ k ≤ 2 then some { file := k.toNat, cloexec := false } else none)
        straddr_init (sockaddr_inet.ipv4 0 0 0 0 7994)
      = Startup.exited 1 [LogEvent.getting_socket, LogEvent.no_fds] :=
  ⟨by decide, by decide, by decide, by decide, rfl⟩

/-- C5 (amended).  In the branch of `main` for `--systemd`: when `LISTEN_PID`
reads as the pid of the process, `LISTEN_FDS` reads as 1 and descriptor 3 is
open, `main` goes on with `fd = SD_LISTEN_FDS_START = 3`, and that descriptor is
marked close-on-exec; when descriptor 3 is not open, `main` exits with status 1;
and whenever the value returned by `sd_listen_fds` is not 1 (0, 2 or more, or
negative), `main` exits with status 1. -/
theorem main_systemd_count (uninit : Int) (ptr_size : Nat) (pid : Int) (env : Env)
    (fds : FdTable) (straddr : List Char) (sockname : sockaddr_inet) :
    (∀ (e1 e2 : List Char) (entry : FdEntry),
      getenv env "LISTEN_PID" = some e1 → s2int uninit e1 = pid →
      getenv env "LISTEN_FDS" = some e2 → s2int uninit e2 = 1 →
      fds 3 = some entry →
      ∃ p : Provisioned,
        main_systemd uninit ptr_size pid env fds straddr sockname = Startup.ready p
        ∧ p.fd = SD_LISTEN_FDS_START ∧ p.fd = 3
        ∧ p.fds 3 = some { file := entry.file, cloexec := true })
    ∧ (∀ (e1 e2 : List Char),
      getenv env "LISTEN_PID" = some e1 → s2int uninit e1 = pid →
      getenv env "LISTEN_FDS" = some e2 → s2int uninit e2 = 1 →
      fds 3 = none →
      ∃ cerr : List LogEvent,
        main_systemd uninit ptr_size pid env fds straddr sockname = Startup.exited 1 cerr)
    ∧ ((sd_listen_fds uninit 1 pid env fds).ret ≠ 1 →
      ∃ cerr : List LogEvent,
        main_systemd uninit ptr_size pid env fds straddr sockname = Startup.exited 1 cerr) := by
  have hexit : (sd_listen_fds uninit 1 pid env fds).ret ≠ 1 →
      ∃ cerr : List LogEvent,
        main_systemd uninit ptr_size pid env fds straddr sockname = Startup.exited 1 cerr := by
    intro hne
    unfold main_systemd
    by_cases hgt : (sd_listen_fds uninit 1 pid env fds).ret > 1
    · exact ⟨[LogEvent.getting_socket, LogEvent.too_many_fds], by simp only [hgt, if_true]⟩
    · have hlt : (sd_listen_fds uninit 1 pid env fds).ret < 1 := by omega
      exact ⟨[LogEvent.getting_socket, LogEvent.no_fds],
        by simp only [hgt, hlt, if_true, if_false]⟩
  refine ⟨?_, ?_, hexit⟩
  · intro e1 e2 entry h1 hpid h2 hn h3
    have hsd := sd_listen_fds_one uninit 1 pid env fds e1 e2 h1 hpid h2 hn
    rw [h3] at hsd
    have hr : (sd_listen_fds uninit 1 pid env fds).ret = 1 := congrArg Prod.fst hsd
    have hf : (sd_listen_fds uninit 1 pid env fds).fds
        = fds.set 3 (some { file := entry.file, cloexec := true }) := congrArg Prod.snd hsd
    refine ⟨{ fd := SD_LISTEN_FDS_START + 0
              environ := (sd_listen_fds uninit 1 pid env fds).environ
              fds := (sd_listen_fds uninit 1 pid env fds).fds
              straddr := (peername ptr_size straddr sockname).1
              cerr := [LogEvent.getting_socket,
                LogEvent.bound_to (peername ptr_size straddr sockname).2 sockname.port] },
      ?_, rfl, rfl, ?_⟩
    · unfold main_systemd
      simp only [hr, gt_iff_lt, lt_self_iff_false, if_false]
    · simp [hf, FdTable.set]
  · intro e1 e2 h1 hpid h2 hn h3
    have hsd := sd_listen_fds_one uninit 1 pid env fds e1 e2 h1 hpid h2 hn
    rw [h3] at hsd
    have hr : (sd_listen_fds uninit 1 pid env fds).ret = -1 := congrArg Prod.fst hsd
    exact hexit (by rw [hr]; decide)

/-- Instance of C5: with `LISTEN_PID=100` in process 100 and `LISTEN_FDS=1`, an
open descriptor 3 is the one `main` accepts on; with `LISTEN_FDS=2` and two open
descriptors `main` exits with status 1. -/
theorem main_systemd_count_witness :
    (∃ p : Provisioned,
      main_systemd 0 8 100 [("LISTEN_PID", "100".toList), ("LISTEN_FDS", "1".toList)]
          (fun k => if 0 ≤ k ∧ k ≤ 3 then some { file := k.toNat, cloexec := false } else none)
          straddr_init (sockaddr_inet.ipv4 0 0 0 0 7994) = Startup.ready p
      ∧ p.fd = SD_LISTEN_FDS_START ∧ p.fd = 3
      ∧ p.fds 3 = some { file := 3, cloexec := true })
    ∧ (∃ cerr : List LogEvent,
      main_systemd 0 8 100 [("LISTEN_PID", "100".toList), ("LISTEN_FDS", "1".toList)]
          (fun k => if 0 ≤ k ∧ k ≤ 2 then some { file := k.toNat, cloexec := false } else none)
          straddr_init (sockaddr_inet.ipv4 0 0 0 0 7994) = Startup.exited 1 cerr)
    ∧ (∃ cerr : List LogEvent,
      main_systemd 0 8 100 [("LISTEN_PID", "100".toList), ("LISTEN_FDS", "2".toList)]
          (fun k => if 0 ≤ k ∧ k ≤ 4 then some { file := k.toNat, cloexec := false } else none)
          straddr_init (sockaddr_inet.ipv4 0 0 0 0 7994) = Startup.exited 1 cerr) :=
  ⟨(main_systemd_count 0 8 100 [("LISTEN_PID", "100".toList), ("LISTEN_FDS", "1".toList)]
      (fun k => if 0 ≤ k ∧ k ≤ 3 then some { file := k.toNat, cloexec := false } else none)
      straddr_init (sockaddr_inet.ipv4 0 0 0 0 7994)).1 "100".toList "1".toList
      { file := 3, cloexec := false } (by decide) (by decide) (by decide) (by decide)
      (by decide),
    (main_systemd_count 0 8 100 [("LISTEN_PID", "100".toList), ("LISTEN_FDS", "1".toList)]
      (fun k => if 0 ≤ k ∧ k ≤ 2 then some { file := k.toNat, cloexec := false } else none)
      straddr_init (sockaddr_inet.ipv4 0 0 0 0 7994)).2.1 "100".toList "1".toList
      (by decide) (by decide) (by decide) (by decide) (by decide),
    (main_systemd_count 0 8 100 [("LISTEN_PID", "100".toList), ("LISTEN_FDS", "2".toList)]
      (fun k => if 0 ≤ k ∧ k ≤ 4 then some { file := k.toNat, cloexec := false } else none)
      straddr_init (sockaddr_inet.ipv4 0 0 0 0 7994)).2.2 (by decide)⟩

/-- A call of `dup2` on an open source and a different target below the descriptor
limit makes the target refer to the file of the source, with the close-on-exec
flag clear. -/
theorem dup2_target (nofile : Int) (t : FdTable) (oldfd newfd : Int) (e : FdEntry)
    (h : t oldfd = some e) (hne : oldfd ≠ newfd) (h0 : 0 ≤ newfd) (hlim : newfd < nofile) :
    dup2 nofile t oldfd newfd newfd = some { file := e.file, cloexec := false } := by
  unfold dup2
  rw [h]
  have hl : ¬ (newfd < 0 ∨ nofile ≤ newfd) := by omega
  simp [hl, hne, FdTable.set]

/-- The statements that save the error stream, when the descriptor limit is above
200: descriptor 200 refers to the file of descriptor 2 and is marked
close-on-exec; no other descriptor changes. -/
theorem save_stderr_spec (nofile : Int) (t : FdTable) (err : FdEntry) (herr : t 2 = some err)
    (hlim : 200 < nofile) :
    save_stderr nofile t 200 = some { file := err.file, cloexec := true }
    ∧ ∀ k : Int, k ≠ 200 → save_stderr nofile t k = t k := by
  have hd : dup2 nofile t 2 200 200 = some { file := err.file, cloexec := false } :=
    dup2_target nofile t 2 200 err herr (by decide) (by decide) hlim
  constructor
  · unfold save_stderr fcntl_setfd_cloexec
    rw [hd]
    simp [FdTable.set]
  · intro k hk
    unfold save_stderr fcntl_setfd_cloexec
    rw [hd]
    simp [FdTable.set, hk, dup2_other]

/-- The standard descriptors after the conditional `dup2` calls of `Client::run`,
when the connection descriptor is open and is none of 0, 1, 2, and the descriptor
limit is above 2. -/
theorem pass_fds_std (c : Client) (nofile : Int) (u : FdTable) (sock : FdEntry)
    (hsock : u c.fd = some sock) (hn0 : c.fd ≠ 0) (hn1 : c.fd ≠ 1) (hn2 : c.fd ≠ 2)
    (hlim : 2 < nofile) :
    c.pass_fds nofile u 0
        = (if c.pass &&& PASS_IN ≠ 0 then some { file := sock.file, cloexec := false } else u 0)
    ∧ c.pass_fds nofile u 1
        = (if c.pass &&& PASS_OUT ≠ 0 then some { file := sock.file, cloexec := false } else u 1)
    ∧ c.pass_fds nofile u 2
        = (if c.pass &&& PASS_ERR ≠ 0 then some { file := sock.file, cloexec := false }
          else u 2) := by
  have k0 : ∀ v : FdTable, v c.fd = some sock →
      dup2 nofile v c.fd 0 0 = some { file := sock.file, cloexec := false } :=
    fun v hv => dup2_target nofile v c.fd 0 sock hv hn0 (by decide) (by omega)
  have k1 : ∀ v : FdTable, v c.fd = some sock →
      dup2 nofile v c.fd 1 1 = some { file := sock.file, cloexec := false } :=
    fun v hv => dup2_target nofile v c.fd 1 sock hv hn1 (by decide) (by omega)
  have k2 : ∀ v : FdTable, v c.fd = some sock →
      dup2 nofile v c.fd 2 2 = some { file := sock.file, cloexec := false } :=
    fun v hv => dup2_target nofile v c.fd 2 sock hv hn2 (by decide) (by omega)
  have keep : ∀ (v : FdTable) (n : Int), c.fd ≠ n → v c.fd = some sock →
      dup2 nofile v c.fd n c.fd = some sock := by
    intro v n hn hv
    rw [dup2_other nofile v c.fd n c.fd hn, hv]
  unfold Client.pass_fds
  by_cases hi : c.pass &&& PASS_IN = 0 <;> by_cases ho : c.pass &&& PASS_OUT = 0 <;>
    by_cases he : c.pass &&& PASS_ERR = 0 <;>
    simp only [ne_eq, hi, ho, he, if_true, if_false, not_true_eq_false, not_false_eq_true] <;>
    refine ⟨?_, ?_, ?_⟩ <;>
    first
      | rfl
      | simp [dup2_other, k0, k1, k2, keep, hsock, hn0, hn1, hn2]

/-- Descriptor remapping in `Client::run` when the descriptor limit is above 200.
Let descriptor 2 of the child be open (`err`), let the connection
descriptor `c.fd` be open (`sock`) and different from the reserved descriptor
200, and let none of the descriptors 0, 1, 2 refer to the file of the connection
at the start.  Then for every pass mask: after the first two statements
(`save_stderr`) descriptor 200 refers to the file of the original descriptor 2
with close-on-exec set while every other descriptor, the standard streams
included, is still unchanged; after the conditional `dup2` calls descriptor 200
is still that duplicate, descriptor 0 (1, 2) refers to the file of the connection
exactly when the bit `PASS_IN` (`PASS_OUT`, `PASS_ERR`) of the mask is set, a
standard descriptor whose bit is clear has its original entry, and every
descriptor other than 0, 1, 2 and 200 has its original entry.  This table is the
one `execvp` is called with in `Client::run`. -/
theorem run_descriptor_remap (c : Client) (nofile : Int) (t : FdTable) (err sock : FdEntry)
    (hlim : 200 < nofile)
    (herr : t 2 = some err) (hsock : t c.fd = some sock) (h200 : c.fd ≠ 200)
    (h0 : ∀ e : FdEntry, t 0 = some e → e.file ≠ sock.file)
    (h1 : ∀ e : FdEntry, t 1 = some e → e.file ≠ sock.file)
    (h2 : err.file ≠ sock.file) :
    (save_stderr nofile t 200 = some { file := err.file, cloexec := true }
      ∧ ∀ k : Int, k ≠ 200 → save_stderr nofile t k = t k)
    ∧ c.pass_fds nofile (save_stderr nofile t) 200 = some { file := err.file, cloexec := true }
    ∧ ((∃ e : FdEntry, c.pass_fds nofile (save_stderr nofile t) 0 = some e ∧ e.file = sock.file)
        ↔ c.pass &&& PASS_IN ≠ 0)
    ∧ ((∃ e : FdEntry, c.pass_fds nofile (save_stderr nofile t) 1 = some e ∧ e.file = sock.file)
        ↔ c.pass &&& PASS_OUT ≠ 0)
    ∧ ((∃ e : FdEntry, c.pass_fds nofile (save_stderr nofile t) 2 = some e ∧ e.file = sock.file)
        ↔ c.pass &&& PASS_ERR ≠ 0)
    ∧ (c.pass &&& PASS_IN = 0 → c.pass_fds nofile (save_stderr nofile t) 0 = t 0)
    ∧ (c.pass &&& PASS_OUT = 0 → c.pass_fds nofile (save_stderr nofile t) 1 = t 1)
    ∧ (c.pass &&& PASS_ERR = 0 → c.pass_fds nofile (save_stderr nofile t) 2 = t 2)
    ∧ (∀ k : Int, k ≠ 0 → k ≠ 1 → k ≠ 2 → k ≠ 200 → c.pass_fds nofile (save_stderr nofile t) k = t k)
    ∧ (∀ (info : ProcInfo) (buf : List Char),
        ∃ (argv : List (Option (List Char))) (cerr : List (Option Nat × LogEvent)),
          c.run info buf t nofile true
            = ChildOutcome.image_replaced argv (exec_close (c.pass_fds nofile (save_stderr nofile t))) cerr) := by
  obtain ⟨hs200, hsk⟩ := save_stderr_spec nofile t err herr hlim
  have hn0 : c.fd ≠ 0 := fun h => h0 sock (h ▸ hsock) rfl
  have hn1 : c.fd ≠ 1 := fun h => h1 sock (h ▸ hsock) rfl
  have hn2 : c.fd ≠ 2 := by
    intro h
    rw [h, herr] at hsock
    exact h2 (congrArg FdEntry.file (Option.some.inj hsock))
  have hsock1 : save_stderr nofile t c.fd = some sock := by rw [hsk c.fd h200, hsock]
  obtain ⟨p0, p1, p2⟩ :=
    pass_fds_std c nofile (save_stderr nofile t) sock hsock1 hn0 hn1 hn2 (by omega)
  have e0 : save_stderr nofile t 0 = t 0 := hsk 0 (by decide)
  have e1 : save_stderr nofile t 1 = t 1 := hsk 1 (by decide)
  have e2 : save_stderr nofile t 2 = t 2 := hsk 2 (by decide)
  refine ⟨⟨hs200, hsk⟩, ?_, ?_, ?_, ?_, ?_, ?_, ?_, ?_, ?_⟩
  · rw [pass_fds_other c nofile _ 200 (by decide) (by decide) (by decide), hs200]
  · rw [p0, e0]
    by_cases hi : c.pass &&& PASS_IN ≠ 0
    · simp [hi]
    · simp only [hi, if_false, iff_false]
      rintro ⟨e, he, hf⟩
      exact h0 e he hf
  · rw [p1, e1]
    by_cases ho : c.pass &&& PASS_OUT ≠ 0
    · simp [ho]
    · simp only [ho, if_false, iff_false]
      rintro ⟨e, he, hf⟩
      exact h1 e he hf
  · rw [p2, e2, herr]
    by_cases he : c.pass &&& PASS_ERR ≠ 0
    · simp [he]
    · simp only [he, if_false, iff_false]
      rintro ⟨e, hee, hf⟩
      exact h2 ((Option.some.inj hee) ▸ hf)
  · intro hz
    rw [p0, e0]
    simp [hz]
  · intro hz
    rw [p1, e1]
    simp [hz]
  · intro hz
    rw [p2, e2]
    simp [hz]
  · intro k k0 k1 k2 k200
    rw [pass_fds_other c nofile _ k k0 k1 k2, hsk k k200]
  · intro info buf
    exact ⟨_, _, rfl⟩

/-- Instance of `run_descriptor_remap` with the limit 1024: descriptors 0 to 4 open on files 0 to 4, the connection on
descriptor 4, mask `PASS_IN | PASS_ERR`.  Descriptor 200 becomes a close-on-exec
duplicate of descriptor 2, descriptor 0 refers to the connection, descriptor 1
keeps its entry. -/
theorem run_descriptor_remap_witness :
    save_stderr 1024
        (fun k => if 0 ≤ k ∧ k ≤ 4 then some { file := k.toNat, cloexec := false } else none) 200
      = some { file := 2, cloexec := true }
    ∧ ((∃ e : FdEntry,
        Client.pass_fds
          { fd := 4, peer := sockaddr_inet.ipv4 1 2 3 4 5000, pass := 5, exec_argv := [] } 1024
          (save_stderr 1024
            (fun k => if 0 ≤ k ∧ k ≤ 4 then some { file := k.toNat, cloexec := false } else none))
          0 = some e ∧ e.file = 4)
        ↔ 5 &&& PASS_IN ≠ 0)
    ∧ Client.pass_fds
          { fd := 4, peer := sockaddr_inet.ipv4 1 2 3 4 5000, pass := 5, exec_argv := [] } 1024
          (save_stderr 1024
            (fun k => if 0 ≤ k ∧ k ≤ 4 then some { file := k.toNat, cloexec := false } else none))
          1 = some { file := 1, cloexec := false } :=
  have h := run_descriptor_remap
    { fd := 4, peer := sockaddr_inet.ipv4 1 2 3 4 5000, pass := 5, exec_argv := [] } 1024
    (fun k => if 0 ≤ k ∧ k ≤ 4 then some { file := k.toNat, cloexec := false } else none)
    { file := 2, cloexec := false } { file := 4, cloexec := false }
    (by decide) (by decide) (by decide) (by decide)
    (fun e he => by
      have h3 : e = { file := 0, cloexec := false } := (Option.some.inj he).symm
      rw [h3]
      decide)
    (fun e he => by
      have h3 : e = { file := 1, cloexec := false } := (Option.some.inj he).symm
      rw [h3]
      decide)
    (by decide)
  ⟨h.1.1, h.2.2.1, h.2.2.2.2.2.2.1 (by decide)⟩

/-- C8 (evaluation at the failing input).  The limit on descriptor numbers is
100, the descriptors 0 to 4 are open on the files 0 to 4, the connection is
descriptor 4 and the mask selects the three streams.  The call `dup2(2, 200)`
fails, so descriptor 200 is not open after the statements that save the error
stream, nor after the conditional `dup2` calls, nor in the table `execvp` is
called with, while descriptor 2 refers to the connection: nothing refers to the
original standard error any more.  With the limit 1024 descriptor 200 is the
duplicate of descriptor 2. -/
theorem run_low_limit_no_saved_stderr :
    save_stderr 100 
        (fun k => if 0 ≤ k ∧ k ≤ 4 then some { file := k.toNat, cloexec := false } else none) 200 = none
    ∧ Client.pass_fds
        { fd := 4, peer := sockaddr_inet.ipv4 10 0 0 7 5000, pass := 7,
          exec_argv := ["/bin/false".toList] }
        100 (save_stderr 100 
        (fun k => if 0 ≤ k ∧ k ≤ 4 then some { file := k.toNat, cloexec := false } else none)) 200 = none
    ∧ Client.pass_fds
        { fd := 4, peer := sockaddr_inet.ipv4 10 0 0 7 5000, pass := 7,
          exec_argv := ["/bin/false".toList] }
        100 (save_stderr 100 
        (fun k => if 0 ≤ k ∧ k ≤ 4 then some { file := k.toNat, cloexec := false } else none)) 2 = some { file := 4, cloexec := false }
    ∧ (∃ fds : FdTable,
        Client.run
            { fd := 4, peer := sockaddr_inet.ipv4 10 0 0 7 5000, pass := 7,
              exec_argv := ["/bin/false".toList] }
            { ptr_size := 8, pid := 4321 } [] 
        (fun k => if 0 ≤ k ∧ k ≤ 4 then some { file := k.toNat, cloexec := false } else none) 100 true
          = ChildOutcome.image_replaced [some "/bin/false".toList, none] fds
              [(some 2, LogEvent.calling 4321 [some "/bin/false".toList, none])]
        ∧ fds 200 = none
        ∧ fds 2 = some { file := 4, cloexec := false })
    ∧ save_stderr 1024 
        (fun k => if 0 ≤ k ∧ k ≤ 4 then some { file := k.toNat, cloexec := false } else none) 200 = some { file := 2, cloexec := true } :=
  ⟨by decide, by decide, by decide, ⟨_, rfl, by decide, by decide⟩, by decide⟩

/-- The exec-failure path of `Client::run` when the descriptor limit is above 200.
Let descriptor 2 of the child be open on the file of `err`.  If `execvp`
fails in `Client::run` then, for every pass mask, the child calls `exit(1)`,
descriptor 2 refers to the file of `err` again, and the last message written is
the report of `perror("exec")`, written to that file.  In the child (`fork`
returned 0) `Client::start` does not return, whether `execvp` succeeds or not,
and the accept loop of the child performs no further iteration: after a
successful `accept`, its result is the end of the child, for every list of
later answers. -/
theorem run_exec_failure (c : Client) (info : ProcInfo) (buf : List Char) (t : FdTable)
    (nofile : Int) (err : FdEntry) (hlim : 200 < nofile) (herr : t 2 = some err) :
    (∃ (fds3 : FdTable) (cerr0 : List (Option Nat × LogEvent)),
      c.run info buf t nofile false
        = ChildOutcome.exited 1 fds3 (cerr0 ++ [(some err.file, LogEvent.perror "exec")])
      ∧ fds3 2 = some { file := err.file, cloexec := false })
    ∧ (∀ (ptr_size : Nat) (getpid : Int) (exec_ok : Bool),
      c.start ptr_size buf t nofile 0 getpid exec_ok
        = StartOutcome.child
            (c.run { ptr_size := ptr_size, pid := getpid } buf t nofile exec_ok))
    ∧ (∀ (ptr_size pass : Nat) (exec_argv : List (List Char)) (s : Server) (os : IterOS)
        (rest : List IterOS), 0 ≤ os.acc.sock → os.fork_result = 0 →
      ∃ o : ChildOutcome,
        accept_loop ptr_size pass exec_argv s (os :: rest) = LoopResult.child_ended o) := by
  obtain ⟨hs200, _⟩ := save_stderr_spec nofile t err herr hlim
  have h200 : c.pass_fds nofile (save_stderr nofile t) 200 = some { file := err.file, cloexec := true } := by
    rw [pass_fds_other c nofile _ 200 (by decide) (by decide) (by decide), hs200]
  have hrest : dup2 nofile (c.pass_fds nofile (save_stderr nofile t)) 200 2 2
      = some { file := err.file, cloexec := false } :=
    dup2_target nofile _ 200 2 { file := err.file, cloexec := true } h200 (by decide)
      (by decide) (by omega)
  refine ⟨?_, ?_, ?_⟩
  · refine ⟨dup2 nofile (c.pass_fds nofile (save_stderr nofile t)) 200 2,
      [(stderr_file t, LogEvent.calling info.pid (c.prepare_argv info buf).2)], ?_, hrest⟩
    unfold Client.run
    simp [stderr_file, hrest]
  · intro ptr_size getpid exec_ok
    rfl
  · intro ptr_size pass exec_argv s os rest hsock hfork
    have hacc : ¬ os.acc.sock < 0 := by omega
    refine ⟨Client.run
      { fd := os.acc.sock, peer := os.acc.sa, pass := pass, exec_argv := exec_argv }
      { ptr_size := ptr_size, pid := os.getpid } (peername ptr_size s.straddr os.acc.sa).1
      (s.fds.set os.acc.sock (some { file := os.acc.file, cloexec := false })) os.nofile
      os.exec_ok, ?_⟩
    unfold accept_loop loop_body loop_body_start Client.accept Client.start
    simp only [hacc, hfork, if_false, ne_eq, not_true_eq_false]

/-- Instance of `run_exec_failure` with the limit 1024: with descriptors 0 to 4 open on files 0 to 4 and the mask
`PASS_IN | PASS_OUT | PASS_ERR`, a failed `execvp` ends the child with status 1
and descriptor 2 back on file 2; and a process in which `fork` returned 0 ends as
a child although a second answer of `accept` is waiting. -/
theorem run_exec_failure_witness :
    (∃ (fds3 : FdTable) (cerr0 : List (Option Nat × LogEvent)),
      Client.run { fd := 4, peer := sockaddr_inet.ipv4 1 2 3 4 5000, pass := 7, exec_argv := [] }
          { ptr_size := 8, pid := 4321 } []
          (fun k => if 0 ≤ k ∧ k ≤ 4 then some { file := k.toNat, cloexec := false } else none)
          1024 false
        = ChildOutcome.exited 1 fds3 (cerr0 ++ [(some 2, LogEvent.perror "exec")])
      ∧ fds3 2 = some { file := 2, cloexec := false })
    ∧ (∃ o : ChildOutcome,
      accept_loop 8 7 [] { pid_map := [], straddr := [], fds := fun _ => none, cerr := [] }
        [{ acc := { sock := 4, errno := 0, sa := sockaddr_inet.ipv4 1 2 3 4 5000, file := 9 }
           fork_result := 0, getpid := 4321, exec_ok := false, nofile := 1024 },
         { acc := { sock := 4, errno := 0, sa := sockaddr_inet.ipv4 1 2 3 5 5001, file := 10 }
           fork_result := 4322, getpid := 4321, exec_ok := false, nofile := 1024 }]
        = LoopResult.child_ended o) :=
  have h := run_exec_failure
    { fd := 4, peer := sockaddr_inet.ipv4 1 2 3 4 5000, pass := 7, exec_argv := [] }
    { ptr_size := 8, pid := 4321 } []
    (fun k => if 0 ≤ k ∧ k ≤ 4 then some { file := k.toNat, cloexec := false } else none)
    1024 { file := 2, cloexec := false } (by decide) (by decide)
  ⟨h.1, h.2.2 8 7 [] { pid_map := [], straddr := [], fds := fun _ => none, cerr := [] }
    { acc := { sock := 4, errno := 0, sa := sockaddr_inet.ipv4 1 2 3 4 5000, file := 9 }
      fork_result := 0, getpid := 4321, exec_ok := false, nofile := 1024 }
    [{ acc := { sock := 4, errno := 0, sa := sockaddr_inet.ipv4 1 2 3 5 5001, file := 10 }
       fork_result := 4322, getpid := 4321, exec_ok := false, nofile := 1024 }]
    (by decide) rfl⟩

/-- C9 (evaluation at the failing input).  The limit on descriptor numbers is
100, the descriptors 0 to 4 are open on the files 0 to 4, the connection is
descriptor 4 and the mask selects the three streams.  When `execvp` fails, the
call `dup2(200, 2)` finds descriptor 200 not open: the child exits with status 1
with descriptor 2 still on the file of the connection, and the report of
`perror("exec")` is written to that file, not to the file 2 that descriptor 2
referred to at the start. -/
theorem run_exec_failure_low_limit :
    ∃ fds3 : FdTable,
      Client.run
          { fd := 4, peer := sockaddr_inet.ipv4 10 0 0 7 5000, pass := 7,
            exec_argv := ["/bin/false".toList] }
          { ptr_size := 8, pid := 4321 } [] 
          (fun k => if 0 ≤ k ∧ k ≤ 4 then some { file := k.toNat, cloexec := false } else none) 100 false
        = ChildOutcome.exited 1 fds3
            [(some 2, LogEvent.calling 4321 [some "/bin/false".toList, none]),
             (some 4, LogEvent.perror "exec")]
      ∧ fds3 2 = some { file := 4, cloexec := false }
      ∧ fds3 2 ≠ some { file := 2, cloexec := false }
      ∧ fds3 200 = none :=
  ⟨_, rfl, by decide, by decide, by decide⟩

/-- C10.  For every token in which no percent sign is followed by another
character, `Client::regex_replace_var` returns the token itself and leaves the
buffer of `peername` untouched. -/
theorem regex_replace_var_no_placeholder (c : Client) (info : ProcInfo) (buf : List Char)
    (tok : List Char)
    (h : ∀ i : Nat, tok[i]? = some (Char.ofNat 0x25) → tok[i + 1]? = none) :
    c.regex_replace_var info buf tok = (buf, tok) := by
  unfold Client.regex_replace_var
  rw [sregex_matches_eq_nil tok h]

/-- Instance of C10: the token `50%`, whose only percent sign is its last
character, is rendered as itself. -/
theorem regex_replace_var_no_placeholder_witness :
    Client.regex_replace_var
        { fd := 4, peer := sockaddr_inet.ipv4 1 2 3 4 5000, pass := 7, exec_argv := [] }
        { ptr_size := 8, pid := 4321 } [] "50%".toList
      = ([], "50%".toList) :=
  regex_replace_var_no_placeholder _ _ _ _ (fun i hi => by
    match i with
    | 0 => exact absurd hi (by decide)
    | 1 => exact absurd hi (by decide)
    | 2 => rfl
    | _ + 3 => rfl)


/-- When the expression `Client::re` has no match in `s`, the text after the last
match is `s` itself. -/
theorem sregex_matches_nil_rest :
    ∀ s : List Char, (sregex_matches s).1 = [] → (sregex_matches s).2 = s
  | [], _ => rfl
  | [_], _ => rfl
  | c :: d :: rest, h => by
    unfold sregex_matches at h ⊢
    by_cases hc : c = Char.ofNat 0x25 ∧ d ≠ Char.ofNat 0x25
    · rw [if_pos hc] at h
      simp at h
    · rw [if_neg hc] at h ⊢
      cases hm : (sregex_matches (d :: rest)).1 with
      | nil =>
        have ih := sregex_matches_nil_rest (d :: rest) hm
        simp only [hm, ih]
      | cons m ms =>
        obtain ⟨p, x⟩ := m
        rw [hm] at h
        simp at h

/-- The matches of `Client::re` in a text in which a percent sign followed by a
character `x` other than a percent sign stands after `u`: the matches in `u`,
then the match of `%x`, preceded by the text after the last match in `u`, then
the matches in `v`. -/
theorem sregex_matches_append (x : Char) (hx : x ≠ Char.ofNat 0x25) (v : List Char) :
    ∀ u : List Char,
      sregex_matches (u ++ Char.ofNat 0x25 :: x :: v)
        = ((sregex_matches u).1 ++ ((sregex_matches u).2, x) :: (sregex_matches v).1,
            (sregex_matches v).2)
  | [] => by simp [sregex_matches, hx]
  | [c] => by
    have h0 : sregex_matches (Char.ofNat 0x25 :: x :: v)
        = (([], x) :: (sregex_matches v).1, (sregex_matches v).2) := by
      simp [sregex_matches, hx]
    have hL : sregex_matches (c :: Char.ofNat 0x25 :: x :: v)
        = (([c], x) :: (sregex_matches v).1, (sregex_matches v).2) := by
      conv_lhs => rw [sregex_matches]
      simp only [ne_eq, not_true_eq_false, and_false, if_false, h0]
    have hR : sregex_matches [c] = ([], [c]) := by rw [sregex_matches]
    show sregex_matches (c :: Char.ofNat 0x25 :: x :: v) = _
    rw [hL, hR]
    rfl
  | c :: d :: rest => by
    show sregex_matches (c :: d :: (rest ++ Char.ofNat 0x25 :: x :: v)) = _
    by_cases hc : c = Char.ofNat 0x25 ∧ d ≠ Char.ofNat 0x25
    · have ih := sregex_matches_append x hx v rest
      conv_lhs => rw [sregex_matches, if_pos hc, ih]
      conv_rhs => rw [sregex_matches, if_pos hc]
      rfl
    · have ih := sregex_matches_append x hx v (d :: rest)
      have ih2 : sregex_matches (d :: (rest ++ Char.ofNat 0x25 :: x :: v))
          = ((sregex_matches (d :: rest)).1
              ++ ((sregex_matches (d :: rest)).2, x) :: (sregex_matches v).1,
            (sregex_matches v).2) := ih
      conv_lhs => rw [sregex_matches, if_neg hc, ih2]
      conv_rhs => rw [sregex_matches, if_neg hc]
      cases hm : (sregex_matches (d :: rest)).1 with
      | nil => rfl
      | cons m ms =>
        obtain ⟨p, y⟩ := m
        rfl

/-- The loop of `Client::regex_replace_var` started with text already in `res`
gives that text followed by what the loop gives when started empty. -/
theorem replace_loop_acc (c : Client) (info : ProcInfo) :
    ∀ (ms : List (List Char × Char)) (buf res : List Char),
      c.replace_loop info ms buf res
        = ((c.replace_loop info ms buf []).1, res ++ (c.replace_loop info ms buf []).2)
  | [], buf, res => by simp [Client.replace_loop]
  | (p, x) :: ms, buf, res => by
    have h1 := replace_loop_acc c info ms (c.ref_var info buf x).1
      (res ++ p ++ (c.ref_var info buf x).2)
    have h2 := replace_loop_acc c info ms (c.ref_var info buf x).1
      ([] ++ p ++ (c.ref_var info buf x).2)
    rw [Client.replace_loop, h1]
    conv_rhs => rw [Client.replace_loop, h2]
    simp [List.append_assoc]

/-- The loop of `Client::regex_replace_var` over two lists of matches in a row. -/
theorem replace_loop_append (c : Client) (info : ProcInfo) :
    ∀ (ms1 ms2 : List (List Char × Char)) (buf res : List Char),
      c.replace_loop info (ms1 ++ ms2) buf res
        = c.replace_loop info ms2 (c.replace_loop info ms1 buf res).1
            (c.replace_loop info ms1 buf res).2
  | [], ms2, buf, res => by simp [Client.replace_loop]
  | (p, x) :: ms1, ms2, buf, res => by
    have ih := replace_loop_append c info ms1 ms2 (c.ref_var info buf x).1
      (res ++ p ++ (c.ref_var info buf x).2)
    show c.replace_loop info ((p, x) :: (ms1 ++ ms2)) buf res = _
    rw [Client.replace_loop, ih]
    conv_rhs => rw [Client.replace_loop]

/-- The value of `Client::regex_replace_var` in terms of the matches of the
expression, also when there is none. -/
theorem regex_replace_var_eq (c : Client) (info : ProcInfo) (buf str : List Char) :
    c.regex_replace_var info buf str
      = ((c.replace_loop info (sregex_matches str).1 buf []).1,
          (c.replace_loop info (sregex_matches str).1 buf []).2 ++ (sregex_matches str).2) := by
  unfold Client.regex_replace_var
  cases hm : (sregex_matches str).1 with
  | nil =>
    have h := sregex_matches_nil_rest str hm
    simp [Client.replace_loop, h]
  | cons m ms => rfl

/-- Rendering of a token around a percent sign followed by a character `x` other
than a percent sign: the rendering of the text before it, the value of
`Client::ref_var` for `x`, and the rendering of the text after it, in this order,
the buffer of `peername` being handed on from left to right. -/
theorem regex_replace_var_split (c : Client) (info : ProcInfo) (buf u v : List Char)
    (x : Char) (hx : x ≠ Char.ofNat 0x25) :
    c.regex_replace_var info buf (u ++ Char.ofNat 0x25 :: x :: v)
      = ((c.regex_replace_var info
            (c.ref_var info (c.regex_replace_var info buf u).1 x).1 v).1,
          (c.regex_replace_var info buf u).2
            ++ (c.ref_var info (c.regex_replace_var info buf u).1 x).2
            ++ (c.regex_replace_var info
                (c.ref_var info (c.regex_replace_var info buf u).1 x).1 v).2) := by
  rw [regex_replace_var_eq c info buf (u ++ Char.ofNat 0x25 :: x :: v),
    sregex_matches_append x hx v u]
  simp only []
  rw [replace_loop_append, Client.replace_loop,
    replace_loop_acc c info (sregex_matches v).1 _ (_ ++ _ ++ _)]
  rw [regex_replace_var_eq c info buf u, regex_replace_var_eq c info _ v]
  simp [List.append_assoc]

/-- The loop of `Client::regex_replace_var` over matches whose captured characters
are all other than `a` and `p` puts every match back as it stood. -/
theorem replace_loop_unknown (c : Client) (info : ProcInfo) :
    ∀ (ms : List (List Char × Char)) (buf : List Char),
      (∀ m ∈ ms, m.2 ≠ Char.ofNat 0x61 ∧ m.2 ≠ Char.ofNat 0x70) →
      c.replace_loop info ms buf []
        = (buf, (ms.map fun m => m.1 ++ [Char.ofNat 0x25, m.2]).flatten)
  | [], buf, _ => rfl
  | (p, x) :: ms, buf, h => by
    have hx := h (p, x) (List.mem_cons_self _ _)
    have hr : c.ref_var info buf x = (buf, [Char.ofNat 0x25, x]) := by
      unfold Client.ref_var
      rw [if_neg hx.1, if_neg hx.2]
    have ih := replace_loop_unknown c info ms buf
      (fun m hm => h m (List.mem_cons_of_mem _ hm))
    rw [Client.replace_loop, hr, replace_loop_acc, ih]
    simp

/-- A text is the sequence of its matches, each preceded by the text before it,
followed by the text after the last match. -/
theorem sregex_matches_text :
    ∀ s : List Char,
      ((sregex_matches s).1.map fun m => m.1 ++ [Char.ofNat 0x25, m.2]).flatten
        ++ (sregex_matches s).2 = s
  | [] => rfl
  | [_] => rfl
  | c :: d :: rest => by
    by_cases hc : c = Char.ofNat 0x25 ∧ d ≠ Char.ofNat 0x25
    · have ih := sregex_matches_text rest
      rw [sregex_matches, if_pos hc]
      simp only [List.map_cons, List.flatten_cons, List.nil_append, List.cons_append,
        List.append_assoc]
      rw [ih, hc.1]
    · have ih := sregex_matches_text (d :: rest)
      rw [sregex_matches, if_neg hc]
      cases hm : (sregex_matches (d :: rest)).1 with
      | nil =>
        rw [hm] at ih
        simp only [List.map_nil, List.flatten_nil, List.nil_append] at ih ⊢
        rw [ih]
      | cons m ms =>
        obtain ⟨p, y⟩ := m
        rw [hm] at ih
        simp only [List.map_cons, List.flatten_cons, List.cons_append, List.append_assoc]
          at ih ⊢
        rw [ih]

/-- C11 (the claim as stated fails for `x = %`).  In the token `%%p` the first
percent sign is followed by the character `%`, which is neither `a` nor `p`; the
rendering for pid 4321 is `%4321`, whose first two characters are not `%%`, and
the token is not rendered as itself. -/
theorem percent_percent_not_kept :
    (Client.regex_replace_var
        { fd := 4, peer := sockaddr_inet.ipv4 1 2 3 4 5000, pass := 7, exec_argv := [] }
        { ptr_size := 8, pid := 4321 } [] "%%p".toList).2 = "%4321".toList
    ∧ (Client.regex_replace_var
        { fd := 4, peer := sockaddr_inet.ipv4 1 2 3 4 5000, pass := 7, exec_argv := [] }
        { ptr_size := 8, pid := 4321 } [] "%%p".toList).2.take 2 ≠ "%%".toList
    ∧ (Client.regex_replace_var
        { fd := 4, peer := sockaddr_inet.ipv4 1 2 3 4 5000, pass := 7, exec_argv := [] }
        { ptr_size := 8, pid := 4321 } [] "%%p".toList).2 ≠ "%%p".toList := by
  decide

/-- C11 (amended).  For every character `x` other than `a`, `p` and `%`: in every
token, an occurrence of `%x` is rendered as the same two characters, standing
between the rendering of the text before it and the rendering of the text after
it, and the buffer of `peername` is not touched by it; when no percent sign of
the text `u` before it is followed by a character, the two characters stand at
the same position `u.length` as in the token; the token `%x` alone is rendered
as itself; and a token in which every match of `Client::re` captures a character
other than `a` and `p` is rendered as itself. -/
theorem unknown_placeholder_kept (c : Client) (info : ProcInfo) (buf : List Char) (x : Char)
    (hx : x ≠ Char.ofNat 0x25) (ha : x ≠ Char.ofNat 0x61) (hp : x ≠ Char.ofNat 0x70) :
    (∀ u v : List Char,
      c.regex_replace_var info buf (u ++ Char.ofNat 0x25 :: x :: v)
        = ((c.regex_replace_var info (c.regex_replace_var info buf u).1 v).1,
            (c.regex_replace_var info buf u).2 ++ [Char.ofNat 0x25, x]
              ++ (c.regex_replace_var info (c.regex_replace_var info buf u).1 v).2))
    ∧ (∀ u v : List Char,
      (∀ i : Nat, u[i]? = some (Char.ofNat 0x25) → u[i + 1]? = none) →
      (c.regex_replace_var info buf (u ++ Char.ofNat 0x25 :: x :: v)).2
        = u ++ [Char.ofNat 0x25, x] ++ (c.regex_replace_var info buf v).2)
    ∧ c.regex_replace_var info buf [Char.ofNat 0x25, x] = (buf, [Char.ofNat 0x25, x])
    ∧ (∀ tok : List Char,
      (∀ m ∈ (sregex_matches tok).1, m.2 ≠ Char.ofNat 0x61 ∧ m.2 ≠ Char.ofNat 0x70) →
      c.regex_replace_var info buf tok = (buf, tok)) := by
  have hr : ∀ b : List Char, c.ref_var info b x = (b, [Char.ofNat 0x25, x]) := by
    intro b
    unfold Client.ref_var
    rw [if_neg ha, if_neg hp]
  have hsplit : ∀ u v : List Char,
      c.regex_replace_var info buf (u ++ Char.ofNat 0x25 :: x :: v)
        = ((c.regex_replace_var info (c.regex_replace_var info buf u).1 v).1,
            (c.regex_replace_var info buf u).2 ++ [Char.ofNat 0x25, x]
              ++ (c.regex_replace_var info (c.regex_replace_var info buf u).1 v).2) := by
    intro u v
    rw [regex_replace_var_split c info buf u v x hx, hr]
  refine ⟨hsplit, ?_, ?_, ?_⟩
  · intro u v hu
    have h0 : c.regex_replace_var info buf u = (buf, u) := by
      unfold Client.regex_replace_var
      rw [sregex_matches_eq_nil u hu]
    rw [hsplit u v, h0]
  · have h := hsplit [] []
    have h0 : c.regex_replace_var info buf [] = (buf, []) := rfl
    rw [h0] at h
    simpa using h
  · intro tok htok
    rw [regex_replace_var_eq, replace_loop_unknown c info _ buf htok, sregex_matches_text]

/-- Instance of C11: the token `%z` is rendered as `%z`. -/
theorem unknown_placeholder_kept_witness :
    Client.regex_replace_var
        { fd := 4, peer := sockaddr_inet.ipv4 1 2 3 4 5000, pass := 7, exec_argv := [] }
        { ptr_size := 8, pid := 4321 } [] [Char.ofNat 0x25, Char.ofNat 0x7A]
      = ([], [Char.ofNat 0x25, Char.ofNat 0x7A]) :=
  (unknown_placeholder_kept
    { fd := 4, peer := sockaddr_inet.ipv4 1 2 3 4 5000, pass := 7, exec_argv := [] }
    { ptr_size := 8, pid := 4321 } [] (Char.ofNat 0x7A)
    (by decide) (by decide) (by decide)).2.2.1

/-- C12 (the claim as stated fails for `c = %`).  For the token `%%a`, empty text
before it and `a` after the pair `%%`: the rendering for the peer 1.2.3.4 is
`%1.2.3.4`, while the text before, the two characters `%%` and the rendering of
`a` give `%%a`. -/
theorem percent_percent_not_left_to_right :
    (Client.regex_replace_var
        { fd := 4, peer := sockaddr_inet.ipv4 1 2 3 4 5000, pass := 7, exec_argv := [] }
        { ptr_size := 8, pid := 4321 } []
        ([] ++ Char.ofNat 0x25 :: Char.ofNat 0x25 :: "a".toList)).2 = "%1.2.3.4".toList
    ∧ [] ++ (Client.ref_var
          { fd := 4, peer := sockaddr_inet.ipv4 1 2 3 4 5000, pass := 7, exec_argv := [] }
          { ptr_size := 8, pid := 4321 } [] (Char.ofNat 0x25)).2
        ++ (Client.regex_replace_var
          { fd := 4, peer := sockaddr_inet.ipv4 1 2 3 4 5000, pass := 7, exec_argv := [] }
          { ptr_size := 8, pid := 4321 } [] "a".toList).2 = "%%a".toList := by
  decide

/-- C12 (amended).  For every character `x` other than `%` and every text `pre`
in which no percent sign is followed by a character: the rendering of
`pre ++ %x ++ rest` is `pre`, then the value of `Client::ref_var` for `x`, then the
rendering of `rest`, which starts from the buffer of `peername` that `ref_var`
left.  The substituted text is part of the result as it is. -/
theorem render_left_to_right (c : Client) (info : ProcInfo) (buf pre rest : List Char)
    (x : Char) (hx : x ≠ Char.ofNat 0x25)
    (hpre : ∀ i : Nat, pre[i]? = some (Char.ofNat 0x25) → pre[i + 1]? = none) :
    c.regex_replace_var info buf (pre ++ Char.ofNat 0x25 :: x :: rest)
      = ((c.regex_replace_var info (c.ref_var info buf x).1 rest).1,
          pre ++ (c.ref_var info buf x).2
            ++ (c.regex_replace_var info (c.ref_var info buf x).1 rest).2) := by
  have h0 : c.regex_replace_var info buf pre = (buf, pre) := by
    unfold Client.regex_replace_var
    rw [sregex_matches_eq_nil pre hpre]
  rw [regex_replace_var_split c info buf pre rest x hx, h0]

/-- Instance of C12: the token `x=%p!%z` is rendered for pid 4321 as `x=4321!%z`. -/
theorem render_left_to_right_witness :
    Client.regex_replace_var
        { fd := 4, peer := sockaddr_inet.ipv4 1 2 3 4 5000, pass := 7, exec_argv := [] }
        { ptr_size := 8, pid := 4321 } []
        ("x=".toList ++ Char.ofNat 0x25 :: Char.ofNat 0x70 :: "!%z".toList)
      = ([], "x=4321!%z".toList) :=
  (render_left_to_right
    { fd := 4, peer := sockaddr_inet.ipv4 1 2 3 4 5000, pass := 7, exec_argv := [] }
    { ptr_size := 8, pid := 4321 } [] "x=".toList "!%z".toList (Char.ofNat 0x70)
    (by decide)
    (fun i hi => by
      match i with
      | 0 => exact absurd hi (by decide)
      | 1 => exact absurd hi (by decide)
      | _ + 2 => rfl)).trans (by decide)

/-- Inside an open quote `Q`, characters other than the backslash and `Q` are
appended to the current token one by one. -/
theorem splitArgs_inside_quote (Q : Char) (hQ : Q ≠ Char.ofNat 0) :
    ∀ (q : List Char) (st : SplitState), st.escape = false → st.inquotes = Q →
      Char.ofNat 0x5C ∉ q → Q ∉ q →
      q.foldl splitArgs_step st = { st with current := st.current ++ q }
  | [], st, _, _, _, _ => by simp
  | ch :: q, st, he, hi, hb, hq => by
    have hch1 : ch ≠ Char.ofNat 0x5C := fun h => hb (h ▸ List.mem_cons_self _ _)
    have hch2 : ch ≠ Q := fun h => hq (h ▸ List.mem_cons_self _ _)
    have hstep : splitArgs_step st ch = { st with current := st.current ++ [ch] } := by
      unfold splitArgs_step
      simp [he, hi, hQ, hch1, hch2]
    have ih := splitArgs_inside_quote Q hQ q { st with current := st.current ++ [ch] } he hi
      (fun h => hb (List.mem_cons_of_mem _ h)) (fun h => hq (List.mem_cons_of_mem _ h))
    rw [List.foldl_cons, hstep, ih]
    simp

/-- Outside quotes, characters other than the space and the two quote characters
are appended to the current token one by one. -/
theorem splitArgs_outside_quote :
    ∀ (w : List Char) (st : SplitState), st.escape = false → st.inquotes = Char.ofNat 0 →
      (∀ ch ∈ w, ch ≠ Char.ofNat 0x20 ∧ ch ≠ Char.ofNat 0x22 ∧ ch ≠ Char.ofNat 0x27) →
      w.foldl splitArgs_step st = { st with current := st.current ++ w }
  | [], st, _, _, _ => by simp
  | ch :: w, st, he, hi, hw => by
    obtain ⟨h1, h2, h3⟩ := hw ch (List.mem_cons_self _ _)
    have hstep : splitArgs_step st ch = { st with current := st.current ++ [ch] } := by
      unfold splitArgs_step
      simp [he, hi, h1, h2, h3]
    have ih := splitArgs_outside_quote w { st with current := st.current ++ [ch] } he hi
      (fun d hd => hw d (List.mem_cons_of_mem _ hd))
    rw [List.foldl_cons, hstep, ih]
    simp

/-- A quoted piece read outside quotes: the characters between the quotes are
appended to the current token, and nothing else of the state changes. -/
theorem splitArgs_quoted_piece (Q : Char)
    (hQ : Q = Char.ofNat 0x22 ∨ Q = Char.ofNat 0x27) (q : List Char) (st : SplitState)
    (he : st.escape = false) (hi : st.inquotes = Char.ofNat 0)
    (hb : Char.ofNat 0x5C ∉ q) (hq : Q ∉ q) :
    (Q :: (q ++ [Q])).foldl splitArgs_step st = { st with current := st.current ++ q } := by
  have hQ0 : Q ≠ Char.ofNat 0 := by
    rcases hQ with h | h <;> rw [h] <;> decide
  have hQs : Q ≠ Char.ofNat 0x20 := by
    rcases hQ with h | h <;> rw [h] <;> decide
  have hQb : Q ≠ Char.ofNat 0x5C := by
    rcases hQ with h | h <;> rw [h] <;> decide
  have hopen : splitArgs_step st Q = { st with inquotes := Q } := by
    unfold splitArgs_step
    simp [he, hi, hQs, hQ]
  have hin := splitArgs_inside_quote Q hQ0 q { st with inquotes := Q } he rfl hb hq
  have hclose : splitArgs_step { st with inquotes := Q, current := st.current ++ q } Q
      = { st with current := st.current ++ q } := by
    unfold splitArgs_step
    simp [he, hQ0, hQb, hi]
  rw [List.foldl_cons, hopen, List.foldl_append, hin]
  simp only [List.foldl_cons, List.foldl_nil]
  exact hclose

/-- C13.  Quoting in `splitArgs` on input free of backslashes.  Read outside
quotes, a piece `Q q Q` (with `Q` a double or a single quote and `q` free of `Q`,
so that the two quotes match) appends exactly `q` to the current token, spaces
and quotes of the other kind included, and changes nothing else: the quote
characters are dropped and no token is ended.  An unquoted piece free of spaces
and quotes is appended to the current token in the same way.  Hence an unquoted
piece, a quoted piece and an unquoted piece in a row give the single token made
of the three contents (no token when all three are empty), and the input
`a "b c"'d e' f` gives `a`, `b cd e`, `f`. -/
theorem splitArgs_quoting :
    (∀ (Q : Char) (q : List Char) (st : SplitState),
      (Q = Char.ofNat 0x22 ∨ Q = Char.ofNat 0x27) →
      st.escape = false → st.inquotes = Char.ofNat 0 →
      Char.ofNat 0x5C ∉ q → Q ∉ q →
      (Q :: (q ++ [Q])).foldl splitArgs_step st = { st with current := st.current ++ q })
    ∧ (∀ (w : List Char) (st : SplitState),
      st.escape = false → st.inquotes = Char.ofNat 0 →
      (∀ ch ∈ w, ch ≠ Char.ofNat 0x20 ∧ ch ≠ Char.ofNat 0x22 ∧ ch ≠ Char.ofNat 0x27
        ∧ ch ≠ Char.ofNat 0x5C) →
      w.foldl splitArgs_step st = { st with current := st.current ++ w })
    ∧ (∀ (Q : Char) (u q v : List Char),
      (Q = Char.ofNat 0x22 ∨ Q = Char.ofNat 0x27) →
      (∀ ch ∈ u, ch ≠ Char.ofNat 0x20 ∧ ch ≠ Char.ofNat 0x22 ∧ ch ≠ Char.ofNat 0x27
        ∧ ch ≠ Char.ofNat 0x5C) →
      Char.ofNat 0x5C ∉ q → Q ∉ q →
      (∀ ch ∈ v, ch ≠ Char.ofNat 0x20 ∧ ch ≠ Char.ofNat 0x22 ∧ ch ≠ Char.ofNat 0x27
        ∧ ch ≠ Char.ofNat 0x5C) →
      splitArgs (u ++ (Q :: (q ++ [Q])) ++ v)
        = if u ++ q ++ v = [] then [] else [u ++ q ++ v])
    ∧ splitArgs "a \"b c\"'d e' f".toList = ["a".toList, "b cd e".toList, "f".toList] := by
  refine ⟨?_, ?_, ?_, by decide⟩
  · intro Q q st hQ he hi hb hq
    exact splitArgs_quoted_piece Q hQ q st he hi hb hq
  · intro w st he hi hw
    exact splitArgs_outside_quote w st he hi (fun ch hch => ⟨(hw ch hch).1, (hw ch hch).2.1,
      (hw ch hch).2.2.1⟩)
  · intro Q u q v hQ hu hb hq hv
    have h1 : u.foldl splitArgs_step SplitState.init
        = { argv := [], current := u, escape := false, inquotes := Char.ofNat 0 } := by
      rw [splitArgs_outside_quote u SplitState.init rfl rfl
        (fun ch hch => ⟨(hu ch hch).1, (hu ch hch).2.1, (hu ch hch).2.2.1⟩)]
      simp [SplitState.init]
    have h2 : (Q :: (q ++ [Q])).foldl splitArgs_step
          { argv := [], current := u, escape := false, inquotes := Char.ofNat 0 }
        = { argv := [], current := u ++ q, escape := false, inquotes := Char.ofNat 0 } := by
      rw [splitArgs_quoted_piece Q hQ q _ rfl rfl hb hq]
    have h3 : v.foldl splitArgs_step
          { argv := [], current := u ++ q, escape := false, inquotes := Char.ofNat 0 }
        = { argv := [], current := u ++ q ++ v, escape := false, inquotes := Char.ofNat 0 } := by
      rw [splitArgs_outside_quote v _ rfl rfl
        (fun ch hch => ⟨(hv ch hch).1, (hv ch hch).2.1, (hv ch hch).2.2.1⟩)]
    unfold splitArgs
    rw [List.foldl_append, List.foldl_append, h1, h2, h3]
    show (if u ++ q ++ v ≠ [] then [] ++ [u ++ q ++ v] else [])
      = if u ++ q ++ v = [] then [] else [u ++ q ++ v]
    by_cases hempty : u ++ q ++ v = []
    · rw [if_neg (not_not.mpr hempty), if_pos hempty]
    · rw [if_pos hempty, if_neg hempty]
      rfl

/-- Instance of C13: in `x"b c'"y` the unquoted `x`, the quoted `b c'` and the
unquoted `y` form the single token `xb c'y`. -/
theorem splitArgs_quoting_witness :
    splitArgs ("x".toList ++ (Char.ofNat 0x22 :: ("b c'".toList ++ [Char.ofNat 0x22]))
        ++ "y".toList)
      = ["xb c'y".toList] :=
  (splitArgs_quoting.2.2.1 (Char.ofNat 0x22) "x".toList "b c'".toList "y".toList
    (Or.inl rfl) (by decide) (by decide) (by decide) (by decide)).trans (by decide)

/-- C14 (evaluation at the failing inputs).  Outside quotes the backslash is an
ordinary character: `a\ b` gives the two tokens `a\` and `b`, and in `\"x y"` the
backslash is kept and the double quote opens a quotation, giving the one token
`\x y`.  Inside single quotes the backslash is dropped and the character after it
is kept: `'a\b'` gives `ab`. -/
theorem splitArgs_backslash_examples :
    splitArgs [Char.ofNat 0x61, Char.ofNat 0x5C, Char.ofNat 0x20, Char.ofNat 0x62]
      = [[Char.ofNat 0x61, Char.ofNat 0x5C], [Char.ofNat 0x62]]
    ∧ splitArgs [Char.ofNat 0x5C, Char.ofNat 0x22, Char.ofNat 0x78, Char.ofNat 0x20,
          Char.ofNat 0x79, Char.ofNat 0x22]
      = [[Char.ofNat 0x5C, Char.ofNat 0x78, Char.ofNat 0x20, Char.ofNat 0x79]]
    ∧ splitArgs [Char.ofNat 0x27, Char.ofNat 0x61, Char.ofNat 0x5C, Char.ofNat 0x62,
          Char.ofNat 0x27]
      = [[Char.ofNat 0x61, Char.ofNat 0x62]] := by
  decide

/-- C15 (evaluation at the failing inputs).  Only the space character separates
tokens: `a`, tab, `b` is one token, and so is `a`, newline, `b`; with a space
between them `a` and `b` are two tokens. -/
theorem splitArgs_tab_newline_examples :
    splitArgs [Char.ofNat 0x61, Char.ofNat 0x09, Char.ofNat 0x62]
      = [[Char.ofNat 0x61, Char.ofNat 0x09, Char.ofNat 0x62]]
    ∧ splitArgs [Char.ofNat 0x61, Char.ofNat 0x0A, Char.ofNat 0x62]
      = [[Char.ofNat 0x61, Char.ofNat 0x0A, Char.ofNat 0x62]]
    ∧ splitArgs [Char.ofNat 0x61, Char.ofNat 0x20, Char.ofNat 0x62]
      = [[Char.ofNat 0x61], [Char.ofNat 0x62]] := by
  decide

/-- The last character of a text that is not empty, as `bind_select` reads it. -/
theorem drop_length_sub_one_take (l : List Char) (a : Char) (h : l.getLast? = some a) :
    (l.drop (l.length - 1)).take 1 = [a] := by
  obtain ⟨ys, hys⟩ := List.getLast?_eq_some_iff.mp h
  subst hys
  have hlen : ys.length = (ys ++ [a]).length - 1 := by simp
  rw [List.drop_left' hlen]
  rfl

/-- The condition of `bind_select` says that the first character of the literal is
`[` and its last character is `]`. -/
theorem bind_select_cond (addrs : List Char) :
    (addrs.take 1 = [Char.ofNat 0x5B]
      ∧ (addrs.drop (addrs.length - 1)).take 1 = [Char.ofNat 0x5D])
    ↔ (addrs.head? = some (Char.ofNat 0x5B) ∧ addrs.getLast? = some (Char.ofNat 0x5D)) := by
  constructor
  · rintro ⟨h1, h2⟩
    cases addrs with
    | nil => simp at h1
    | cons a t =>
      refine ⟨by simpa using h1, ?_⟩
      have hl : (a :: t).getLast? = some ((a :: t).getLast (by simp)) :=
        List.getLast?_eq_getLast _ _
      rw [drop_length_sub_one_take (a :: t) _ hl] at h2
      rw [hl, List.cons.inj h2 |>.1]
  · rintro ⟨h1, h2⟩
    refine ⟨?_, drop_length_sub_one_take addrs _ h2⟩
    cases addrs with
    | nil => simp at h1
    | cons a t =>
      simp only [List.head?_cons, Option.some.injEq] at h1
      simp [h1]

/-- When `socket` succeeds, the first three system calls of the listening-socket
part of `main` are `socket` for the family of `addr`, `fcntl` on the new
descriptor, and `bind` of that descriptor to `addr`. -/
theorem main_bind_calls (inet_pton : Int → List Char → Option (List Nat)) (ptr_size : Nat)
    (bind : List Char) (ipv6 : Bool) (port : Int) (env : Env) (fds : FdTable)
    (straddr : List Char) (os : BindOS) (h : 0 ≤ os.socket_ret) :
    (main_bind inet_pton ptr_size bind ipv6 port env fds straddr os).calls.take 3
      = [OsCall.socket
          (bind_addr inet_pton os.addr0 (bind_select bind ipv6).1 (bind_select bind ipv6).2
            port).family,
         OsCall.fcntl_setfd_cloexec os.socket_ret,
         OsCall.bind os.socket_ret
          (bind_addr inet_pton os.addr0 (bind_select bind ipv6).1 (bind_select bind ipv6).2
            port)] := by
  have h' : ¬ os.socket_ret < 0 := by omega
  unfold main_bind
  rw [if_neg h']
  by_cases hb : os.bind_ret = -1
  · rw [if_pos hb]
    rfl
  · rw [if_neg hb]
    by_cases hl : os.listen_ret = -1
    · rw [if_pos hl]
      rfl
    · rw [if_neg hl]
      rfl

/-- C17.  In the listening-socket part of `main`, for all answers of the operating
system: when `socket` fails, `perror("socket")` is reported, the program exits
with status 1, and neither `bind` nor `listen` has been called (only `socket` and
the `fcntl` that follows it); when `bind` fails, `perror("bind")` is reported, the
exit status is 1 and `listen` has not been called; when `listen` fails,
`perror("listen")` is reported and the exit status is 1; when all three succeed,
`main` goes on with the new descriptor, marked close-on-exec, and the one call of
`listen` had the backlog 5. -/
theorem main_bind_failures (inet_pton : Int → List Char → Option (List Nat)) (ptr_size : Nat)
    (bind : List Char) (ipv6 : Bool) (port : Int) (env : Env) (fds : FdTable)
    (straddr : List Char) (os : BindOS) :
    (os.socket_ret < 0 →
      (main_bind inet_pton ptr_size bind ipv6 port env fds straddr os).outcome
          = Startup.exited 1 [LogEvent.opening_socket, LogEvent.perror "socket"]
      ∧ (main_bind inet_pton ptr_size bind ipv6 port env fds straddr os).calls
          = [OsCall.socket
              (bind_addr inet_pton os.addr0 (bind_select bind ipv6).1 (bind_select bind ipv6).2
                port).family,
             OsCall.fcntl_setfd_cloexec os.socket_ret])
    ∧ (0 ≤ os.socket_ret → os.bind_ret = -1 →
      (main_bind inet_pton ptr_size bind ipv6 port env fds straddr os).outcome
          = Startup.exited 1 [LogEvent.opening_socket, LogEvent.perror "bind"]
      ∧ (main_bind inet_pton ptr_size bind ipv6 port env fds straddr os).calls
          = [OsCall.socket
              (bind_addr inet_pton os.addr0 (bind_select bind ipv6).1 (bind_select bind ipv6).2
                port).family,
             OsCall.fcntl_setfd_cloexec os.socket_ret,
             OsCall.bind os.socket_ret
              (bind_addr inet_pton os.addr0 (bind_select bind ipv6).1 (bind_select bind ipv6).2
                port)])
    ∧ (0 ≤ os.socket_ret → os.bind_ret ≠ -1 → os.listen_ret = -1 →
      (main_bind inet_pton ptr_size bind ipv6 port env fds straddr os).outcome
          = Startup.exited 1 [LogEvent.opening_socket, LogEvent.perror "listen"]
      ∧ (main_bind inet_pton ptr_size bind ipv6 port env fds straddr os).calls
          = [OsCall.socket
              (bind_addr inet_pton os.addr0 (bind_select bind ipv6).1 (bind_select bind ipv6).2
                port).family,
             OsCall.fcntl_setfd_cloexec os.socket_ret,
             OsCall.bind os.socket_ret
              (bind_addr inet_pton os.addr0 (bind_select bind ipv6).1 (bind_select bind ipv6).2
                port),
             OsCall.listen os.socket_ret 5])
    ∧ (0 ≤ os.socket_ret → os.bind_ret ≠ -1 → os.listen_ret ≠ -1 →
      (∃ p : Provisioned,
        (main_bind inet_pton ptr_size bind ipv6 port env fds straddr os).outcome
          = Startup.ready p ∧ p.fd = os.socket_ret
        ∧ p.fds os.socket_ret = some { file := os.socket_file, cloexec := true })
      ∧ (main_bind inet_pton ptr_size bind ipv6 port env fds straddr os).calls
          = [OsCall.socket
              (bind_addr inet_pton os.addr0 (bind_select bind ipv6).1 (bind_select bind ipv6).2
                port).family,
             OsCall.fcntl_setfd_cloexec os.socket_ret,
             OsCall.bind os.socket_ret
              (bind_addr inet_pton os.addr0 (bind_select bind ipv6).1 (bind_select bind ipv6).2
                port),
             OsCall.listen os.socket_ret 5]) := by
  refine ⟨?_, ?_, ?_, ?_⟩
  · intro h
    unfold main_bind
    rw [if_pos h]
    exact ⟨rfl, rfl⟩
  · intro h hb
    have h' : ¬ os.socket_ret < 0 := by omega
    unfold main_bind
    rw [if_neg h', if_pos hb]
    exact ⟨rfl, rfl⟩
  · intro h hb hl
    have h' : ¬ os.socket_ret < 0 := by omega
    unfold main_bind
    rw [if_neg h', if_neg hb, if_pos hl]
    exact ⟨rfl, rfl⟩
  · intro h hb hl
    have h' : ¬ os.socket_ret < 0 := by omega
    unfold main_bind
    rw [if_neg h', if_neg hb, if_neg hl]
    refine ⟨⟨_, rfl, rfl, ?_⟩, rfl⟩
    simp [h, fcntl_setfd_cloexec, FdTable.set]

/-- Instance of C17: `socket` returns descriptor 5 and `bind` fails; the program
reports `bind`, exits with status 1 and has made no call of `listen`. -/
theorem main_bind_failures_witness :
    (main_bind (fun _ _ => none) 8 [] false 7994 [] (fun _ => none) []
        { addr0 := sockaddr_inet.ipv4 9 9 9 9 9, socket_ret := 5, socket_file := 1
          bind_ret := -1, listen_ret := 0 }).outcome
      = Startup.exited 1 [LogEvent.opening_socket, LogEvent.perror "bind"]
    ∧ (main_bind (fun _ _ => none) 8 [] false 7994 [] (fun _ => none) []
        { addr0 := sockaddr_inet.ipv4 9 9 9 9 9, socket_ret := 5, socket_file := 1
          bind_ret := -1, listen_ret := 0 }).calls
      = [OsCall.socket AF_INET, OsCall.fcntl_setfd_cloexec 5,
         OsCall.bind 5 { family := AF_INET, port := 7994, bytes4 := [0, 0, 0, 0]
                         bytes8 := List.replicate 16 0 }] :=
  (main_bind_failures (fun _ _ => none) 8 [] false 7994 [] (fun _ => none) []
    { addr0 := sockaddr_inet.ipv4 9 9 9 9 9, socket_ret := 5, socket_file := 1
      bind_ret := -1, listen_ret := 0 }).2.1 (by decide) rfl

/-- C16.  For every text `s`, the bind literal `[s]` selects IPv6 whatever the
`ipv6` flag is, and the text handed on as the address is `s`; a literal whose
first character is not `[` or whose last character is not `]` (the empty literal
and the literal `[` among them) is handed on unchanged with the `ipv6` flag
unchanged.  With the literal `[s]` and a successful `socket`, the socket is
created for `AF_INET6` and `bind` is given an `AF_INET6` address whose
`sin6_addr` is what `inet_pton(AF_INET6, s)` stored (all zero when `s` is empty or
rejected); for `[::1]` this is the address that `inet_pton` gives for `::1`. -/
theorem bind_select_brackets :
    (∀ (s : List Char) (ipv6 : Bool),
      bind_select (Char.ofNat 0x5B :: (s ++ [Char.ofNat 0x5D])) ipv6 = (s, true))
    ∧ (∀ (addrs : List Char) (ipv6 : Bool),
      ¬ (addrs.head? = some (Char.ofNat 0x5B) ∧ addrs.getLast? = some (Char.ofNat 0x5D)) →
      bind_select addrs ipv6 = (addrs, ipv6))
    ∧ (∀ ipv6 : Bool,
      bind_select [] ipv6 = ([], ipv6)
      ∧ bind_select [Char.ofNat 0x5B] ipv6 = ([Char.ofNat 0x5B], ipv6))
    ∧ (∀ (inet_pton : Int → List Char → Option (List Nat)) (ptr_size : Nat) (s : List Char)
        (ipv6 : Bool) (port : Int) (env : Env) (fds : FdTable) (straddr : List Char)
        (os : BindOS), 0 ≤ os.socket_ret →
      (main_bind inet_pton ptr_size (Char.ofNat 0x5B :: (s ++ [Char.ofNat 0x5D])) ipv6 port env
          fds straddr os).calls.take 3
        = [OsCall.socket AF_INET6, OsCall.fcntl_setfd_cloexec os.socket_ret,
           OsCall.bind os.socket_ret
            { family := AF_INET6, port := (port % 65536).toNat, bytes4 := os.addr0.bytes4
              bytes8 :=
                if s ≠ [] then
                  match inet_pton AF_INET6 s with
                  | some a => a
                  | none => List.replicate 16 0
                else List.replicate 16 0 }])
    ∧ (∀ (inet_pton : Int → List Char → Option (List Nat)) (a : List Nat) (ptr_size : Nat)
        (ipv6 : Bool) (port : Int) (env : Env) (fds : FdTable) (straddr : List Char)
        (os : BindOS), inet_pton AF_INET6 "::1".toList = some a → 0 ≤ os.socket_ret →
      (main_bind inet_pton ptr_size "[::1]".toList ipv6 port env fds straddr os).calls.take 3
        = [OsCall.socket AF_INET6, OsCall.fcntl_setfd_cloexec os.socket_ret,
           OsCall.bind os.socket_ret
            { family := AF_INET6, port := (port % 65536).toNat, bytes4 := os.addr0.bytes4
              bytes8 := a }]) := by
  have hb : ∀ (s : List Char) (ipv6 : Bool),
      bind_select (Char.ofNat 0x5B :: (s ++ [Char.ofNat 0x5D])) ipv6 = (s, true) := by
    intro s ipv6
    have hc : (Char.ofNat 0x5B :: (s ++ [Char.ofNat 0x5D])).take 1 = [Char.ofNat 0x5B]
        ∧ ((Char.ofNat 0x5B :: (s ++ [Char.ofNat 0x5D])).drop
            ((Char.ofNat 0x5B :: (s ++ [Char.ofNat 0x5D])).length - 1)).take 1
          = [Char.ofNat 0x5D] :=
      (bind_select_cond _).mpr ⟨rfl, by
        rw [← List.cons_append]
        exact List.getLast?_concat _⟩
    unfold bind_select
    rw [if_pos hc]
    have hlen : (Char.ofNat 0x5B :: (s ++ [Char.ofNat 0x5D])).length - 2 = s.length := by simp
    rw [hlen]
    simp
  have hm : ∀ (inet_pton : Int → List Char → Option (List Nat)) (ptr_size : Nat) (s : List Char)
      (ipv6 : Bool) (port : Int) (env : Env) (fds : FdTable) (straddr : List Char)
      (os : BindOS), 0 ≤ os.socket_ret →
      (main_bind inet_pton ptr_size (Char.ofNat 0x5B :: (s ++ [Char.ofNat 0x5D])) ipv6 port env
          fds straddr os).calls.take 3
        = [OsCall.socket AF_INET6, OsCall.fcntl_setfd_cloexec os.socket_ret,
           OsCall.bind os.socket_ret
            { family := AF_INET6, port := (port % 65536).toNat, bytes4 := os.addr0.bytes4
              bytes8 :=
                if s ≠ [] then
                  match inet_pton AF_INET6 s with
                  | some a => a
                  | none => List.replicate 16 0
                else List.replicate 16 0 }] := by
    intro inet_pton ptr_size s ipv6 port env fds straddr os h
    rw [main_bind_calls inet_pton ptr_size _ ipv6 port env fds straddr os h, hb s ipv6]
    rfl
  refine ⟨hb, ?_, ?_, hm, ?_⟩
  · intro addrs ipv6 h
    unfold bind_select
    rw [if_neg (fun hc => h ((bind_select_cond addrs).mp hc))]
  · intro ipv6
    exact ⟨rfl, rfl⟩
  · intro inet_pton a ptr_size ipv6 port env fds straddr os ha h
    have h1 := hm inet_pton ptr_size "::1".toList ipv6 port env fds straddr os h
    have hne : "::1".toList ≠ [] := by decide
    rw [if_pos hne, ha] at h1
    exact h1

/-- Instance of C16: with a library that reads `::1` as the address with last byte
1, the literal `[::1]` without the `ipv6` flag makes `main` create an `AF_INET6`
socket and bind it to that address, and the literal `::1` without the flag is left
as it is. -/
theorem bind_select_brackets_witness :
    (main_bind
        (fun af t =>
          if af = AF_INET6 ∧ t = "::1".toList then
            some [0, 0, 0, 0, 0, 0, 0, 0, 0, 0, 0, 0, 0, 0, 0, 1]
          else none)
        8 "[::1]".toList false 7994 [] (fun _ => none) []
        { addr0 := sockaddr_inet.ipv4 9 9 9 9 9, socket_ret := 5, socket_file := 1
          bind_ret := 0, listen_ret := 0 }).calls.take 3
      = [OsCall.socket AF_INET6, OsCall.fcntl_setfd_cloexec 5,
         OsCall.bind 5
          { family := AF_INET6, port := 7994, bytes4 := [9, 9, 9, 9]
            bytes8 := [0, 0, 0, 0, 0, 0, 0, 0, 0, 0, 0, 0, 0, 0, 0, 1] }]
    ∧ bind_select "::1".toList false = ("::1".toList, false) :=
  ⟨bind_select_brackets.2.2.2.2
      (fun af t =>
        if af = AF_INET6 ∧ t = "::1".toList then
          some [0, 0, 0, 0, 0, 0, 0, 0, 0, 0, 0, 0, 0, 0, 0, 1]
        else none)
      [0, 0, 0, 0, 0, 0, 0, 0, 0, 0, 0, 0, 0, 0, 0, 1] 8 false 7994 [] (fun _ => none) []
      { addr0 := sockaddr_inet.ipv4 9 9 9 9 9, socket_ret := 5, socket_file := 1
        bind_ret := 0, listen_ret := 0 }
      (by decide) (by decide),
    bind_select_brackets.2.1 "::1".toList false (by decide)⟩

/-- C18.  The close step of `sigint_handler` on the state `sock_fd`: it calls
`close` on `sock_fd` and sets `sock_fd` to `-1` when `sock_fd` is not negative,
and does nothing when it is negative; applied to its own result it closes
nothing and changes nothing.  The handler performs this step and ends the process
with status 2, which is neither 1 nor 0. -/
theorem sigint_close_idempotent (sock_fd : Int) (fds : FdTable) (cerr : List LogEvent) :
    (0 ≤ sock_fd → sigint_close sock_fd fds = (-1, close fds sock_fd, [sock_fd]))
    ∧ (sock_fd < 0 → sigint_close sock_fd fds = (sock_fd, fds, []))
    ∧ sigint_close (sigint_close sock_fd fds).1 (sigint_close sock_fd fds).2.1
        = ((sigint_close sock_fd fds).1, (sigint_close sock_fd fds).2.1, [])
    ∧ (sigint_handler sock_fd fds cerr).status = 2
    ∧ (sigint_handler sock_fd fds cerr).status ≠ 1
    ∧ (sigint_handler sock_fd fds cerr).status ≠ 0
    ∧ ((sigint_handler sock_fd fds cerr).sock_fd, (sigint_handler sock_fd fds cerr).fds,
        (sigint_handler sock_fd fds cerr).closed) = sigint_close sock_fd fds := by
  refine ⟨?_, ?_, ?_, rfl, (show (2 : Int) ≠ 1 by decide), (show (2 : Int) ≠ 0 by decide), rfl⟩
  · intro h
    unfold sigint_close
    rw [if_pos h]
  · intro h
    unfold sigint_close
    rw [if_neg (by omega)]
  · by_cases h : sock_fd ≥ 0
    · have h1 : sigint_close sock_fd fds = (-1, close fds sock_fd, [sock_fd]) := by
        unfold sigint_close
        rw [if_pos h]
      rw [h1]
      rfl
    · have h1 : sigint_close sock_fd fds = (sock_fd, fds, []) := by
        unfold sigint_close
        rw [if_neg h]
      rw [h1]
      show sigint_close sock_fd fds = (sock_fd, fds, [])
      exact h1

/-- Instance of C18: with `sock_fd = 3` the handler closes descriptor 3 and leaves
`sock_fd = -1`; with `sock_fd = -1` it closes nothing. -/
theorem sigint_close_idempotent_witness :
    sigint_close 3 (fun k => if k = 3 then some { file := 1, cloexec := true } else none)
      = (-1,
          close (fun k => if k = 3 then some { file := 1, cloexec := true } else none) 3, [3])
    ∧ sigint_close (-1) (fun _ => none) = (-1, fun _ => none, []) :=
  ⟨(sigint_close_idempotent 3
      (fun k => if k = 3 then some { file := 1, cloexec := true } else none) []).1 (by decide),
    (sigint_close_idempotent (-1) (fun _ => none) []).2.1 (by decide)⟩

/-- An iteration of the accept loop in the server when `accept` succeeds and
`fork` returns a value other than 0: the state after the iteration. -/
theorem loop_body_launched (ptr_size pass : Nat) (exec_argv : List (List Char))
    (s : Server) (os : IterOS) (hsock : 0 ≤ os.acc.sock) (hfork : os.fork_result ≠ 0) :
    loop_body ptr_size pass exec_argv s os
      = LoopResult.looping
          { pid_map := s.pid_map.emplace os.fork_result
              { fd := os.acc.sock, peer := os.acc.sa, pass := pass, exec_argv := exec_argv }
            straddr := (peername ptr_size s.straddr os.acc.sa).1
            fds := close (s.fds.set os.acc.sock (some { file := os.acc.file, cloexec := false }))
              os.acc.sock
            cerr := s.cerr ++ [LogEvent.connected (peername ptr_size s.straddr os.acc.sa).2,
              LogEvent.connected_pid os.fork_result] } := by
  have hacc : ¬ os.acc.sock < 0 := by omega
  unfold loop_body loop_body_start Client.accept Client.start
  simp only [hacc, hfork, if_false, ne_eq, not_false_eq_true, if_true]
  rfl

/-- A key that `emplace` adds to a map without it goes to the end of the map. -/
theorem PidMap.emplace_new (m : PidMap) (pid : Int) (c : Client) (h : m.find pid = none) :
    m.emplace pid c = m ++ [(pid, c)] := by
  unfold PidMap.emplace
  rw [h]

/-- Looking up a key other than the one given to `emplace`. -/
theorem PidMap.find_emplace_other (m : PidMap) (pid q : Int) (c : Client) (hq : q ≠ pid) :
    (m.emplace pid c).find q = m.find q := by
  unfold PidMap.emplace
  cases hm : m.find pid with
  | some _ => rfl
  | none =>
    simp only []
    clear hm
    induction m with
    | nil =>
      have hne : ¬ pid = q := fun h => hq h.symm
      simp [PidMap.find, hne]
    | cons e rest ih =>
      obtain ⟨k, v⟩ := e
      by_cases hk : k = q
      · simp [PidMap.find, hk]
      · simp only [List.cons_append, PidMap.find, if_neg hk]
        exact ih

/-- C19.  Let `accept` succeed with a descriptor that was not open before, let the
launch succeed with pid `p = os.fork_result > 0` not yet a key of `pid_map`, and
let `lfd` be an open descriptor (the listening one).  Then the iteration of the
accept loop, with no signal in between, ends in the loop with the connection
descriptor closed in the server, `lfd` still open with its entry, every other
descriptor as before, and `pid_map` extended by exactly one entry, with key `p`
and with the peer address that `accept` returned. -/
theorem loop_body_registers (ptr_size pass : Nat) (exec_argv : List (List Char))
    (s : Server) (os : IterOS) (lfd : Int) (e : FdEntry)
    (hsock : 0 ≤ os.acc.sock) (hpid : 0 < os.fork_result)
    (hfresh : s.pid_map.find os.fork_result = none)
    (hnew : s.fds os.acc.sock = none) (hl : s.fds lfd = some e) :
    ∃ s1 : Server,
      loop_body ptr_size pass exec_argv s os = LoopResult.looping s1
      ∧ s1.fds os.acc.sock = none
      ∧ s1.fds lfd = some e
      ∧ (∀ k : Int, k ≠ os.acc.sock → s1.fds k = s.fds k)
      ∧ s1.pid_map = s.pid_map ++
          [(os.fork_result,
            { fd := os.acc.sock, peer := os.acc.sa, pass := pass, exec_argv := exec_argv })]
      ∧ s1.pid_map.find os.fork_result
          = some { fd := os.acc.sock, peer := os.acc.sa, pass := pass, exec_argv := exec_argv } := by
  have hne : lfd ≠ os.acc.sock := by
    intro h
    rw [h, hnew] at hl
    exact Option.noConfusion hl
  refine ⟨_, loop_body_launched ptr_size pass exec_argv s os hsock (by omega), ?_, ?_, ?_, ?_, ?_⟩
  · simp [close, FdTable.set]
  · simp [close, FdTable.set, hne, hl]
  · intro k hk
    simp [close, FdTable.set, hk]
  · exact PidMap.emplace_new s.pid_map _ _ hfresh
  · exact PidMap.find_emplace_new s.pid_map _ _ hfresh

/-- Instance of C19: from an empty registry with the listening socket on
descriptor 3, a connection accepted on descriptor 4 and launched as pid 100 leaves
descriptor 4 closed, descriptor 3 open and the one entry of key 100. -/
theorem loop_body_registers_witness :
    ∃ s1 : Server,
      loop_body 8 7 []
        { pid_map := [], straddr := []
          fds := fun k => if k = 3 then some { file := 1, cloexec := true } else none
          cerr := [] }
        { acc := { sock := 4, errno := 0, sa := sockaddr_inet.ipv4 1 2 3 4 5000, file := 9 }
          fork_result := 100, getpid := 1, exec_ok := true, nofile := 1024 } = LoopResult.looping s1
      ∧ s1.fds 4 = none
      ∧ s1.fds 3 = some { file := 1, cloexec := true }
      ∧ s1.pid_map
          = [(100, { fd := 4, peer := sockaddr_inet.ipv4 1 2 3 4 5000, pass := 7
                     exec_argv := [] })] := by
  obtain ⟨s1, h1, h2, h3, _, h5, _⟩ :=
    loop_body_registers 8 7 []
      { pid_map := [], straddr := []
        fds := fun k => if k = 3 then some { file := 1, cloexec := true } else none
        cerr := [] }
      { acc := { sock := 4, errno := 0, sa := sockaddr_inet.ipv4 1 2 3 4 5000, file := 9 }
        fork_result := 100, getpid := 1, exec_ok := true, nofile := 1024 }
      3 { file := 1, cloexec := true } (by decide) (by decide) rfl (by decide) (by decide)
  exact ⟨s1, h1, h2, h3, h5⟩

/-- Looking up a key in `pid_map` after the child-exit handler ran for `p`: nothing
under `p`, every other key as before. -/
theorem sigchld_handler_find (ptr_size : Nat) (s : Server) (p q : Int) :
    (sigchld_handler ptr_size s p).pid_map.find q
      = if q = p then none else s.pid_map.find q := by
  unfold sigchld_handler
  cases h : s.pid_map.find p with
  | none =>
    by_cases hq : q = p
    · simp [hq, h]
    · simp [hq]
  | some c =>
    simp only []
    exact PidMap.find_erase s.pid_map p q

/-- C20.  Two connections in a row from the same peer address `A`, launched as
the distinct pids `p1` and `p2` (neither a key of `pid_map` before): after the two
iterations of the accept loop `pid_map` has gained exactly the two entries
`(p1, c1)` and `(p2, c2)`, both with peer address `A`.  The notification for `p1`
removes the entry of `p1` and leaves that of `p2` with its client, and the
notification for `p2` then removes that one too; the same holds with the two
notifications in the other order; every other key is looked up as before all
along. -/
theorem two_connections_same_peer (ptr_size pass : Nat) (exec_argv : List (List Char))
    (s : Server) (os1 os2 : IterOS) (A : sockaddr_inet) (p1 p2 : Int)
    (h1 : 0 ≤ os1.acc.sock) (h2 : 0 ≤ os2.acc.sock)
    (ha1 : os1.acc.sa = A) (ha2 : os2.acc.sa = A)
    (hp1 : os1.fork_result = p1) (hp2 : os2.fork_result = p2)
    (hz1 : p1 ≠ 0) (hz2 : p2 ≠ 0) (hne : p1 ≠ p2)
    (hf1 : s.pid_map.find p1 = none) (hf2 : s.pid_map.find p2 = none) :
    ∃ (s2 : Server) (c1 c2 : Client),
      accept_loop ptr_size pass exec_argv s [os1, os2] = LoopResult.looping s2
      ∧ c1.peer = A ∧ c2.peer = A
      ∧ s2.pid_map = s.pid_map ++ [(p1, c1), (p2, c2)]
      ∧ s2.pid_map.find p1 = some c1
      ∧ s2.pid_map.find p2 = some c2
      ∧ (sigchld_handler ptr_size s2 p1).pid_map.find p1 = none
      ∧ (sigchld_handler ptr_size s2 p1).pid_map.find p2 = some c2
      ∧ (sigchld_handler ptr_size (sigchld_handler ptr_size s2 p1) p2).pid_map.find p1 = none
      ∧ (sigchld_handler ptr_size (sigchld_handler ptr_size s2 p1) p2).pid_map.find p2 = none
      ∧ (sigchld_handler ptr_size s2 p2).pid_map.find p2 = none
      ∧ (sigchld_handler ptr_size s2 p2).pid_map.find p1 = some c1
      ∧ (sigchld_handler ptr_size (sigchld_handler ptr_size s2 p2) p1).pid_map.find p1 = none
      ∧ (sigchld_handler ptr_size (sigchld_handler ptr_size s2 p2) p1).pid_map.find p2 = none
      ∧ (∀ q : Int, q ≠ p1 → q ≠ p2 →
          s2.pid_map.find q = s.pid_map.find q
          ∧ (sigchld_handler ptr_size s2 p1).pid_map.find q = s.pid_map.find q
          ∧ (sigchld_handler ptr_size s2 p2).pid_map.find q = s.pid_map.find q
          ∧ (sigchld_handler ptr_size (sigchld_handler ptr_size s2 p1) p2).pid_map.find q
              = s.pid_map.find q
          ∧ (sigchld_handler ptr_size (sigchld_handler ptr_size s2 p2) p1).pid_map.find q
              = s.pid_map.find q) := by
  subst hp1 hp2
  have hne' : os2.fork_result ≠ os1.fork_result := fun h => hne h.symm
  have e1 := loop_body_launched ptr_size pass exec_argv s os1 h1 hz1
  have e2 := fun s1 => loop_body_launched ptr_size pass exec_argv s1 os2 h2 hz2
  have hmid : (s.pid_map.emplace os1.fork_result
      { fd := os1.acc.sock, peer := os1.acc.sa, pass := pass, exec_argv := exec_argv }).find
        os2.fork_result = none := by
    rw [PidMap.find_emplace_other _ _ _ _ hne', hf2]
  have hmap : (s.pid_map.emplace os1.fork_result
      { fd := os1.acc.sock, peer := os1.acc.sa, pass := pass, exec_argv := exec_argv }).emplace
        os2.fork_result
        { fd := os2.acc.sock, peer := os2.acc.sa, pass := pass, exec_argv := exec_argv }
      = s.pid_map ++
        [(os1.fork_result,
            { fd := os1.acc.sock, peer := os1.acc.sa, pass := pass, exec_argv := exec_argv }),
         (os2.fork_result,
            { fd := os2.acc.sock, peer := os2.acc.sa, pass := pass, exec_argv := exec_argv })] := by
    rw [PidMap.emplace_new _ _ _ hmid, PidMap.emplace_new _ _ _ hf1]
    simp
  have hfind1 : ((s.pid_map.emplace os1.fork_result
      { fd := os1.acc.sock, peer := os1.acc.sa, pass := pass, exec_argv := exec_argv }).emplace
        os2.fork_result
        { fd := os2.acc.sock, peer := os2.acc.sa, pass := pass, exec_argv := exec_argv }).find
        os1.fork_result
      = some { fd := os1.acc.sock, peer := os1.acc.sa, pass := pass, exec_argv := exec_argv } := by
    rw [PidMap.find_emplace_other _ _ _ _ hne, PidMap.find_emplace_new _ _ _ hf1]
  have hfind2 : ((s.pid_map.emplace os1.fork_result
      { fd := os1.acc.sock, peer := os1.acc.sa, pass := pass, exec_argv := exec_argv }).emplace
        os2.fork_result
        { fd := os2.acc.sock, peer := os2.acc.sa, pass := pass, exec_argv := exec_argv }).find
        os2.fork_result
      = some { fd := os2.acc.sock, peer := os2.acc.sa, pass := pass, exec_argv := exec_argv } :=
    PidMap.find_emplace_new _ _ _ hmid
  have hother : ∀ q : Int, q ≠ os1.fork_result → q ≠ os2.fork_result →
      ((s.pid_map.emplace os1.fork_result
        { fd := os1.acc.sock, peer := os1.acc.sa, pass := pass, exec_argv := exec_argv }).emplace
          os2.fork_result
          { fd := os2.acc.sock, peer := os2.acc.sa, pass := pass, exec_argv := exec_argv }).find q
        = s.pid_map.find q := by
    intro q hq1 hq2
    rw [PidMap.find_emplace_other _ _ _ _ hq2, PidMap.find_emplace_other _ _ _ _ hq1]
  have hloop : ∃ s2 : Server,
      accept_loop ptr_size pass exec_argv s [os1, os2] = LoopResult.looping s2
      ∧ s2.pid_map = (s.pid_map.emplace os1.fork_result
          { fd := os1.acc.sock, peer := os1.acc.sa, pass := pass, exec_argv := exec_argv }).emplace
            os2.fork_result
            { fd := os2.acc.sock, peer := os2.acc.sa, pass := pass, exec_argv := exec_argv } := by
    refine ⟨?w, ?a, ?b⟩
    case a =>
      unfold accept_loop
      rw [e1]
      simp only []
      unfold accept_loop
      rw [e2]
      simp only []
      unfold accept_loop
      exact rfl
    case b => exact rfl
  obtain ⟨s2, hl, hpm⟩ := hloop
  rw [← hpm] at hmap hfind1 hfind2 hother
  refine ⟨s2, { fd := os1.acc.sock, peer := os1.acc.sa, pass := pass, exec_argv := exec_argv },
    { fd := os2.acc.sock, peer := os2.acc.sa, pass := pass, exec_argv := exec_argv }, hl,
    ha1, ha2, hmap, hfind1, hfind2, ?_, ?_, ?_, ?_, ?_, ?_, ?_, ?_, ?_⟩
  · rw [sigchld_handler_find, if_pos rfl]
  · rw [sigchld_handler_find, if_neg hne']
    exact hfind2
  · rw [sigchld_handler_find, if_neg hne, sigchld_handler_find, if_pos rfl]
  · rw [sigchld_handler_find, if_pos rfl]
  · rw [sigchld_handler_find, if_pos rfl]
  · rw [sigchld_handler_find, if_neg hne]
    exact hfind1
  · rw [sigchld_handler_find, if_pos rfl]
  · rw [sigchld_handler_find, if_neg hne', sigchld_handler_find, if_pos rfl]
  · intro q hq1 hq2
    have hq := hother q hq1 hq2
    refine ⟨hq, ?_, ?_, ?_, ?_⟩
    · rw [sigchld_handler_find, if_neg hq1]
      exact hq
    · rw [sigchld_handler_find, if_neg hq2]
      exact hq
    · rw [sigchld_handler_find, if_neg hq2, sigchld_handler_find, if_neg hq1]
      exact hq
    · rw [sigchld_handler_find, if_neg hq1, sigchld_handler_find, if_neg hq2]
      exact hq

/-- Instance of C20: two connections from 1.2.3.4 launched as pids 100 and 101
into an empty registry give the two entries of keys 100 and 101, and after the
notification for 101 the entry of 100 is still there with the address 1.2.3.4. -/
theorem two_connections_same_peer_witness :
    ∃ (s2 : Server) (c1 c2 : Client),
      accept_loop 8 7 [] { pid_map := [], straddr := [], fds := fun _ => none, cerr := [] }
        [{ acc := { sock := 4, errno := 0, sa := sockaddr_inet.ipv4 1 2 3 4 5000, file := 9 }
           fork_result := 100, getpid := 1, exec_ok := true, nofile := 1024 },
         { acc := { sock := 4, errno := 0, sa := sockaddr_inet.ipv4 1 2 3 4 5000, file := 10 }
           fork_result := 101, getpid := 1, exec_ok := true, nofile := 1024 }] = LoopResult.looping s2
      ∧ c1.peer = sockaddr_inet.ipv4 1 2 3 4 5000
      ∧ c2.peer = sockaddr_inet.ipv4 1 2 3 4 5000
      ∧ s2.pid_map = [(100, c1), (101, c2)]
      ∧ (sigchld_handler 8 s2 101).pid_map.find 101 = none
      ∧ (sigchld_handler 8 s2 101).pid_map.find 100 = some c1 := by
  obtain ⟨s2, c1, c2, h1, h2, h3, h4, _, _, _, _, _, _, h11, h12, _⟩ :=
    two_connections_same_peer 8 7 []
      { pid_map := [], straddr := [], fds := fun _ => none, cerr := [] }
      { acc := { sock := 4, errno := 0, sa := sockaddr_inet.ipv4 1 2 3 4 5000, file := 9 }
        fork_result := 100, getpid := 1, exec_ok := true, nofile := 1024 }
      { acc := { sock := 4, errno := 0, sa := sockaddr_inet.ipv4 1 2 3 4 5000, file := 10 }
        fork_result := 101, getpid := 1, exec_ok := true, nofile := 1024 }
      (sockaddr_inet.ipv4 1 2 3 4 5000) 100 101
      (by decide) (by decide) rfl rfl rfl rfl (by decide) (by decide) (by decide) rfl rfl
  exact ⟨s2, c1, c2, h1, h2, h3, h4, h11, h12⟩

/-- Inserting under one key does not change what `find` gives for another key. -/
theorem assoc_find_insert_ne {κ ν : Type} [DecidableEq κ] (m : List (κ × ν)) (key k : κ) (v : ν)
    (h : key ≠ k) : assoc_find (assoc_insert m key v) k = assoc_find m k := by
  unfold assoc_insert
  cases hf : assoc_find m key with
  | some _ => rfl
  | none =>
    show assoc_find (m ++ [(key, v)]) k = assoc_find m k
    clear hf
    induction m with
    | nil => simp [assoc_find, h]
    | cons e rest ih =>
      obtain ⟨a, b⟩ := e
      simp only [List.cons_append, assoc_find]
      by_cases hk : a = k
      · simp [hk]
      · simp [hk, ih]

/-- The loop that fills the gaps throws when the first definition named `name` is
required, `name` has no entry in the map, and the processing was not terminated. -/
theorem fill_gaps_missing (name : List Char) :
    ∀ (defs : List ParameterDefinition) (map : ArgumentMap),
      (defs.find? fun q => decide (q.name = name)).map (fun q => q.defaultValue.isRequired)
        = some true →
      assoc_find map name = none →
      ∃ what, fill_gaps false defs map = Parsed.ParsingError what := by
  intro defs
  induction defs with
  | nil => intro map h; simp at h
  | cons q rest ih =>
    intro map h hm
    by_cases hq : q.name = name
    · have hreq : q.defaultValue.isRequired = true := by
        simpa [List.find?, hq] using h
      refine ⟨"Missing mandatory argument '".toList ++ q.name ++ "'".toList, ?_⟩
      unfold fill_gaps
      rw [hq, hm]
      simp [hreq]
    · have h2 : (rest.find? fun q => decide (q.name = name)).map
          (fun q => q.defaultValue.isRequired) = some true := by
        simpa [List.find?, hq] using h
      unfold fill_gaps
      cases hf : assoc_find map q.name with
      | some _ => exact ih map h2 hm
      | none =>
        by_cases hr : q.defaultValue.isRequired = true
        · exact ⟨"Missing mandatory argument '".toList ++ q.name ++ "'".toList, by simp [hr]⟩
        · have := ih (assoc_insert map q.name q.defaultValue) h2
            (by rw [assoc_find_insert_ne _ _ _ _ hq]; exact hm)
          simpa [hr] using this

/-- The definitions of `parse_argv` raise no exception. -/
theorem parse_argv_definitions_some :
    parse_argv_definitions = some (parse_argv_definitions.getD Parser.new) := by
  rfl

/-- The function `parse_argv` is `parse_argv_with` on the parser it sets up. -/
theorem parse_argv_eq_with (argv : List (List Char)) :
    parse_argv argv = some (parse_argv_with (parse_argv_definitions.getD Parser.new) argv) := by
  unfold parse_argv
  cases h : parse_argv_definitions with
  | none => exact absurd h (by decide)
  | some d => rfl

/-- The state after the loop of `parse`, for the parser that `parse_argv` sets up. -/
theorem parse_argv_loop_eq (argv : List (List Char)) :
    parse_argv_loop argv
      = some ((parse_argv_definitions.getD Parser.new).parse_loop argv.tail
          (parse_argv_definitions.getD Parser.new).parse_init) := by
  unfold parse_argv_loop
  cases h : parse_argv_definitions with
  | none => exact absurd h (by decide)
  | some d => rfl

/-- The parameter `exec` of `parse_argv` is required. -/
theorem parse_argv_definitions_exec :
    ((parse_argv_definitions.getD Parser.new).m_definitions.find?
        fun q => decide (q.name = "exec".toList)).map (fun q => q.defaultValue.isRequired)
      = some true := by
  decide

/-- C21: when the loop of `parse` over a command line ends in a `ParsingError`, or
ends without having recognised the terminal switch `help` (`terminated` is false)
and without a value for the positional `exec`, `parse_argv` prints an error and
calls `exit(1)`; it does not return an argument map. -/
theorem parse_argv_without_exec (argv : List (List Char))
    (h : ∀ st, parse_argv_loop argv = some (Parsed.ok st) →
      st.terminated = false ∧ assoc_find st.map "exec".toList = none) :
    (∃ what, parse_argv argv = some (ParseArgv.exited 1 (some what)))
    ∧ ∀ args, parse_argv argv ≠ some (ParseArgv.returned args) := by
  have key : ∃ what, parse_argv argv = some (ParseArgv.exited 1 (some what)) := by
    rw [parse_argv_eq_with]
    have hl := parse_argv_loop_eq argv
    unfold parse_argv_with ParserPrivate.parse
    cases hp : (parse_argv_definitions.getD Parser.new).parse_loop argv.tail
        (parse_argv_definitions.getD Parser.new).parse_init with
    | ParsingError what => exact ⟨what, rfl⟩
    | ok st =>
      rw [hp] at hl
      obtain ⟨ht, he⟩ := h st hl
      by_cases hx : st.expecting ≠ [] ∧ ¬ st.terminated = true
      · exact ⟨"Was still expecting arguments for ".toList ++ str_join st.expecting ", ".toList,
          by simp only [if_pos hx]⟩
      · obtain ⟨what, hw⟩ := fill_gaps_missing "exec".toList
          (parse_argv_definitions.getD Parser.new).m_definitions st.map
          parse_argv_definitions_exec he
        refine ⟨what, ?_⟩
        simp only [if_neg hx]
        rw [ht, hw]
  refine ⟨key, ?_⟩
  intro args hargs
  obtain ⟨what, hw⟩ := key
  rw [hw] at hargs
  cases hargs

/-- An instance of `parse_argv_without_exec`. -/
theorem parse_argv_without_exec_witness :
    (∃ what, parse_argv ["ncs".toList, "-i".toList, "--port".toList, "80".toList]
        = some (ParseArgv.exited 1 (some what)))
    ∧ ∀ args, parse_argv ["ncs".toList, "-i".toList, "--port".toList, "80".toList]
        ≠ some (ParseArgv.returned args) :=
  parse_argv_without_exec ["ncs".toList, "-i".toList, "--port".toList, "80".toList]
    (by
      intro st hst
      have hg : (match parse_argv_loop
            ["ncs".toList, "-i".toList, "--port".toList, "80".toList] with
          | some (Parsed.ok s) =>
            decide (s.terminated = false ∧ assoc_find s.map "exec".toList = none)
          | _ => true) = true := by decide
      rw [hst] at hg
      exact of_decide_eq_true hg)

/-- The loop of `parse` on arguments that start with `--help`: it is left at once,
with `help` set and `terminated` true, whatever follows. -/
theorem parse_arg_help (rest : List (List Char)) :
    (parse_argv_definitions.getD Parser.new).parse_loop ("--help".toList :: rest)
        (parse_argv_definitions.getD Parser.new).parse_init
      = Parsed.ok
          { map := [("help".toList, Variant.boolean_t true)], expecting := []
            positional := [8], terminated := true } := by
  rfl

/-- C22: the short flag of the terminal switch does not end the processing.  For
the command line `ncs -h --bogus` the argument after `-h` is examined and
`parse_argv` exits with status 1 and the error `Unknown Option --bogus`; `ncs -h
-h` and `ncs -h a b` end in the same way with other errors.  Only the long name
ends the processing: a command line whose first argument is `--help` exits with
status 0 whatever follows. -/
theorem terminal_flag_keeps_parsing :
    parse_argv ["ncs".toList, "-h".toList, "--bogus".toList]
        = some (ParseArgv.exited 1 (some "Unknown Option --bogus".toList))
    ∧ parse_argv ["ncs".toList, "-h".toList, "-h".toList]
        = some (ParseArgv.exited 1 (some "Option --help was given multiple times".toList))
    ∧ parse_argv ["ncs".toList, "-h".toList, "a".toList, "b".toList]
        = some (ParseArgv.exited 1 (some "Too many positional arguments: 'b'".toList))
    ∧ parse_argv ["ncs".toList, "--help".toList, "--bogus".toList]
        = some (ParseArgv.exited 0 none)
    ∧ parse_argv ["ncs".toList, "-h".toList] = some (ParseArgv.exited 0 none)
    ∧ ∀ rest, parse_argv ("ncs".toList :: "--help".toList :: rest)
        = some (ParseArgv.exited 0 none) := by
  refine ⟨by decide, by decide, by decide, by decide, by decide, ?_⟩
  intro rest
  rw [parse_argv_eq_with]
  unfold parse_argv_with ParserPrivate.parse
  rw [show ("ncs".toList :: "--help".toList :: rest).tail = "--help".toList :: rest from rfl,
    parse_arg_help rest]
  rfl

/-- C29: `parse_argv` accepts the command line `ncs " "`, and also `ncs "" -io`: it
returns an argument map whose `exec` value is the text given, and `splitArgs`
produces the empty list from that text, so `exec_argv` has no element of index 0. -/
theorem exec_argv_can_be_empty :
    parse_argv ["ncs".toList, " ".toList]
        = some (ParseArgv.returned
            [("exec".toList, Variant.string_t " ".toList),
             ("help".toList, Variant.boolean_t false),
             ("systemd".toList, Variant.boolean_t false),
             ("port".toList, Variant.number_t 7994),
             ("bind".toList, Variant.void_t),
             ("ipv6".toList, Variant.boolean_t false),
             ("stdin".toList, Variant.boolean_t false),
             ("stdout".toList, Variant.boolean_t false),
             ("stderr".toList, Variant.boolean_t false)])
    ∧ main_exec_argv
        [("exec".toList, Variant.string_t " ".toList),
         ("help".toList, Variant.boolean_t false),
         ("systemd".toList, Variant.boolean_t false),
         ("port".toList, Variant.number_t 7994),
         ("bind".toList, Variant.void_t),
         ("ipv6".toList, Variant.boolean_t false),
         ("stdin".toList, Variant.boolean_t false),
         ("stdout".toList, Variant.boolean_t false),
         ("stderr".toList, Variant.boolean_t false)] = []
    ∧ (main_exec_argv
        [("exec".toList, Variant.string_t " ".toList),
         ("help".toList, Variant.boolean_t false),
         ("systemd".toList, Variant.boolean_t false),
         ("port".toList, Variant.number_t 7994),
         ("bind".toList, Variant.void_t),
         ("ipv6".toList, Variant.boolean_t false),
         ("stdin".toList, Variant.boolean_t false),
         ("stdout".toList, Variant.boolean_t false),
         ("stderr".toList, Variant.boolean_t false)])[0]? = none
    ∧ ∃ args, parse_argv ["ncs".toList, [], "-io".toList] = some (ParseArgv.returned args)
      ∧ args.index "exec".toList = Variant.string_t []
      ∧ main_exec_argv args = [] := by
  refine ⟨by decide, by decide, by decide,
    [("exec".toList, Variant.string_t []),
     ("stdin".toList, Variant.boolean_t true),
     ("stdout".toList, Variant.boolean_t true),
     ("help".toList, Variant.boolean_t false),
     ("systemd".toList, Variant.boolean_t false),
     ("port".toList, Variant.number_t 7994),
     ("bind".toList, Variant.void_t),
     ("ipv6".toList, Variant.boolean_t false),
     ("stderr".toList, Variant.boolean_t false)], by decide, by decide, by decide⟩

/-- After `unsetenv` of a name, `getenv` does not find it. -/
theorem getenv_unsetenv_self (env : Env) (name : String) :
    getenv (unsetenv env name) name = none := by
  induction env with
  | nil => rfl
  | cons e rest ih =>
    obtain ⟨k, v⟩ := e
    by_cases hk : k = name
    · have : unsetenv ((k, v) :: rest) name = unsetenv rest name := by
        simp [unsetenv, List.filter_cons, hk]
      rw [this]; exact ih
    · have : unsetenv ((k, v) :: rest) name = (k, v) :: unsetenv rest name := by
        simp [unsetenv, List.filter_cons, hk]
      rw [this]
      simp only [getenv, if_neg hk]
      exact ih

/-- A call of `unsetenv` leaves the value of every other name as it was. -/
theorem getenv_unsetenv_other (env : Env) (name other : String) (h : other ≠ name) :
    getenv (unsetenv env name) other = getenv env other := by
  induction env with
  | nil => rfl
  | cons e rest ih =>
    obtain ⟨k, v⟩ := e
    by_cases hk : k = name
    · have : unsetenv ((k, v) :: rest) name = unsetenv rest name := by
        simp [unsetenv, List.filter_cons, hk]
      rw [this, ih]
      have hko : k ≠ other := by rw [hk]; exact fun e => h e.symm
      simp only [getenv, if_neg hko]
    · have : unsetenv ((k, v) :: rest) name = (k, v) :: unsetenv rest name := by
        simp [unsetenv, List.filter_cons, hk]
      rw [this]
      simp only [getenv, ih]

/-- C23: `sd_listen_fds` returns 0 when `LISTEN_PID` is not set, when the value
that `s2int` reads from `LISTEN_PID` is not the value of `getpid()` (whatever
`LISTEN_FDS` holds), and when it is that value but `LISTEN_FDS` is not set; in
each of these cases the descriptor table is the one before the call. -/
theorem sd_listen_fds_nothing_provided (uninit unset_environment pid : Int) (env : Env)
    (fds : FdTable)
    (h : getenv env "LISTEN_PID" = none
      ∨ (∃ e, getenv env "LISTEN_PID" = some e ∧ s2int uninit e ≠ pid)
      ∨ ((∃ e, getenv env "LISTEN_PID" = some e ∧ s2int uninit e = pid)
          ∧ getenv env "LISTEN_FDS" = none)) :
    (sd_listen_fds uninit unset_environment pid env fds).ret = 0
    ∧ (sd_listen_fds uninit unset_environment pid env fds).fds = fds := by
  unfold sd_listen_fds
  rcases h with h | ⟨e, he, hne⟩ | ⟨⟨e, he, heq⟩, hf⟩
  · simp only [h]
    exact ⟨trivial, trivial⟩
  · have hne2 : pid ≠ s2int uninit e := fun x => hne x.symm
    simp only [he, if_pos hne2]
    exact ⟨trivial, trivial⟩
  · have hne2 : ¬ pid ≠ s2int uninit e := fun x => x heq.symm
    simp only [he, if_neg hne2, hf]
    exact ⟨trivial, trivial⟩

/-- An instance of `sd_listen_fds_nothing_provided`. -/
theorem sd_listen_fds_nothing_provided_witness :
    ((sd_listen_fds 0 1 42 [("LISTEN_PID", "41".toList), ("LISTEN_FDS", "1".toList)]
        (fun k => if k = 3 then some { file := 7, cloexec := false } else none)).ret = 0
      ∧ (sd_listen_fds 0 1 42 [("LISTEN_PID", "41".toList), ("LISTEN_FDS", "1".toList)]
        (fun k => if k = 3 then some { file := 7, cloexec := false } else none)).fds
          = (fun k => if k = 3 then some { file := 7, cloexec := false } else none))
    ∧ ((sd_listen_fds 0 1 42 [("LISTEN_FDS", "1".toList)]
        (fun k => if k = 3 then some { file := 7, cloexec := false } else none)).ret = 0
      ∧ (sd_listen_fds 0 1 42 [("LISTEN_FDS", "1".toList)]
        (fun k => if k = 3 then some { file := 7, cloexec := false } else none)).fds
          = (fun k => if k = 3 then some { file := 7, cloexec := false } else none))
    ∧ ((sd_listen_fds 0 1 42 [("LISTEN_PID", "42".toList)]
        (fun k => if k = 3 then some { file := 7, cloexec := false } else none)).ret = 0
      ∧ (sd_listen_fds 0 1 42 [("LISTEN_PID", "42".toList)]
        (fun k => if k = 3 then some { file := 7, cloexec := false } else none)).fds
          = (fun k => if k = 3 then some { file := 7, cloexec := false } else none)) :=
  ⟨sd_listen_fds_nothing_provided 0 1 42 _ _
      (Or.inr (Or.inl ⟨"41".toList, by decide, by decide⟩)),
    sd_listen_fds_nothing_provided 0 1 42 _ _ (Or.inl (by decide)),
    sd_listen_fds_nothing_provided 0 1 42 _ _
      (Or.inr (Or.inr ⟨⟨"42".toList, by decide, by decide⟩, by decide⟩))⟩

/-- C27: after `sd_listen_fds` with a non-zero `unset_environment`, in every case,
`getenv` finds neither `LISTEN_PID` nor `LISTEN_FDS`, every other name has the
value it had, and the environment is the earlier one without the entries of these
two names; with a zero argument the environment is the one before the call.
`main` calls it with the argument 1. -/
theorem sd_listen_fds_environment (uninit unset_environment pid : Int) (env : Env)
    (fds : FdTable) :
    (unset_environment ≠ 0 →
      getenv (sd_listen_fds uninit unset_environment pid env fds).environ "LISTEN_PID" = none
      ∧ getenv (sd_listen_fds uninit unset_environment pid env fds).environ "LISTEN_FDS" = none
      ∧ (∀ name, name ≠ "LISTEN_PID" → name ≠ "LISTEN_FDS" →
          getenv (sd_listen_fds uninit unset_environment pid env fds).environ name
            = getenv env name)
      ∧ (sd_listen_fds uninit unset_environment pid env fds).environ
          = env.filter fun e => e.1 ≠ "LISTEN_PID" ∧ e.1 ≠ "LISTEN_FDS")
    ∧ (unset_environment = 0 →
      (sd_listen_fds uninit unset_environment pid env fds).environ = env) := by
  have henv : (sd_listen_fds uninit unset_environment pid env fds).environ
      = if unset_environment ≠ 0 then unsetenv (unsetenv env "LISTEN_PID") "LISTEN_FDS"
        else env := rfl
  constructor
  · intro hu
    rw [henv, if_pos hu]
    refine ⟨?_, getenv_unsetenv_self _ _, ?_, ?_⟩
    · rw [getenv_unsetenv_other _ _ _ (by decide)]
      exact getenv_unsetenv_self _ _
    · intro name h1 h2
      rw [getenv_unsetenv_other _ _ _ h2, getenv_unsetenv_other _ _ _ h1]
    · simp [unsetenv, List.filter_filter, and_comm]
  · intro hu
    rw [henv, if_neg (by simpa using hu)]

/-- An instance of `sd_listen_fds_environment`. -/
theorem sd_listen_fds_environment_witness :
    (getenv (sd_listen_fds 0 1 42
        [("PATH", "/bin".toList), ("LISTEN_PID", "42".toList), ("LISTEN_FDS", "1".toList)]
        (fun _ => none)).environ "LISTEN_PID" = none
      ∧ getenv (sd_listen_fds 0 1 42
        [("PATH", "/bin".toList), ("LISTEN_PID", "42".toList), ("LISTEN_FDS", "1".toList)]
        (fun _ => none)).environ "LISTEN_FDS" = none
      ∧ (∀ name, name ≠ "LISTEN_PID" → name ≠ "LISTEN_FDS" →
          getenv (sd_listen_fds 0 1 42
            [("PATH", "/bin".toList), ("LISTEN_PID", "42".toList), ("LISTEN_FDS", "1".toList)]
            (fun _ => none)).environ name
            = getenv [("PATH", "/bin".toList), ("LISTEN_PID", "42".toList),
                ("LISTEN_FDS", "1".toList)] name)
      ∧ (sd_listen_fds 0 1 42
        [("PATH", "/bin".toList), ("LISTEN_PID", "42".toList), ("LISTEN_FDS", "1".toList)]
        (fun _ => none)).environ
          = [("PATH", "/bin".toList), ("LISTEN_PID", "42".toList),
              ("LISTEN_FDS", "1".toList)].filter
                fun e => e.1 ≠ "LISTEN_PID" ∧ e.1 ≠ "LISTEN_FDS")
    ∧ (sd_listen_fds 0 0 42
        [("PATH", "/bin".toList), ("LISTEN_PID", "42".toList), ("LISTEN_FDS", "1".toList)]
        (fun _ => none)).environ
        = [("PATH", "/bin".toList), ("LISTEN_PID", "42".toList), ("LISTEN_FDS", "1".toList)] :=
  ⟨(sd_listen_fds_environment 0 1 42 _ _).1 (by decide),
    (sd_listen_fds_environment 0 0 42 _ _).2 rfl⟩

/-- The value of a digit list after `acc` is `acc` shifted by the length of the list
plus the value of the list. -/
theorem digits_value_acc (l : List Char) :
    ∀ acc, digits_value acc l = acc * 10 ^ l.length + digits_value 0 l := by
  induction l with
  | nil => intro acc; show acc = acc * 10 ^ 0 + 0; omega
  | cons d ds ih =>
    intro acc
    show digits_value (acc * 10 + (d.toNat - 0x30)) ds
      = acc * 10 ^ (ds.length + 1) + digits_value (0 * 10 + (d.toNat - 0x30)) ds
    have e1 := ih (acc * 10 + (d.toNat - 0x30))
    have e2 := ih (0 * 10 + (d.toNat - 0x30))
    rw [e1, e2, pow_succ]
    ring

/-- The value of the digit character of `k`, for `k` below ten. -/
theorem digitChar_value (k : Nat) (h : k < 10) : (Nat.digitChar k).toNat - 0x30 = k := by
  interval_cases k <;> rfl

/-- The value of the digits that `Nat.toDigitsCore` puts before `ds`. -/
theorem digits_value_toDigitsCore :
    ∀ (fuel n : Nat) (ds : List Char), n < fuel →
      digits_value 0 (Nat.toDigitsCore 10 fuel n ds) = n * 10 ^ ds.length + digits_value 0 ds := by
  intro fuel
  induction fuel with
  | zero => intro n ds h; omega
  | succ fuel ih =>
    intro n ds h
    unfold Nat.toDigitsCore
    by_cases h0 : n / 10 = 0
    · simp only [h0, if_true]
      have hn : n % 10 = n := by omega
      show digits_value (0 * 10 + ((Nat.digitChar (n % 10)).toNat - 0x30)) ds = _
      rw [digits_value_acc, digitChar_value _ (Nat.mod_lt _ (by decide)), hn]
      ring
    · simp only [h0, if_false]
      rw [ih (n / 10) _ (by omega)]
      show _ + digits_value (0 * 10 + ((Nat.digitChar (n % 10)).toNat - 0x30)) ds = _
      rw [digits_value_acc, digitChar_value _ (Nat.mod_lt _ (by decide)), List.length_cons,
        pow_succ]
      have hd : n = 10 * (n / 10) + n % 10 := (Nat.div_add_mod n 10).symm
      generalize n / 10 = a at hd ⊢
      generalize n % 10 = b at hd ⊢
      subst hd
      ring

/-- Reading back the decimal digits of `n` gives `n`. -/
theorem digits_value_toDigits (n : Nat) : digits_value 0 (Nat.toDigits 10 n) = n := by
  unfold Nat.toDigits
  rw [digits_value_toDigitsCore (n + 1) n [] (by omega)]
  show n * 10 ^ 0 + 0 = n
  omega

/-- Two integers that are not negative and have the same decimal text are equal. -/
theorem decimal_injective (p q : Int) (hp : 0 ≤ p) (hq : 0 ≤ q) (h : decimal p = decimal q) :
    p = q := by
  unfold decimal at h
  rw [if_neg (by omega), if_neg (by omega)] at h
  have h2 := congrArg (digits_value 0) h
  rw [digits_value_toDigits, digits_value_toDigits] at h2
  omega

/-- The template element `%p` is rendered as the decimal text of the pid. -/
theorem regex_replace_var_percent_p (c : Client) (info : ProcInfo) (buf : List Char) :
    c.regex_replace_var info buf [Char.ofNat 0x25, Char.ofNat 0x70] = (buf, decimal info.pid) := by
  have hm : sregex_matches [Char.ofNat 0x25, Char.ofNat 0x70] = ([([], Char.ofNat 0x70)], []) := by
    decide
  unfold Client.regex_replace_var
  rw [hm]
  simp only [Client.replace_loop]
  have hr : c.ref_var info buf (Char.ofNat 0x70) = (buf, decimal info.pid) := by
    unfold Client.ref_var
    rw [if_neg (by decide), if_pos rfl]
  rw [hr]
  simp

/-- The rendering of a template that is the concatenation of two lists. -/
theorem transform_argv_append (c : Client) (info : ProcInfo) :
    ∀ (a b : List (List Char)) (buf : List Char),
      (c.transform_argv info (a ++ b) buf).2
        = (c.transform_argv info a buf).2
          ++ (c.transform_argv info b (c.transform_argv info a buf).1).2 := by
  intro a
  induction a with
  | nil => intro b buf; rfl
  | cons s ss ih =>
    intro b buf
    show (c.regex_replace_var info buf s).2
        :: (c.transform_argv info (ss ++ b) (c.regex_replace_var info buf s).1).2
      = ((c.regex_replace_var info buf s).2
        :: (c.transform_argv info ss (c.regex_replace_var info buf s).1).2)
        ++ (c.transform_argv info b
            (c.transform_argv info ss (c.regex_replace_var info buf s).1).1).2
    rw [ih]
    rfl

/-- The rendering has as many elements as the template. -/
theorem transform_argv_length (c : Client) (info : ProcInfo) :
    ∀ (a : List (List Char)) (buf : List Char),
      (c.transform_argv info a buf).2.length = a.length := by
  intro a
  induction a with
  | nil => intro buf; rfl
  | cons s ss ih =>
    intro buf
    show ((c.transform_argv info ss (c.regex_replace_var info buf s).1).2).length + 1
      = ss.length + 1
    rw [ih]

/-- After `emplace` the key is present. -/
theorem PidMap.find_emplace_isSome (m : PidMap) (pid : Int) (c : Client) :
    ((m.emplace pid c).find pid).isSome = true := by
  cases h : m.find pid with
  | none => rw [PidMap.find_emplace_new m pid c h]; rfl
  | some x =>
    have : m.emplace pid c = m := by unfold PidMap.emplace; rw [h]
    rw [this, h]; rfl

/-- A text without a percent sign is rendered as it stands, and the buffer of
`peername` is not touched. -/
theorem regex_replace_var_plain (c : Client) (info : ProcInfo) (buf u : List Char)
    (h : Char.ofNat 0x25 ∉ u) : c.regex_replace_var info buf u = (buf, u) := by
  unfold Client.regex_replace_var
  rw [sregex_matches_eq_nil u (fun i hi => absurd (List.mem_iff_getElem?.mpr ⟨i, hi⟩) h)]

/-- Rendering of a token around the placeholder `%p`: the rendering of the text
before it, the decimal text of the pid, and the rendering of the text after it. -/
theorem regex_replace_var_pid (c : Client) (info : ProcInfo) (buf u v : List Char) :
    (c.regex_replace_var info buf (u ++ Char.ofNat 0x25 :: Char.ofNat 0x70 :: v)).2
      = (c.regex_replace_var info buf u).2 ++ decimal info.pid
        ++ (c.regex_replace_var info (c.regex_replace_var info buf u).1 v).2 := by
  have hr : ∀ b, c.ref_var info b (Char.ofNat 0x70) = (b, decimal info.pid) := by
    intro b
    unfold Client.ref_var
    rw [if_neg (by decide), if_pos rfl]
  rw [regex_replace_var_split c info buf u v (Char.ofNat 0x70) (by decide), hr]

/-- C24: a launch creates a child with pid `child`; `fork` returns 0 in the child,
where `getpid()` is `child`, and it returns `child` in the parent, whose pid is
another value.  In the child the iteration of the accept loop ends inside
`Client::run` with the image replaced, and the argument vector handed to `execvp`
has, at the position of a template element `u%pv`, the rendering of `u`, the
decimal text of `child` and the rendering of `v` (the text `u`, the decimal text
of `child` and `v` when neither holds a percent sign); the line written before
names `child` and that vector.  In the parent `start` returns `child` and the
iteration registers the client under `child` in `pid_map`.  The decimal text of
`child` is not that of the pid of the parent. -/
theorem percent_p_is_child_pid (c : Client) (ptr_size pass : Nat)
    (child parent : Int) (exec_argv before after : List (List Char)) (u v : List Char)
    (s : Server) (os : IterOS)
    (hchild : 0 < child) (hparent : 0 < parent) (hne : parent ≠ child)
    (htemplate : exec_argv
      = before ++ [u ++ Char.ofNat 0x25 :: Char.ofNat 0x70 :: v] ++ after)
    (hc : Client.accept pass exec_argv os.acc = some c)
    (hfork : os.fork_result = child) (hpid : os.getpid = parent) :
    (∃ argv fds,
        loop_body_start ptr_size pass exec_argv s
            { acc := os.acc, fork_result := 0, getpid := child, exec_ok := true,
              nofile := os.nofile }
          = LoopStage.in_child (ChildOutcome.image_replaced argv fds
              [(stderr_file
                  (s.fds.set os.acc.sock (some { file := os.acc.file, cloexec := false })),
                LogEvent.calling child argv)])
        ∧ argv[before.length]?
          = some (some
              ((c.regex_replace_var { ptr_size := ptr_size, pid := child }
                  (c.transform_argv { ptr_size := ptr_size, pid := child } before
                    (peername ptr_size s.straddr c.peer).1).1 u).2
                ++ decimal child
                ++ (c.regex_replace_var { ptr_size := ptr_size, pid := child }
                    (c.regex_replace_var { ptr_size := ptr_size, pid := child }
                      (c.transform_argv { ptr_size := ptr_size, pid := child } before
                        (peername ptr_size s.straddr c.peer).1).1 u).1 v).2))
        ∧ (Char.ofNat 0x25 ∉ u → Char.ofNat 0x25 ∉ v →
            argv[before.length]? = some (some (u ++ decimal child ++ v))))
    ∧ c.start ptr_size (peername ptr_size s.straddr c.peer).1
          (s.fds.set os.acc.sock (some { file := os.acc.file, cloexec := false }))
          os.nofile os.fork_result os.getpid os.exec_ok
        = StartOutcome.returned child
    ∧ (∃ s1, loop_body ptr_size pass exec_argv s os = LoopResult.looping s1
        ∧ (s1.pid_map.find child).isSome = true
        ∧ (s.pid_map.find child = none → s1.pid_map.find child = some c))
    ∧ decimal child ≠ decimal parent := by
  have hc0 : child ≠ 0 := by omega
  have hsock : 0 ≤ os.acc.sock := by
    unfold Client.accept at hc
    by_cases hs : os.acc.sock < 0
    · rw [if_pos hs] at hc; cases hc
    · omega
  have hcl : c = { fd := os.acc.sock, peer := os.acc.sa, pass := pass, exec_argv := exec_argv } := by
    unfold Client.accept at hc
    rw [if_neg (by omega)] at hc
    exact (Option.some.inj hc).symm
  have hex : c.exec_argv = exec_argv := by rw [hcl]
  have helem : (c.prepare_argv { ptr_size := ptr_size, pid := child }
        (peername ptr_size s.straddr c.peer).1).2[before.length]?
      = some (some
          ((c.regex_replace_var { ptr_size := ptr_size, pid := child }
              (c.transform_argv { ptr_size := ptr_size, pid := child } before
                (peername ptr_size s.straddr c.peer).1).1 u).2
            ++ decimal child
            ++ (c.regex_replace_var { ptr_size := ptr_size, pid := child }
                (c.regex_replace_var { ptr_size := ptr_size, pid := child }
                  (c.transform_argv { ptr_size := ptr_size, pid := child } before
                    (peername ptr_size s.straddr c.peer).1).1 u).1 v).2)) := by
    unfold Client.prepare_argv
    rw [hex, htemplate, List.append_assoc, transform_argv_append]
    have hlen := transform_argv_length c { ptr_size := ptr_size, pid := child } before
      (peername ptr_size s.straddr c.peer).1
    simp only [List.map_append, List.append_assoc]
    rw [List.getElem?_append_right (by simp [hlen])]
    simp only [List.length_map, hlen, Nat.sub_self, List.singleton_append, Client.transform_argv,
      List.map_cons, List.cons_append, List.getElem?_cons_zero]
    rw [regex_replace_var_pid]
    simp only [List.append_assoc]
  refine ⟨⟨(c.prepare_argv { ptr_size := ptr_size, pid := child }
      (peername ptr_size s.straddr c.peer).1).2,
    exec_close (c.pass_fds os.nofile (save_stderr os.nofile
      (s.fds.set os.acc.sock (some { file := os.acc.file, cloexec := false })))),
    ?_, helem, ?_⟩, ?_, ?_, ?_⟩
  · unfold loop_body_start
    simp only [hc]
    unfold Client.start Client.run
    simp only [ne_eq, not_true_eq_false, if_false, if_true]
  · intro hu hv
    rw [helem, regex_replace_var_plain c _ _ u hu, regex_replace_var_plain c _ _ v hv]
  · unfold Client.start
    rw [hfork, if_pos hc0]
  · have hl := loop_body_launched ptr_size pass exec_argv s os hsock (by rw [hfork]; exact hc0)
    rw [hfork, ← hcl] at hl
    refine ⟨_, hl, PidMap.find_emplace_isSome _ _ _, ?_⟩
    intro hnone
    exact PidMap.find_emplace_new _ _ _ hnone
  · intro h
    exact hne (decimal_injective child parent (by omega) (by omega) h).symm

/-- An instance of `percent_p_is_child_pid`: the template `/bin/echo pid=%p!`, the
child 4321 of the server 1000. -/
theorem percent_p_is_child_pid_witness :
    (∃ argv fds,
        loop_body_start 8 3 ["/bin/echo".toList, "pid=%p!".toList]
            { pid_map := [], straddr := [], fds := fun _ => none, cerr := [] }
            { acc := { sock := 4, errno := 0, sa := sockaddr_inet.ipv4 10 0 0 7 5000, file := 9 },
              fork_result := 0, getpid := 4321, exec_ok := true, nofile := 1024 }
          = LoopStage.in_child (ChildOutcome.image_replaced argv fds
              [(none, LogEvent.calling 4321 argv)])
        ∧ argv[1]? = some (some ("pid=".toList ++ decimal 4321 ++ "!".toList)))
    ∧ decimal 4321 = "4321".toList
    ∧ decimal 4321 ≠ decimal 1000 :=
  have h := percent_p_is_child_pid
    { fd := 4, peer := sockaddr_inet.ipv4 10 0 0 7 5000, pass := 3,
      exec_argv := ["/bin/echo".toList, "pid=%p!".toList] }
    8 3 4321 1000 ["/bin/echo".toList, "pid=%p!".toList] ["/bin/echo".toList] []
    "pid=".toList "!".toList
    { pid_map := [], straddr := [], fds := fun _ => none, cerr := [] }
    { acc := { sock := 4, errno := 0, sa := sockaddr_inet.ipv4 10 0 0 7 5000, file := 9 },
      fork_result := 4321, getpid := 1000, exec_ok := true, nofile := 1024 }
    (by decide) (by decide) (by decide) (by decide) (by decide) (by decide) (by decide)
  ⟨h.1.elim fun argv ha => ha.elim fun fds hf =>
      ⟨argv, fds, hf.1, hf.2.2 (by decide) (by decide)⟩,
    by decide, h.2.2.2⟩

/-- C25 (counterexample): the child 100 is registered, terminates, and
`sigchld_handler` runs for it: its entry leaves `pid_map`, and it is still among
the children whose exit status has not been collected.  The same holds for the
child 7 that is not registered. -/
theorem sigchld_handler_leaves_child_unreaped :
    (child_exit_notification 8
        { pid_map := [(100, { fd := 4, peer := sockaddr_inet.ipv4 10 0 0 7 5000, pass := 3,
                              exec_argv := ["/bin/cat".toList] })],
          straddr := [], fds := fun _ => none, cerr := [] } [] 100).2 = [100]
    ∧ (child_exit_notification 8
        { pid_map := [(100, { fd := 4, peer := sockaddr_inet.ipv4 10 0 0 7 5000, pass := 3,
                              exec_argv := ["/bin/cat".toList] })],
          straddr := [], fds := fun _ => none, cerr := [] } [] 100).1.pid_map = []
    ∧ (child_exit_notification 8
        { pid_map := [], straddr := [], fds := fun _ => none, cerr := [] } [] 7).2 = [7] := by
  decide

/-- After the termination of a child and the run of the handler for it, the child is
at the head of the children whose exit status has not been collected. -/
theorem child_exit_notification_unreaped (ptr_size : Nat) (s : Server) (unreaped : List Int)
    (si_pid : Int) :
    (child_exit_notification ptr_size s unreaped si_pid).2 = si_pid :: unreaped := by
  unfold child_exit_notification sigchld_handler_calls child_terminates
  rw [if_neg (by decide)]
  cases s.pid_map.find si_pid <;> rfl

/-- C25 (as the code has it): `sigchld_handler` does not reap.  It makes no
`waitpid` call, and `SIGCHLD` is registered without `SA_NOCLDWAIT`; so after the
child `si_pid` has terminated and the handler has run for it, whether or not it
was registered, `si_pid` is among the children whose exit status has not been
collected, while `pid_map` has no entry for it; and after the notifications for a
list of children all of them are in that set. -/
theorem sigchld_handler_does_not_reap (ptr_size : Nat) (s : Server) (unreaped : List Int)
    (si_pid : Int) :
    (child_exit_notification ptr_size s unreaped si_pid).2 = si_pid :: unreaped
    ∧ (child_exit_notification ptr_size s unreaped si_pid).1.pid_map.find si_pid = none
    ∧ (∀ call ∈ sigchld_handler_calls s si_pid, ∀ pid, call ≠ ProcCall.waitpid pid)
    ∧ main_sigchld_flags &&& SA_NOCLDWAIT = 0
    ∧ ∀ pids : List Int,
        (pids.foldl (fun acc pid => child_exit_notification ptr_size acc.1 acc.2 pid)
          (s, unreaped)).2 = pids.reverse ++ unreaped := by
  refine ⟨child_exit_notification_unreaped ptr_size s unreaped si_pid, ?_, ?_, by decide, ?_⟩
  · show (sigchld_handler ptr_size s si_pid).pid_map.find si_pid = none
    rw [sigchld_handler_find, if_pos rfl]
  · intro call hcall pid
    unfold sigchld_handler_calls at hcall
    cases hf : s.pid_map.find si_pid <;> rw [hf] at hcall <;>
      simp only [List.mem_singleton] at hcall <;> rw [hcall] <;> intro h <;> cases h
  · intro pids
    induction pids generalizing s unreaped with
    | nil => rfl
    | cons p ps ih =>
      rw [List.foldl_cons]
      have := ih (child_exit_notification ptr_size s unreaped p).1
        (child_exit_notification ptr_size s unreaped p).2
      rw [this, child_exit_notification_unreaped]
      simp

/-- C28 (counterexample): two clients are accepted; the first iteration registers
the child 100; the second has returned from `start` with the child 101 and has
not yet inserted it when the notification for 100 is handled: `sigchld_handler`
removes the entry of 100 from `pid_map` inside the open iteration, whose
insertion then follows. -/
theorem handler_runs_inside_iteration :
    (Sys.steps 8 3 ["/bin/cat".toList] (Sys.init [] (fun _ => none) [])
        [Event.iter_start
          { acc := { sock := 4, errno := 0, sa := sockaddr_inet.ipv4 10 0 0 7 5000, file := 9 },
            fork_result := 100, getpid := 50, exec_ok := true, nofile := 1024 },
         Event.iter_finish,
         Event.iter_start
          { acc := { sock := 4, errno := 0, sa := sockaddr_inet.ipv4 10 0 0 8 5001, file := 9 },
            fork_result := 101, getpid := 50, exec_ok := true, nofile := 1024 }]).map
        (fun y => (y.pending.map Prod.fst, y.server.pid_map.map Prod.fst))
      = some (some 101, [100])
    ∧ (Sys.steps 8 3 ["/bin/cat".toList] (Sys.init [] (fun _ => none) [])
        [Event.iter_start
          { acc := { sock := 4, errno := 0, sa := sockaddr_inet.ipv4 10 0 0 7 5000, file := 9 },
            fork_result := 100, getpid := 50, exec_ok := true, nofile := 1024 },
         Event.iter_finish,
         Event.iter_start
          { acc := { sock := 4, errno := 0, sa := sockaddr_inet.ipv4 10 0 0 8 5001, file := 9 },
            fork_result := 101, getpid := 50, exec_ok := true, nofile := 1024 },
         Event.sigchld 100]).map
        (fun y => (y.pending.map Prod.fst, y.server.pid_map.map Prod.fst))
      = some (some 101, [])
    ∧ (Sys.steps 8 3 ["/bin/cat".toList] (Sys.init [] (fun _ => none) [])
        [Event.iter_start
          { acc := { sock := 4, errno := 0, sa := sockaddr_inet.ipv4 10 0 0 7 5000, file := 9 },
            fork_result := 100, getpid := 50, exec_ok := true, nofile := 1024 },
         Event.iter_finish,
         Event.iter_start
          { acc := { sock := 4, errno := 0, sa := sockaddr_inet.ipv4 10 0 0 8 5001, file := 9 },
            fork_result := 101, getpid := 50, exec_ok := true, nofile := 1024 },
         Event.sigchld 100,
         Event.iter_finish]).map
        (fun y => (y.pending.map Prod.fst, y.server.pid_map.map Prod.fst))
      = some (none, [101]) := by
  decide

/-- C28 (as the code has it): both the accept loop and `sigchld_handler` change
`pid_map`, and a notification is not held back while an iteration is open.  In
every state of the server, whatever `pending` holds, the notification for a
launched child that is registered and not yet notified is handled: the handler
erases its entry and leaves `pending` as it is; and the iteration that is open
then ends by inserting its client. -/
theorem registry_mutated_by_loop_and_handler (ptr_size pass : Nat)
    (exec_argv : List (List Char)) (y : Sys) (pid : Int) (c : Client)
    (hl : pid ∈ y.launched) (hh : pid ∉ y.handled)
    (hreg : y.server.pid_map.find pid = some c) :
    ∃ y1, y.step ptr_size pass exec_argv (Event.sigchld pid) = some y1
      ∧ y1.pending = y.pending
      ∧ y1.server.pid_map = y.server.pid_map.erase pid
      ∧ y1.server.pid_map.find pid = none
      ∧ ∀ q client, y.pending = some (q, client) →
          ∃ y2, y1.step ptr_size pass exec_argv Event.iter_finish = some y2
            ∧ y2.server.pid_map = (y.server.pid_map.erase pid).emplace q client := by
  have hstep : y.step ptr_size pass exec_argv (Event.sigchld pid)
      = some { y with
          server := sigchld_handler ptr_size y.server pid
          handled := pid :: y.handled } := by
    show (if pid ∈ y.launched ∧ pid ∉ y.handled then _ else _) = _
    rw [if_pos ⟨hl, hh⟩]
  have hmap : (sigchld_handler ptr_size y.server pid).pid_map = y.server.pid_map.erase pid := by
    unfold sigchld_handler
    rw [hreg]
  refine ⟨_, hstep, rfl, hmap, ?_, ?_⟩
  · show (sigchld_handler ptr_size y.server pid).pid_map.find pid = none
    rw [sigchld_handler_find, if_pos rfl]
  · intro q client hp
    refine ⟨{ server := loop_body_finish (sigchld_handler ptr_size y.server pid) q client
              pending := none, launched := y.launched, handled := pid :: y.handled }, ?_, ?_⟩
    · show (match y.pending with
        | none => none
        | some (pid1, client1) => some _) = _
      rw [hp]
    · show ((sigchld_handler ptr_size y.server pid).pid_map).emplace q client = _
      rw [hmap]

/-- An instance of `registry_mutated_by_loop_and_handler`. -/
theorem registry_mutated_by_loop_and_handler_witness :
    ∃ y1, Sys.step 8 3 ["/bin/cat".toList]
        { server :=
            { pid_map := [(100, { fd := 4, peer := sockaddr_inet.ipv4 10 0 0 7 5000, pass := 3,
                                  exec_argv := ["/bin/cat".toList] })],
              straddr := [], fds := fun _ => none, cerr := [] },
          pending := some (101, { fd := 4, peer := sockaddr_inet.ipv4 10 0 0 8 5001, pass := 3,
                                  exec_argv := ["/bin/cat".toList] }),
          launched := [101, 100], handled := [] }
        (Event.sigchld 100) = some y1
      ∧ y1.pending = some (101, { fd := 4, peer := sockaddr_inet.ipv4 10 0 0 8 5001, pass := 3,
                                  exec_argv := ["/bin/cat".toList] })
      ∧ y1.server.pid_map.find 100 = none :=
  have h := registry_mutated_by_loop_and_handler 8 3 ["/bin/cat".toList]
    { server :=
        { pid_map := [(100, { fd := 4, peer := sockaddr_inet.ipv4 10 0 0 7 5000, pass := 3,
                              exec_argv := ["/bin/cat".toList] })],
          straddr := [], fds := fun _ => none, cerr := [] },
      pending := some (101, { fd := 4, peer := sockaddr_inet.ipv4 10 0 0 8 5001, pass := 3,
                              exec_argv := ["/bin/cat".toList] }),
      launched := [101, 100], handled := [] }
    100 { fd := 4, peer := sockaddr_inet.ipv4 10 0 0 7 5000, pass := 3,
          exec_argv := ["/bin/cat".toList] }
    (by decide) (by decide) (by decide)
  h.elim fun y1 hy => ⟨y1, hy.1, hy.2.1, hy.2.2.2.1⟩

/-- A call `fcntl(fd, F_SETFD, FD_CLOEXEC)` leaves every descriptor that is open with
the close-on-exec flag open with that flag. -/
theorem fcntl_setfd_cloexec_keeps (t : FdTable) (fd k : Int)
    (h : ∃ e, t k = some e ∧ e.cloexec = true) :
    ∃ e, (fcntl_setfd_cloexec t fd).2 k = some e ∧ e.cloexec = true := by
  unfold fcntl_setfd_cloexec
  cases hfd : t fd with
  | none => exact h
  | some x =>
    show ∃ e, (t.set fd (some { file := x.file, cloexec := true })) k = some e ∧ e.cloexec = true
    unfold FdTable.set
    by_cases hk : k = fd
    · rw [if_pos hk]; exact ⟨_, rfl, rfl⟩
    · rw [if_neg hk]; exact h

/-- When `fcntl(fd, F_SETFD, FD_CLOEXEC)` does not fail, `fd` is open with the flag. -/
theorem fcntl_setfd_cloexec_ok (t : FdTable) (fd : Int) (h : ¬ (fcntl_setfd_cloexec t fd).1 < 0) :
    ∃ e, (fcntl_setfd_cloexec t fd).2 fd = some e ∧ e.cloexec = true := by
  unfold fcntl_setfd_cloexec at h ⊢
  cases hfd : t fd with
  | none => rw [hfd] at h; exact absurd (show (-1 : Int) < 0 by decide) h
  | some x =>
    show ∃ e, (t.set fd (some { file := x.file, cloexec := true })) fd = some e ∧ e.cloexec = true
    unfold FdTable.set
    rw [if_pos rfl]; exact ⟨_, rfl, rfl⟩

/-- The loop of `sd_listen_fds` leaves every descriptor that is open with the
close-on-exec flag open with that flag. -/
theorem cloexec_loop_keeps :
    ∀ (count : Nat) (fd : Int) (t : FdTable) (k : Int),
      (∃ e, t k = some e ∧ e.cloexec = true) →
      ∃ e, (cloexec_loop count fd t).2 k = some e ∧ e.cloexec = true := by
  intro count
  induction count with
  | zero => intro fd t k h; exact h
  | succ count ih =>
    intro fd t k h
    unfold cloexec_loop
    by_cases hr : (fcntl_setfd_cloexec t fd).1 < 0
    · rw [if_pos hr]; exact h
    · rw [if_neg hr]
      exact ih (fd + 1) _ k (fcntl_setfd_cloexec_keeps t fd k h)

/-- A return value of `fcntl` that ends the loop of `sd_listen_fds` is negative. -/
theorem cloexec_loop_failed :
    ∀ (count : Nat) (fd : Int) (t : FdTable) (r : Int),
      (cloexec_loop count fd t).1 = some r → r < 0 := by
  intro count
  induction count with
  | zero => intro fd t r h; cases h
  | succ count ih =>
    intro fd t r h
    unfold cloexec_loop at h
    by_cases hr : (fcntl_setfd_cloexec t fd).1 < 0
    · rw [if_pos hr] at h
      cases h
      exact hr
    · rw [if_neg hr] at h
      exact ih (fd + 1) _ r h

/-- When the loop of `sd_listen_fds` runs to its end, every descriptor it went over is
open with the close-on-exec flag. -/
theorem cloexec_loop_sets :
    ∀ (count : Nat) (fd : Int) (t : FdTable),
      (cloexec_loop count fd t).1 = none →
      ∀ k, fd ≤ k → k < fd + count →
        ∃ e, (cloexec_loop count fd t).2 k = some e ∧ e.cloexec = true := by
  intro count
  induction count with
  | zero => intro fd t _ k h1 h2; simp at h2; omega
  | succ count ih =>
    intro fd t h k h1 h2
    unfold cloexec_loop at h ⊢
    by_cases hr : (fcntl_setfd_cloexec t fd).1 < 0
    · rw [if_pos hr] at h; cases h
    · rw [if_neg hr] at h ⊢
      by_cases hk : k = fd
      · rw [hk]
        exact cloexec_loop_keeps count (fd + 1) _ fd (fcntl_setfd_cloexec_ok t fd hr)
      · exact ih (fd + 1) _ h k (by omega) (by push_cast at h2; omega)

/-- The two ways `sd_listen_fds` computes its result: one of the early returns of 0
with the table untouched, or the loop over the descriptors. -/
theorem sd_listen_fds_body (uninit unset_environment pid : Int) (env : Env) (fds : FdTable) :
    ((sd_listen_fds uninit unset_environment pid env fds).ret = 0
      ∧ (sd_listen_fds uninit unset_environment pid env fds).fds = fds)
    ∨ ∃ e2,
      ((sd_listen_fds uninit unset_environment pid env fds).ret,
        (sd_listen_fds uninit unset_environment pid env fds).fds)
        = match cloexec_loop
            (to_int (SD_LISTEN_FDS_START + to_int (to_unsigned (s2int uninit e2)))
              - SD_LISTEN_FDS_START).toNat SD_LISTEN_FDS_START fds with
          | (some r, t) => (r, t)
          | (none, t) => (to_int (to_unsigned (s2int uninit e2)), t) := by
  cases h1 : getenv env "LISTEN_PID" with
  | none =>
    left
    unfold sd_listen_fds
    simp only [h1]
    exact ⟨trivial, trivial⟩
  | some e =>
    by_cases hp : pid ≠ s2int uninit e
    · left
      unfold sd_listen_fds
      simp only [h1, if_pos hp]
      exact ⟨trivial, trivial⟩
    · cases h2 : getenv env "LISTEN_FDS" with
      | none =>
        left
        unfold sd_listen_fds
        simp only [h1, if_neg hp, h2]
        exact ⟨trivial, trivial⟩
      | some e2 =>
        right
        refine ⟨e2, ?_⟩
        unfold sd_listen_fds
        simp only [h1, if_neg hp, h2]

/-- When `sd_listen_fds` returns a count that is not negative, the descriptors of that
count from `SD_LISTEN_FDS_START` on are open with the close-on-exec flag. -/
theorem sd_listen_fds_cloexec (uninit unset_environment pid : Int) (env : Env) (fds : FdTable)
    (h0 : 0 ≤ (sd_listen_fds uninit unset_environment pid env fds).ret)
    (hmax : SD_LISTEN_FDS_START + (sd_listen_fds uninit unset_environment pid env fds).ret
      ≤ INT_MAX)
    (k : Int) (hk1 : SD_LISTEN_FDS_START ≤ k)
    (hk2 : k < SD_LISTEN_FDS_START + (sd_listen_fds uninit unset_environment pid env fds).ret) :
    ∃ e, (sd_listen_fds uninit unset_environment pid env fds).fds k = some e
      ∧ e.cloexec = true := by
  rcases sd_listen_fds_body uninit unset_environment pid env fds with ⟨hr, _⟩ | ⟨e2, hb⟩
  · rw [hr] at hk2; omega
  · generalize (sd_listen_fds uninit unset_environment pid env fds).ret = ret at *
    generalize (sd_listen_fds uninit unset_environment pid env fds).fds = tbl at *
    generalize hn : to_int (to_unsigned (s2int uninit e2)) = n at hb
    have hs := cloexec_loop_sets (to_int (SD_LISTEN_FDS_START + n) - SD_LISTEN_FDS_START).toNat
      SD_LISTEN_FDS_START fds
    have hf := cloexec_loop_failed (to_int (SD_LISTEN_FDS_START + n) - SD_LISTEN_FDS_START).toNat
      SD_LISTEN_FDS_START fds
    cases hl : cloexec_loop (to_int (SD_LISTEN_FDS_START + n) - SD_LISTEN_FDS_START).toNat
      SD_LISTEN_FDS_START fds with
    | mk res t =>
      rw [hl] at hb hs hf
      cases res with
      | some r =>
        have hret : ret = r := congrArg Prod.fst hb
        have := hf r rfl
        omega
      | none =>
        have hret : ret = n := congrArg Prod.fst hb
        have htbl : tbl = t := congrArg Prod.snd hb
        rw [htbl]
        subst hret
        have hbound : to_int (SD_LISTEN_FDS_START + ret) = SD_LISTEN_FDS_START + ret := by
          unfold to_int
          unfold SD_LISTEN_FDS_START INT_MAX at *
          omega
        rw [hbound] at hs
        refine hs rfl k hk1 ?_
        unfold SD_LISTEN_FDS_START at *
        omega

/-- After `dup2(2, 200); fcntl(200, F_SETFD, FD_CLOEXEC)` a descriptor that was open
with the close-on-exec flag is open with that flag. -/
theorem save_stderr_keeps (nofile : Int) (t : FdTable) (k : Int)
    (h : ∃ e, t k = some e ∧ e.cloexec = true) :
    ∃ e, save_stderr nofile t k = some e ∧ e.cloexec = true := by
  unfold save_stderr
  by_cases hr : (fcntl_setfd_cloexec (dup2 nofile t 2 200) 200).1 < 0
  · by_cases hk : k = 200
    · exfalso
      obtain ⟨e, he, _⟩ := h
      have hopen : ∃ x, dup2 nofile t 2 200 200 = some x := by
        unfold dup2
        cases h2 : t 2 with
        | none => exact ⟨e, hk ▸ he⟩
        | some x =>
          by_cases hl : (200 : Int) < 0 ∨ nofile ≤ 200
          · simp only [if_pos hl]; exact ⟨e, hk ▸ he⟩
          · simp only [if_neg hl]
            exact ⟨{ file := x.file, cloexec := false }, by simp [FdTable.set]⟩
      obtain ⟨x, hx⟩ := hopen
      unfold fcntl_setfd_cloexec at hr
      rw [hx] at hr
      exact absurd hr (show ¬ (0 : Int) < 0 by decide)
    · apply fcntl_setfd_cloexec_keeps
      rw [dup2_other nofile t 2 200 k hk]
      exact h
  · by_cases hk : k = 200
    · rw [hk]; exact fcntl_setfd_cloexec_ok _ _ hr
    · apply fcntl_setfd_cloexec_keeps
      rw [dup2_other nofile t 2 200 k hk]
      exact h

/-- A descriptor other than 0, 1 and 2 that is open with the close-on-exec flag when
`run` is entered is not open in the image that `execvp` starts. -/
theorem run_closes_cloexec (c : Client) (info : ProcInfo) (buf : List Char) (t : FdTable)
    (nofile : Int) (k : Int) (h : ∃ e, t k = some e ∧ e.cloexec = true)
    (h0 : k ≠ 0) (h1 : k ≠ 1) (h2 : k ≠ 2) :
    ∃ argv fds cerr, c.run info buf t nofile true = ChildOutcome.image_replaced argv fds cerr
      ∧ fds k = none := by
  refine ⟨_, _, _, rfl, ?_⟩
  obtain ⟨e, he, hc⟩ := save_stderr_keeps nofile t k h
  unfold exec_close
  rw [pass_fds_other c nofile _ k h0 h1 h2, he]
  simp [hc]

/-- C26: the descriptor handed to the accept loop has the close-on-exec flag set.
When the listening-socket part of `main` ends with a descriptor, that descriptor
has the flag in the descriptor table; when `sd_listen_fds` returns a count `n`
that is not negative (and `SD_LISTEN_FDS_START + n` is within the range of
`int`), every descriptor from `SD_LISTEN_FDS_START` to `SD_LISTEN_FDS_START + n -
1` is open with the flag, and so is the descriptor `main` takes in the activation
branch.  A descriptor above 2 that has the flag in the table of the server is not
open in a child launched by the accept loop once `execvp` has succeeded. -/
theorem listening_descriptor_cloexec :
    (∀ (inet_pton : Int → List Char → Option (List Nat)) (ptr_size : Nat) (bind : List Char)
        (ipv6 : Bool) (port : Int) (env : Env) (fds : FdTable) (straddr : List Char)
        (os : BindOS) (p : Provisioned),
      (main_bind inet_pton ptr_size bind ipv6 port env fds straddr os).outcome
          = Startup.ready p →
      p.fds p.fd = some { file := os.socket_file, cloexec := true })
    ∧ (∀ (uninit unset_environment pid : Int) (env : Env) (fds : FdTable) (k : Int),
      0 ≤ (sd_listen_fds uninit unset_environment pid env fds).ret →
      SD_LISTEN_FDS_START + (sd_listen_fds uninit unset_environment pid env fds).ret
        ≤ INT_MAX →
      SD_LISTEN_FDS_START ≤ k →
      k < SD_LISTEN_FDS_START + (sd_listen_fds uninit unset_environment pid env fds).ret →
      ∃ e, (sd_listen_fds uninit unset_environment pid env fds).fds k = some e
        ∧ e.cloexec = true)
    ∧ (∀ (uninit : Int) (ptr_size : Nat) (pid : Int) (env : Env) (fds : FdTable)
        (straddr : List Char) (sockname : sockaddr_inet) (p : Provisioned),
      main_systemd uninit ptr_size pid env fds straddr sockname = Startup.ready p →
      ∃ e, p.fds p.fd = some e ∧ e.cloexec = true)
    ∧ (∀ (ptr_size pass : Nat) (exec_argv : List (List Char)) (s : Server) (os : IterOS)
        (fd : Int) (e : FdEntry),
      s.fds fd = some e → e.cloexec = true → 2 < fd → fd ≠ os.acc.sock →
      0 ≤ os.acc.sock → os.fork_result = 0 → os.exec_ok = true →
      ∃ argv fds cerr,
        loop_body_start ptr_size pass exec_argv s os
          = LoopStage.in_child (ChildOutcome.image_replaced argv fds cerr)
        ∧ fds fd = none) := by
  refine ⟨?_, ?_, ?_, ?_⟩
  · intro inet_pton ptr_size bind ipv6 port env fds straddr os p h
    unfold main_bind at h
    by_cases h1 : os.socket_ret < 0
    · simp only [h1, if_true] at h; cases h
    · by_cases h2 : os.bind_ret = -1
      · simp only [h1, h2, if_true, if_false] at h; cases h
      · by_cases h3 : os.listen_ret = -1
        · simp only [h1, h2, h3, if_true, if_false] at h; cases h
        · simp only [h1, h2, h3, if_false] at h
          have hp := Startup.ready.inj h
          rw [← hp]
          have h0 : 0 ≤ os.socket_ret := by omega
          simp only [if_pos h0]
          unfold fcntl_setfd_cloexec FdTable.set
          simp
  · intro uninit unset_environment pid env fds k h0 hmax hk1 hk2
    exact sd_listen_fds_cloexec uninit unset_environment pid env fds h0 hmax k hk1 hk2
  · intro uninit ptr_size pid env fds straddr sockname p h
    unfold main_systemd at h
    by_cases h1 : (sd_listen_fds uninit 1 pid env fds).ret > 1
    · simp only [h1, if_true] at h; cases h
    · by_cases h2 : (sd_listen_fds uninit 1 pid env fds).ret < 1
      · simp only [h1, h2, if_true, if_false] at h; cases h
      · simp only [h1, h2, if_false] at h
        have hp := Startup.ready.inj h
        rw [← hp]
        have hret : (sd_listen_fds uninit 1 pid env fds).ret = 1 := by omega
        exact sd_listen_fds_cloexec uninit 1 pid env fds (by omega)
          (by rw [hret]; decide) _ (show SD_LISTEN_FDS_START ≤ SD_LISTEN_FDS_START + 0 by decide)
          (by rw [hret]; show SD_LISTEN_FDS_START + 0 < SD_LISTEN_FDS_START + 1; decide)
  · intro ptr_size pass exec_argv s os fd e hfd hce h2 hne hsock hfork hexec
    have hacc : ¬ os.acc.sock < 0 := by omega
    have hk : ∃ x, (s.fds.set os.acc.sock (some { file := os.acc.file, cloexec := false })) fd
        = some x ∧ x.cloexec = true := by
      unfold FdTable.set
      rw [if_neg hne]
      exact ⟨e, hfd, hce⟩
    obtain ⟨argv, fds, cerr, hrun, hnone⟩ := run_closes_cloexec
      { fd := os.acc.sock, peer := os.acc.sa, pass := pass, exec_argv := exec_argv }
      { ptr_size := ptr_size, pid := os.getpid }
      (peername ptr_size s.straddr os.acc.sa).1 _ os.nofile fd hk (by omega) (by omega)
      (by omega)
    refine ⟨argv, fds, cerr, ?_, hnone⟩
    unfold loop_body_start Client.accept Client.start
    simp only [hacc, hfork, hexec, if_false, ne_eq, not_true_eq_false]
    rw [← hrun]

/-- An instance of `listening_descriptor_cloexec`. -/
theorem listening_descriptor_cloexec_witness :
    (∃ p, (main_bind (fun _ _ => none) 8 [] false 7994 [] (fun _ => none) []
          { addr0 := sockaddr_inet.ipv4 0 0 0 0 0, socket_ret := 3, socket_file := 9,
            bind_ret := 0, listen_ret := 0 }).outcome = Startup.ready p
      ∧ p.fds p.fd = some { file := 9, cloexec := true })
    ∧ (∃ e, (sd_listen_fds 0 1 42 [("LISTEN_PID", "42".toList), ("LISTEN_FDS", "2".toList)]
          (fun k => if 3 ≤ k ∧ k ≤ 4 then some { file := 7, cloexec := false } else none)).fds 4
        = some e ∧ e.cloexec = true)
    ∧ (∃ p, main_systemd 0 8 42 [("LISTEN_PID", "42".toList), ("LISTEN_FDS", "1".toList)]
          (fun k => if k = 3 then some { file := 7, cloexec := false } else none) []
          (sockaddr_inet.ipv4 0 0 0 0 7994) = Startup.ready p
      ∧ ∃ e, p.fds p.fd = some e ∧ e.cloexec = true)
    ∧ (∃ argv fds cerr,
        loop_body_start 8 3 ["/bin/cat".toList]
          { pid_map := [], straddr := [],
            fds := fun k => if k = 3 then some { file := 7, cloexec := true } else none,
            cerr := [] }
          { acc := { sock := 4, errno := 0, sa := sockaddr_inet.ipv4 10 0 0 7 5000, file := 9 },
            fork_result := 0, getpid := 4321, exec_ok := true, nofile := 1024 }
          = LoopStage.in_child (ChildOutcome.image_replaced argv fds cerr)
        ∧ fds 3 = none) :=
  ⟨⟨_, rfl, listening_descriptor_cloexec.1 (fun _ _ => none) 8 [] false 7994 [] (fun _ => none) []
      { addr0 := sockaddr_inet.ipv4 0 0 0 0 0, socket_ret := 3, socket_file := 9,
        bind_ret := 0, listen_ret := 0 } _ rfl⟩,
    listening_descriptor_cloexec.2.1 0 1 42 _ _ 4 (by decide) (by decide) (by decide)
      (by decide),
    ⟨_, rfl, listening_descriptor_cloexec.2.2.1 0 8 42
      [("LISTEN_PID", "42".toList), ("LISTEN_FDS", "1".toList)]
      (fun k => if k = 3 then some { file := 7, cloexec := false } else none) []
      (sockaddr_inet.ipv4 0 0 0 0 7994) _ rfl⟩,
    listening_descriptor_cloexec.2.2.2 8 3 _ _ _ 3 { file := 7, cloexec := true } rfl rfl
      (by decide) (by decide) (by decide) rfl rfl⟩

/-- The empty bind literal has no brackets to take off. -/
theorem bind_select_nil (ipv6 : Bool) : bind_select [] ipv6 = ([], ipv6) := by
  unfold bind_select
  rw [if_neg (by simp)]

/-- A literal that `inet_pton` rejects leaves the address as it is with no literal. -/
theorem bind_addr_rejected (inet_pton : Int → List Char → Option (List Nat))
    (addr0 : sockaddr_inet) (addrs : List Char) (ipv6 : Bool) (port : Int)
    (h : addrs ≠ [] → inet_pton (if ipv6 then AF_INET6 else AF_INET) addrs = none) :
    bind_addr inet_pton addr0 addrs ipv6 port = bind_addr inet_pton addr0 [] ipv6 port := by
  unfold bind_addr
  by_cases he : addrs = []
  · rw [he]
  · have hr := h he
    cases ipv6 with
    | true =>
      simp only [if_true] at hr ⊢
      rw [hr]
      simp
    | false =>
      simp only [Bool.false_eq_true, if_false] at hr ⊢
      rw [hr]
      simp

/-- C30: when `inet_pton` rejects a bind literal for the selected family (the
literal being the text left after the brackets are taken off, when that text is
not empty), the listening-socket
part of `main` runs exactly as it does with no literal and the same family: the
address passed to `bind` is the wildcard address of that family (all address
bytes zero), the same system calls are made, and when `socket`, `bind` and
`listen` succeed the part ends with a descriptor, with no error reported. -/
theorem invalid_bind_literal_is_wildcard (inet_pton : Int → List Char → Option (List Nat))
    (ptr_size : Nat) (bind : List Char) (ipv6 : Bool) (port : Int) (env : Env) (fds : FdTable)
    (straddr : List Char) (os : BindOS)
    (hinv : (bind_select bind ipv6).1 ≠ [] →
      inet_pton (if (bind_select bind ipv6).2 then AF_INET6 else AF_INET)
        (bind_select bind ipv6).1 = none) :
    main_bind inet_pton ptr_size bind ipv6 port env fds straddr os
        = main_bind inet_pton ptr_size [] (bind_select bind ipv6).2 port env fds straddr os
    ∧ bind_addr inet_pton os.addr0 (bind_select bind ipv6).1 (bind_select bind ipv6).2 port
        = (if (bind_select bind ipv6).2 then
            { family := AF_INET6, port := (port % 65536).toNat, bytes4 := os.addr0.bytes4,
              bytes8 := List.replicate 16 0 }
          else
            { family := AF_INET, port := (port % 65536).toNat, bytes4 := [0, 0, 0, 0],
              bytes8 := os.addr0.bytes8 })
    ∧ (0 ≤ os.socket_ret →
        (main_bind inet_pton ptr_size bind ipv6 port env fds straddr os).calls.take 3
          = [OsCall.socket (if (bind_select bind ipv6).2 then AF_INET6 else AF_INET),
             OsCall.fcntl_setfd_cloexec os.socket_ret,
             OsCall.bind os.socket_ret
              (bind_addr inet_pton os.addr0 [] (bind_select bind ipv6).2 port)])
    ∧ (0 ≤ os.socket_ret → os.bind_ret ≠ -1 → os.listen_ret ≠ -1 →
        ∃ p, (main_bind inet_pton ptr_size bind ipv6 port env fds straddr os).outcome
          = Startup.ready p) := by
  have haddr := bind_addr_rejected inet_pton os.addr0 (bind_select bind ipv6).1
    (bind_select bind ipv6).2 port hinv
  have hnil : bind_addr inet_pton os.addr0 [] (bind_select bind ipv6).2 port
      = (if (bind_select bind ipv6).2 then
            { family := AF_INET6, port := (port % 65536).toNat, bytes4 := os.addr0.bytes4,
              bytes8 := List.replicate 16 0 }
          else
            { family := AF_INET, port := (port % 65536).toNat, bytes4 := [0, 0, 0, 0],
              bytes8 := os.addr0.bytes8 }) := by
    unfold bind_addr
    cases (bind_select bind ipv6).2 <;> simp
  have hmain : main_bind inet_pton ptr_size bind ipv6 port env fds straddr os
      = main_bind inet_pton ptr_size [] (bind_select bind ipv6).2 port env fds straddr os := by
    unfold main_bind
    rw [bind_select_nil]
    simp only [haddr]
  refine ⟨hmain, by rw [haddr, hnil], ?_, ?_⟩
  · intro h0
    rw [main_bind_calls inet_pton ptr_size bind ipv6 port env fds straddr os h0, haddr, hnil]
    cases (bind_select bind ipv6).2 <;> rfl
  · intro h0 h1 h2
    unfold main_bind
    have h0n : ¬ os.socket_ret < 0 := by omega
    simp only [h0n, h1, h2, if_false]
    exact ⟨_, rfl⟩

/-- An instance of `invalid_bind_literal_is_wildcard`. -/
theorem invalid_bind_literal_is_wildcard_witness :
    main_bind (fun _ _ => none) 8 "::1".toList false 7994 [] (fun _ => none) []
        { addr0 := sockaddr_inet.ipv4 9 9 9 9 0, socket_ret := 3, socket_file := 9,
          bind_ret := 0, listen_ret := 0 }
      = main_bind (fun _ _ => none) 8 [] false 7994 [] (fun _ => none) []
        { addr0 := sockaddr_inet.ipv4 9 9 9 9 0, socket_ret := 3, socket_file := 9,
          bind_ret := 0, listen_ret := 0 }
    ∧ (main_bind (fun _ _ => none) 8 "::1".toList false 7994 [] (fun _ => none) []
        { addr0 := sockaddr_inet.ipv4 9 9 9 9 0, socket_ret := 3, socket_file := 9,
          bind_ret := 0, listen_ret := 0 }).calls.take 3
      = [OsCall.socket AF_INET, OsCall.fcntl_setfd_cloexec 3,
         OsCall.bind 3 (sockaddr_inet.ipv4 0 0 0 0 7994)] :=
  have h := invalid_bind_literal_is_wildcard (fun _ _ => none) 8 "::1".toList false 7994 []
    (fun _ => none) []
    { addr0 := sockaddr_inet.ipv4 9 9 9 9 0, socket_ret := 3, socket_file := 9,
      bind_ret := 0, listen_ret := 0 }
    (fun _ => rfl)
  ⟨h.1, h.2.2.1 (by decide)⟩

/-- One iteration of the loop of `splitArgs` leaves `argv` as it is or appends the
current token, which is then not empty. -/
theorem splitArgs_step_argv (st : SplitState) (ch : Char) :
    (splitArgs_step st ch).argv = st.argv
    ∨ (st.current ≠ [] ∧ (splitArgs_step st ch).argv = st.argv ++ [st.current]) := by
  unfold splitArgs_step
  split_ifs <;> simp_all

/-- The loop of `splitArgs` keeps every element of `argv` non-empty. -/
theorem splitArgs_loop_argv :
    ∀ (args : List Char) (st : SplitState), (∀ x ∈ st.argv, x ≠ []) →
      ∀ x ∈ (args.foldl splitArgs_step st).argv, x ≠ []
  | [], _, h => h
  | ch :: args, st, h => by
    rw [List.foldl_cons]
    apply splitArgs_loop_argv args
    intro x hx
    rcases splitArgs_step_argv st ch with he | ⟨hc, he⟩
    · rw [he] at hx; exact h x hx
    · rw [he] at hx
      rcases List.mem_append.mp hx with hx | hx
      · exact h x hx
      · rw [List.mem_singleton.mp hx]; exact hc

/-- Spaces read outside quotes with an empty current token change nothing. -/
theorem splitArgs_spaces_no_token (argv : List (List Char)) :
    ∀ n : Nat,
      (List.replicate n (Char.ofNat 0x20)).foldl splitArgs_step
          { argv := argv, current := [], escape := false, inquotes := Char.ofNat 0 }
        = { argv := argv, current := [], escape := false, inquotes := Char.ofNat 0 }
  | 0 => rfl
  | n + 1 => by
    rw [List.replicate_succ, List.foldl_cons]
    have hstep : splitArgs_step
        { argv := argv, current := [], escape := false, inquotes := Char.ofNat 0 }
        (Char.ofNat 0x20)
        = { argv := argv, current := [], escape := false, inquotes := Char.ofNat 0 } := by
      unfold splitArgs_step
      simp
    rw [hstep]
    exact splitArgs_spaces_no_token argv n

/-- A run of one or more spaces read outside quotes after a token pushes that token. -/
theorem splitArgs_spaces_end_token (argv : List (List Char)) (cur : List Char) (h : cur ≠ [])
    (n : Nat) :
    (List.replicate (n + 1) (Char.ofNat 0x20)).foldl splitArgs_step
        { argv := argv, current := cur, escape := false, inquotes := Char.ofNat 0 }
      = { argv := argv ++ [cur], current := [], escape := false, inquotes := Char.ofNat 0 } := by
  rw [List.replicate_succ, List.foldl_cons]
  have hstep : splitArgs_step
      { argv := argv, current := cur, escape := false, inquotes := Char.ofNat 0 }
      (Char.ofNat 0x20)
      = { argv := argv ++ [cur], current := [], escape := false, inquotes := Char.ofNat 0 } := by
    unfold splitArgs_step
    simp [h]
  rw [hstep]
  exact splitArgs_spaces_no_token (argv ++ [cur]) n

/-- A space or an empty pair of quotes read with an empty current token changes
nothing. -/
theorem splitArgs_blank_piece (argv : List (List Char)) (p : List Char)
    (h : p = [Char.ofNat 0x20] ∨ p = [Char.ofNat 0x27, Char.ofNat 0x27]
      ∨ p = [Char.ofNat 0x22, Char.ofNat 0x22]) :
    p.foldl splitArgs_step
        { argv := argv, current := [], escape := false, inquotes := Char.ofNat 0 }
      = { argv := argv, current := [], escape := false, inquotes := Char.ofNat 0 } := by
  rcases h with h | h | h
  · rw [h]; exact splitArgs_spaces_no_token argv 1
  · rw [h]
    exact splitArgs_quoted_piece (Char.ofNat 0x27) (Or.inr rfl) []
      { argv := argv, current := [], escape := false, inquotes := Char.ofNat 0 } rfl rfl
      (by simp) (by simp)
  · rw [h]
    exact splitArgs_quoted_piece (Char.ofNat 0x22) (Or.inl rfl) []
      { argv := argv, current := [], escape := false, inquotes := Char.ofNat 0 } rfl rfl
      (by simp) (by simp)

/-- Spaces and empty pairs of quotes read with an empty current token change nothing. -/
theorem splitArgs_blank_pieces (argv : List (List Char)) :
    ∀ pieces : List (List Char),
      (∀ p ∈ pieces, p = [Char.ofNat 0x20] ∨ p = [Char.ofNat 0x27, Char.ofNat 0x27]
        ∨ p = [Char.ofNat 0x22, Char.ofNat 0x22]) →
      pieces.flatten.foldl splitArgs_step
          { argv := argv, current := [], escape := false, inquotes := Char.ofNat 0 }
        = { argv := argv, current := [], escape := false, inquotes := Char.ofNat 0 }
  | [], _ => rfl
  | p :: pieces, h => by
    rw [List.flatten_cons, List.foldl_append,
      splitArgs_blank_piece argv p (h p (List.mem_cons_self _ _))]
    exact splitArgs_blank_pieces argv pieces (fun q hq => h q (List.mem_cons_of_mem _ hq))

/-- C31: no element of the list that `splitArgs` returns is the empty string, for
every input.  The inputs `''` and `""` give the empty list, a quoted empty piece
between two tokens adds no token, and an input made only of spaces and of the
pairs `''` and `""` gives the empty list. -/
theorem splitArgs_no_empty_token :
    (∀ (args : List Char), ∀ x ∈ splitArgs args, x ≠ [])
    ∧ splitArgs "''".toList = []
    ∧ splitArgs "\"\"".toList = []
    ∧ splitArgs "a '' b".toList = ["a".toList, "b".toList]
    ∧ (∀ pieces : List (List Char),
        (∀ p ∈ pieces, p = " ".toList ∨ p = "''".toList ∨ p = "\"\"".toList) →
        splitArgs pieces.flatten = []) := by
  refine ⟨?_, by decide, by decide, by decide, ?_⟩
  · intro args x hx
    have hinv := splitArgs_loop_argv args SplitState.init (by intro y hy; cases hy)
    unfold splitArgs at hx
    simp only at hx
    by_cases hc : (args.foldl splitArgs_step SplitState.init).current ≠ []
    · rw [if_pos hc] at hx
      rcases List.mem_append.mp hx with hx | hx
      · exact hinv x hx
      · rw [List.mem_singleton.mp hx]; exact hc
    · rw [if_neg hc] at hx
      exact hinv x hx
  · intro pieces h
    unfold splitArgs
    have := splitArgs_blank_pieces [] pieces h
    show (if (pieces.flatten.foldl splitArgs_step SplitState.init).current ≠ [] then _ else _) = []
    rw [show SplitState.init
      = { argv := [], current := [], escape := false, inquotes := Char.ofNat 0 } from rfl, this]
    rfl

/-- An instance of `splitArgs_no_empty_token`. -/
theorem splitArgs_no_empty_token_witness :
    splitArgs [" ".toList, "''".toList, " ".toList, "\"\"".toList, "''".toList].flatten = [] :=
  splitArgs_no_empty_token.2.2.2.2
    [" ".toList, "''".toList, " ".toList, "\"\"".toList, "''".toList] (by decide)

/-- The loop of `splitArgs` over tokens that are each preceded by a run of one or
more spaces, entered with a current token: the tokens are pushed in order. -/
theorem splitArgs_spaced_tokens :
    ∀ (rest : List (Nat × List Char)) (argv : List (List Char)) (cur : List Char),
      cur ≠ [] →
      (∀ g ∈ rest, g.2 ≠ [] ∧ ∀ ch ∈ g.2,
        ch ≠ Char.ofNat 0x20 ∧ ch ≠ Char.ofNat 0x22 ∧ ch ≠ Char.ofNat 0x27) →
      ∃ argv1 cur1, cur1 ≠ []
        ∧ (rest.map fun g => List.replicate (g.1 + 1) (Char.ofNat 0x20) ++ g.2).flatten.foldl
              splitArgs_step
              { argv := argv, current := cur, escape := false, inquotes := Char.ofNat 0 }
            = { argv := argv1, current := cur1, escape := false, inquotes := Char.ofNat 0 }
        ∧ argv1 ++ [cur1] = argv ++ [cur] ++ rest.map Prod.snd
  | [], argv, cur, hc, _ => ⟨argv, cur, hc, rfl, by simp⟩
  | g :: rest, argv, cur, hc, h => by
    obtain ⟨hg1, hg2⟩ := h g (List.mem_cons_self _ _)
    obtain ⟨argv1, cur1, h1, h2, h3⟩ := splitArgs_spaced_tokens rest (argv ++ [cur]) g.2 hg1
      (fun x hx => h x (List.mem_cons_of_mem _ hx))
    refine ⟨argv1, cur1, h1, ?_, ?_⟩
    · rw [List.map_cons, List.flatten_cons, List.foldl_append, List.foldl_append,
        splitArgs_spaces_end_token argv cur hc g.1,
        splitArgs_outside_quote g.2 _ rfl rfl hg2]
      exact h2
    · rw [h3]; simp

/-- C32: round trip.  For tokens that are not empty and hold no space and no quote
character (a backslash may even occur), `splitArgs` applied to the tokens joined
by runs of one or more spaces, with any number of spaces before the first and
after the last, returns the list of the tokens in order; from spaces alone it
returns the empty list. -/
theorem splitArgs_round_trip (lead trail : Nat) (first : List Char)
    (rest : List (Nat × List Char))
    (hfirst : first ≠ [] ∧ ∀ ch ∈ first,
      ch ≠ Char.ofNat 0x20 ∧ ch ≠ Char.ofNat 0x22 ∧ ch ≠ Char.ofNat 0x27)
    (hrest : ∀ g ∈ rest, g.2 ≠ [] ∧ ∀ ch ∈ g.2,
      ch ≠ Char.ofNat 0x20 ∧ ch ≠ Char.ofNat 0x22 ∧ ch ≠ Char.ofNat 0x27) :
    splitArgs (List.replicate lead (Char.ofNat 0x20) ++ first
        ++ (rest.map fun g => List.replicate (g.1 + 1) (Char.ofNat 0x20) ++ g.2).flatten
        ++ List.replicate trail (Char.ofNat 0x20))
      = first :: rest.map Prod.snd
    ∧ splitArgs (List.replicate lead (Char.ofNat 0x20)) = [] := by
  constructor
  · obtain ⟨argv1, cur1, h1, h2, h3⟩ := splitArgs_spaced_tokens rest [] first hfirst.1 hrest
    have hloop : (List.replicate lead (Char.ofNat 0x20) ++ first
        ++ (rest.map fun g => List.replicate (g.1 + 1) (Char.ofNat 0x20) ++ g.2).flatten).foldl
          splitArgs_step SplitState.init
        = { argv := argv1, current := cur1, escape := false, inquotes := Char.ofNat 0 } := by
      rw [List.foldl_append, List.foldl_append,
        show SplitState.init
          = { argv := [], current := [], escape := false, inquotes := Char.ofNat 0 } from rfl,
        splitArgs_spaces_no_token [] lead,
        splitArgs_outside_quote first _ rfl rfl hfirst.2]
      exact h2
    have h3b : argv1 ++ [cur1] = first :: rest.map Prod.snd := by rw [h3]; rfl
    unfold splitArgs
    show (if ((_ ++ List.replicate trail (Char.ofNat 0x20)).foldl splitArgs_step
      SplitState.init).current ≠ [] then _ else _) = _
    rw [List.foldl_append, hloop]
    cases trail with
    | zero =>
      show (if cur1 ≠ [] then argv1 ++ [cur1] else argv1) = _
      rw [if_pos h1, h3b]
    | succ n =>
      rw [splitArgs_spaces_end_token argv1 cur1 h1 n]
      show (if ([] : List Char) ≠ [] then _ else argv1 ++ [cur1]) = _
      rw [if_neg (by simp), h3b]
  · unfold splitArgs
    show (if ((List.replicate lead (Char.ofNat 0x20)).foldl splitArgs_step
      SplitState.init).current ≠ [] then _ else _) = _
    rw [show SplitState.init
        = { argv := [], current := [], escape := false, inquotes := Char.ofNat 0 } from rfl,
      splitArgs_spaces_no_token [] lead]
    rfl

/-- An instance of `splitArgs_round_trip`. -/
theorem splitArgs_round_trip_witness :
    splitArgs (List.replicate 2 (Char.ofNat 0x20) ++ "/bin/echo".toList
        ++ ([(0, [Char.ofNat 0x61, Char.ofNat 0x5C, Char.ofNat 0x62]), (2, "%p".toList)].map
            fun g => List.replicate (g.1 + 1) (Char.ofNat 0x20) ++ g.2).flatten
        ++ List.replicate 1 (Char.ofNat 0x20))
      = ["/bin/echo".toList, [Char.ofNat 0x61, Char.ofNat 0x5C, Char.ofNat 0x62], "%p".toList]
    ∧ splitArgs (List.replicate 2 (Char.ofNat 0x20)) = [] :=
  splitArgs_round_trip 2 1 "/bin/echo".toList [(0, [Char.ofNat 0x61, Char.ofNat 0x5C, Char.ofNat 0x62]), (2, "%p".toList)]
    (by decide) (by decide)

end NetCatServer
